import Mathlib

/-!
A verification development for the brand-form repository.

The repository consists of a React form component (`src/unnamed/part_000`)
and a zod schema (`src/src/schemas/brand-schema.ts`).  The logic verified
here is:

* the color codec (`hexToRgb`, `rgbToHex`, `rgbToCmyk`, `cmykToRgb`,
  `hexToCmyk`, `cmykToHex`);
* the export pipeline inside `onSubmit` (asset renaming, archive layout,
  `src` rewriting);
* the zod validation schema (`brandDataSchema`).

Modelling conventions.  JavaScript strings are modelled as Lean `String`s
(ASCII inputs only); all string primitives the code uses (`split`, `trim`,
`replace`, `parseInt`, number formatting) are re-implemented on `List Char`
so that they evaluate by kernel reduction.  JavaScript numbers are modelled
as exact values: integers as `ℤ` (`Option ℤ` with `none` playing the role
of `NaN`), and the intermediate real arithmetic of the CMYK conversions as
`ℚ`.  The JS engine computes those intermediates in IEEE-754 doubles; the
rational model agrees with the doubles everywhere the theorems below
evaluate it (the concrete inputs used in counterexamples and witnesses were
chosen so that every floating-point operation is exact or falls strictly
inside a rounding interval).  `Math.round` (nearest integer, ties toward
+∞) is modelled by `fun q => ⌊q + 1/2⌋`, which coincides with it on exact
values.
-/

/-! ## JavaScript string primitives -/

/-- The ASCII whitespace characters matched by JS `\s` and trimmed by
`String.prototype.trim` (Unicode space characters are not modelled; no
input in this development contains them). -/
def isJsSpace (c : Char) : Bool :=
  c.toNat = 32 ∨ c.toNat = 9 ∨ c.toNat = 10 ∨ c.toNat = 13 ∨ c.toNat = 11 ∨ c.toNat = 12

/-- JS `s.split(',')` on a character list: split at every comma, keeping
empty pieces (`"".split(',')` is `[""]`). -/
def splitCommaChars : List Char → List (List Char)
  | [] => [[]]
  | c :: cs =>
    if c = ',' then [] :: splitCommaChars cs
    else
      match splitCommaChars cs with
      | [] => [[c]]
      | p :: ps => (c :: p) :: ps

/-- JS `s.split(',')`. -/
def jsSplitComma (s : String) : List String :=
  (splitCommaChars s.data).map String.mk

/-- JS `s.split('.')` (same splitting, on dots; used for file extensions). -/
def splitDotChars : List Char → List (List Char)
  | [] => [[]]
  | c :: cs =>
    if c = '.' then [] :: splitDotChars cs
    else
      match splitDotChars cs with
      | [] => [[c]]
      | p :: ps => (c :: p) :: ps

/-- JS `s.trim()`: strip leading and trailing whitespace. -/
def trimChars (cs : List Char) : List Char :=
  ((cs.dropWhile isJsSpace).reverse.dropWhile isJsSpace).reverse

/-- JS `s.trim()` on `String`. -/
def jsTrim (s : String) : String := String.mk (trimChars s.data)

/-- JS `hex.replace('#', '')` — a string pattern replaces only the first
occurrence. -/
def removeFirstHash : List Char → List Char
  | [] => []
  | c :: cs => if c = '#' then cs else c :: removeFirstHash cs

/-- JS `s.substring(a, b)` for `a ≤ b` (the only way the source calls it). -/
def jsSubstring (s : String) (a b : ℕ) : String :=
  String.mk ((s.data.drop a).take (b - a))

/-- Value of a decimal digit character. -/
def decDigitVal (c : Char) : Option ℕ :=
  if 48 ≤ c.toNat ∧ c.toNat ≤ 57 then some (c.toNat - 48) else none

/-- Value of a hexadecimal digit character (either case). -/
def hexDigitVal (c : Char) : Option ℕ :=
  if 48 ≤ c.toNat ∧ c.toNat ≤ 57 then some (c.toNat - 48)
  else if 97 ≤ c.toNat ∧ c.toNat ≤ 102 then some (c.toNat - 87)
  else if 65 ≤ c.toNat ∧ c.toNat ≤ 70 then some (c.toNat - 55)
  else none

/-- Accumulate the value of a maximal run of digits (stopping at the first
non-digit), as `parseInt` does after the sign. -/
def parseDigitsAux (base : ℕ) (dv : Char → Option ℕ) : List Char → ℕ → ℕ
  | [], acc => acc
  | c :: cs, acc =>
    match dv c with
    | some v => parseDigitsAux base dv cs (acc * base + v)
    | none => acc

/-- Parse a maximal nonempty run of digits; `none` when the first character
is not a digit (JS `parseInt` yields `NaN` then). -/
def parseRun (base : ℕ) (dv : Char → Option ℕ) (cs : List Char) : Option ℕ :=
  match cs with
  | [] => none
  | c :: _ => if (dv c).isSome then some (parseDigitsAux base dv cs 0) else none

/-- Optional leading sign of a JS `parseInt` input (after whitespace). -/
def splitSign (cs : List Char) : Bool × List Char :=
  match cs with
  | c :: rest => if c = '-' then (true, rest) else if c = '+' then (false, rest) else (false, c :: rest)
  | [] => (false, [])

/-- Whether the input starts with a `0x`/`0X` hex prefix. -/
def hasHexPrefix : List Char → Bool
  | c0 :: c1 :: _ => c0 == '0' && (c1 == 'x' || c1 == 'X')
  | _ => false

/-- Body of JS `parseInt` after whitespace stripping: optional sign, then
(for radix 16, or radix-less input starting with `0x`) an optional `0x`
prefix, then a maximal digit run.  `none` models `NaN`. -/
def jsParseIntSigned (radix16 : Bool) (cs : List Char) : Option ℤ :=
  let neg := (splitSign cs).1
  let cs1 := (splitSign cs).2
  let cs2 := if hasHexPrefix cs1 then cs1.drop 2 else cs1
  let run := if hasHexPrefix cs1 || radix16 then parseRun 16 hexDigitVal cs2
             else parseRun 10 decDigitVal cs2
  run.map (fun n => if neg then -(n : ℤ) else (n : ℤ))

/-- JS `parseInt(s)` (radix argument omitted): `none` models `NaN`.
Integers are modelled exactly; the double-precision loss of JS numbers
above 2^53 is irrelevant at every input these theorems touch. -/
def jsParseInt (s : String) : Option ℤ :=
  jsParseIntSigned false (s.data.dropWhile isJsSpace)

/-- JS `parseInt(s, 16)`. -/
def jsParseIntHex (s : String) : Option ℤ :=
  jsParseIntSigned true (s.data.dropWhile isJsSpace)

/-- Digit character (lowercase for values ≥ 10, as JS `toString(16)`). -/
def digitChar (d : ℕ) : Char :=
  Char.ofNat (if d < 10 then 48 + d else 87 + d)

/-- Decimal digits of `n`, most significant first; structural in a fuel
argument so that it evaluates by kernel reduction. -/
def natDigitsAux (base : ℕ) : ℕ → ℕ → List Char
  | 0, _ => []
  | fuel + 1, n =>
    if n < base then [digitChar n]
    else natDigitsAux base fuel (n / base) ++ [digitChar (n % base)]

/-- Decimal representation of a natural number (JS `${n}` for `n ≥ 0`). -/
def natToStr (n : ℕ) : String := String.mk (natDigitsAux 10 (n + 1) n)

/-- Lowercase hexadecimal representation of a natural number
(JS `n.toString(16)` for `n ≥ 0`). -/
def natToHexStr (n : ℕ) : String := String.mk (natDigitsAux 16 (n + 1) n)

/-- JS `${i}` for an integer-valued number (note `${-0}` is `"0"`). -/
def jsIntToStr (i : ℤ) : String :=
  if i < 0 then "-" ++ natToStr i.natAbs else natToStr i.natAbs

/-- JS `${x}` where `x` is an integer-valued number or `NaN`. -/
def jsNumToStr (x : Option ℤ) : String :=
  match x with
  | none => "NaN"
  | some i => jsIntToStr i

/-- JS `x.toString(16)` for an integer-valued number (negative numbers
render as `-` followed by the hex digits of the magnitude). -/
def jsIntToHexStr (i : ℤ) : String :=
  if i < 0 then "-" ++ natToHexStr i.natAbs else natToHexStr i.natAbs

/-- ECMAScript `Math.round`: nearest integer, ties toward +∞. -/
def jsRound (q : ℚ) : ℤ := ⌊q + 1 / 2⌋

/-! ## The color codec (translated from `src/unnamed/part_000`, lines 21–73) -/

/-- `hexToRgb` (source lines 21–28).  The source has no NaN guard: six
characters that are not hex digits flow into the formatted result. -/
def hexToRgb (hex : String) : String :=
  let cleaned := String.mk (removeFirstHash hex.data)
  if cleaned.length ≠ 6 then "" else
  let r := jsParseIntHex (jsSubstring cleaned 0 2)
  let g := jsParseIntHex (jsSubstring cleaned 2 4)
  let b := jsParseIntHex (jsSubstring cleaned 4 6)
  jsNumToStr r ++ ", " ++ jsNumToStr g ++ ", " ++ jsNumToStr b

/-- The parsed parts `rgb.split(',').map(v => parseInt(v.trim()))`. -/
def rgbParts (rgb : String) : List (Option ℤ) :=
  (jsSplitComma rgb).map (fun v => jsParseInt (jsTrim v))

/-- `rgbToHex` (source lines 37–45).  The source's `length !== 3 ||
parts.some(isNaN)` guard followed by destructuring is rendered as the
pattern match. -/
def rgbToHex (rgb : String) : String :=
  match rgbParts rgb with
  | [some r, some g, some b] =>
    "#" ++ ([r, g, b].map (fun x =>
      let hex := jsIntToHexStr x
      if hex.length = 1 then "0" ++ hex else hex)).foldl (· ++ ·) ""
  | _ => ""

/-- `rgbToCmyk` (source lines 47–57). -/
def rgbToCmyk (rgb : String) : String :=
  match rgbParts rgb with
  | [some r0, some g0, some b0] =>
    let r : ℚ := (r0 : ℚ) / 255
    let g : ℚ := (g0 : ℚ) / 255
    let b : ℚ := (b0 : ℚ) / 255
    let k : ℚ := 1 - max r (max g b)
    if k = 1 then "0, 0, 0, 100" else
    let c := jsRound (((1 - r - k) / (1 - k)) * 100)
    let m := jsRound (((1 - g - k) / (1 - k)) * 100)
    let y := jsRound (((1 - b - k) / (1 - k)) * 100)
    jsIntToStr c ++ ", " ++ jsIntToStr m ++ ", " ++ jsIntToStr y ++ ", " ++
      jsIntToStr (jsRound (k * 100))
  | _ => ""

/-- `hexToCmyk` (source lines 30–35).  The destructured components are
re-formatted and handed to `rgbToCmyk`; a non-empty `hexToRgb` result
always has exactly three comma-separated pieces, so the three-way
destructuring never sees `undefined`. -/
def hexToCmyk (hex : String) : String :=
  let rgb := hexToRgb hex
  if rgb = "" then "" else
  let parts := rgbParts rgb
  let r := (parts.getD 0 none)
  let g := (parts.getD 1 none)
  let b := (parts.getD 2 none)
  rgbToCmyk (jsNumToStr r ++ ", " ++ jsNumToStr g ++ ", " ++ jsNumToStr b)

/-- The parsed parts of a CMYK string. -/
def cmykParts (cmyk : String) : List (Option ℤ) :=
  (jsSplitComma cmyk).map (fun v => jsParseInt (jsTrim v))

/-- `cmykToRgb` (source lines 59–67). -/
def cmykToRgb (cmyk : String) : String :=
  match cmykParts cmyk with
  | [some c0, some m0, some y0, some k0] =>
    let c : ℚ := (c0 : ℚ) / 100
    let m : ℚ := (m0 : ℚ) / 100
    let y : ℚ := (y0 : ℚ) / 100
    let k : ℚ := (k0 : ℚ) / 100
    let r := jsRound (255 * (1 - c) * (1 - k))
    let g := jsRound (255 * (1 - m) * (1 - k))
    let b := jsRound (255 * (1 - y) * (1 - k))
    jsIntToStr r ++ ", " ++ jsIntToStr g ++ ", " ++ jsIntToStr b
  | _ => ""

/-- `cmykToHex` (source lines 69–73). -/
def cmykToHex (cmyk : String) : String :=
  let rgb := cmykToRgb cmyk
  if rgb = "" then "" else rgbToHex rgb

/-- Digits with canonical fuel. -/
def natDigits (base n : ℕ) : List Char := natDigitsAux base (n + 1) n

/-- Integer form of `Math.round (n / d)` for exact rationals. -/
def jsRoundDiv (n : ℤ) (d : ℕ) : ℤ := (2 * n + d) / (2 * d)

/-- Integer-level form of `rgbToCmyk` on already-parsed components: each
scaled percentage is an exact rational with denominator `m²` (resp. `255`
for the key component). -/
def cmykOfInts (r g b : ℤ) : String :=
  let m := max r (max g b)
  if m = 0 then "0, 0, 0, 100" else
  let c := jsRoundDiv ((m - r) * 100 * m) (m.natAbs * m.natAbs)
  let m2 := jsRoundDiv ((m - g) * 100 * m) (m.natAbs * m.natAbs)
  let y := jsRoundDiv ((m - b) * 100 * m) (m.natAbs * m.natAbs)
  let kk := jsRoundDiv ((255 - m) * 100) 255
  jsIntToStr c ++ ", " ++ jsIntToStr m2 ++ ", " ++ jsIntToStr y ++ ", " ++ jsIntToStr kk

/-- Integer-level form of `cmykToRgb` on already-parsed components. -/
def rgbOfCmykInts (c m y k : ℤ) : String :=
  let r := jsRoundDiv (255 * (100 - c) * (100 - k)) 10000
  let g := jsRoundDiv (255 * (100 - m) * (100 - k)) 10000
  let b := jsRoundDiv (255 * (100 - y) * (100 - k)) 10000
  jsIntToStr r ++ ", " ++ jsIntToStr g ++ ", " ++ jsIntToStr b

/-- The two padded hex digits of a byte, as produced inside `rgbToHex`. -/
def hexByteStr (n : ℕ) : String :=
  String.mk [digitChar (n / 16), digitChar (n % 16)]

/-! ## Target-format validity predicates -/

/-- A maximal block of one to three decimal digits, as required by the
schema regexes for RGB/CMYK components. -/
def digitsBlock (l : List Char) : Prop :=
  l ≠ [] ∧ l.length ≤ 3 ∧ ∀ c ∈ l, (decDigitVal c).isSome

/-- Syntactic validity of an RGB string, shaped exactly like the outputs of
`hexToRgb`/`cmykToRgb` and matching the schema regex
`^\d{1,3},\s*\d{1,3},\s*\d{1,3}$`. -/
def isValidRgbStr (s : String) : Prop :=
  ∃ la lb lc, digitsBlock la ∧ digitsBlock lb ∧ digitsBlock lc ∧
    s.data = la ++ ',' :: ' ' :: (lb ++ ',' :: ' ' :: lc)

/-- Syntactic validity of a CMYK string. -/
def isValidCmykStr (s : String) : Prop :=
  ∃ la lb lc ld, digitsBlock la ∧ digitsBlock lb ∧ digitsBlock lc ∧ digitsBlock ld ∧
    s.data = la ++ ',' :: ' ' :: (lb ++ ',' :: ' ' :: (lc ++ ',' :: ' ' :: ld))

/-- Syntactic validity of a hex color string (`#` plus six hex digits). -/
def isValidHexStr (s : String) : Prop :=
  ∃ c1 c2 c3 c4 c5 c6, (hexDigitVal c1).isSome ∧ (hexDigitVal c2).isSome ∧
    (hexDigitVal c3).isSome ∧ (hexDigitVal c4).isSome ∧ (hexDigitVal c5).isSome ∧
    (hexDigitVal c6).isSome ∧ s.data = ['#', c1, c2, c3, c4, c5, c6]

/-- The composite per-channel behaviour of hex→CMYK→hex on ℕ: `v` is the
channel value, `m` the maximum channel of the color (`0 < v ≤ m ≤ 255`). -/
def chanOutN (v m : ℕ) : ℕ :=
  let c := (2 * ((m - v) * 100 * m) + m * m) / (2 * (m * m))
  let kk := (2 * ((255 - m) * 100) + 255) / (2 * 255)
  (2 * (255 * (100 - c) * (100 - kk)) + 10000) / (2 * 10000)

/-- Round half away from zero (the rounding mode named by the spec). -/
def roundHalfAway (q : ℚ) : ℤ :=
  if 0 ≤ q then ⌊q + 1 / 2⌋ else -⌊-q + 1 / 2⌋

/-- A lowercase hex digit character (digit or `a`–`f`). -/
def isLowerHex (c : Char) : Prop :=
  (48 ≤ c.toNat ∧ c.toNat ≤ 57) ∨ (97 ≤ c.toNat ∧ c.toNat ≤ 102)

instance (c : Char) : Decidable (isLowerHex c) := by
  unfold isLowerHex
  infer_instance

/-! ## The brand kit data model (shapes from `src/src/schemas/brand-schema.ts`) -/

structure LogoVariant where
  label : String
  src : String
  deriving DecidableEq, Inhabited

structure Logo where
  name : String
  description : String
  variants : List LogoVariant
  deriving DecidableEq, Inhabited

structure ColorValues where
  hex : String
  rgb : String
  cmyk : String
  deriving DecidableEq, Inhabited

structure Color where
  name : String
  role : List String
  values : ColorValues
  deriving DecidableEq, Inhabited

structure FontSource where
  type : String
  family : String
  weights : List ℚ
  deriving DecidableEq, Inhabited

structure Font where
  name : String
  source : FontSource
  deriving DecidableEq, Inhabited

structure TypographyExample where
  label : String
  font : String
  sizePx : ℚ
  weight : ℚ
  text : String
  lineHeight : Option ℚ
  letterSpacing : Option String
  deriving DecidableEq, Inhabited

structure Typography where
  fonts : List Font
  examples : List TypographyExample
  deriving DecidableEq, Inhabited

structure GalleryItem where
  caption : Option String
  src : String
  deriving DecidableEq, Inhabited

structure BrandInfo where
  name : String
  description : String
  website : String
  updatedAt : String
  deriving DecidableEq, Inhabited

structure BrandData where
  brand : BrandInfo
  logos : List Logo
  colors : List Color
  typography : Typography
  gallery : List GalleryItem
  deriving DecidableEq, Inhabited

/-! ## The export pipeline (translated from `onSubmit`, source lines 151–207) -/

/-- A staged binary upload; the payload is carried around opaquely, so it
is modelled by an identifier. -/
structure JsFile where
  name : String
  content : ℕ
  deriving DecidableEq, Inhabited

/-- The `uploadedFiles` state (source lines 126–137): sparse per-variant
file arrays for logos, one file per gallery index, file lists per font.
`Object.entries` iterates integer-like keys in ascending numeric order;
theorems take the association lists with `Nodup` keys and in-bounds
indices as hypotheses (out-of-bounds indices would make the JS code throw). -/
structure UploadedFiles where
  logos : List (ℕ × List (Option JsFile))
  gallery : List (ℕ × JsFile)
  fonts : List (ℕ × List JsFile)
  deriving DecidableEq, Inhabited

/-- A JSZip container, as the list of (path, content) entries. -/
abbrev Zip := List (String × JsFile)

/-- JSZip `folder.file(name, content)`: adding an existing path replaces
its stored content, otherwise the entry is appended. -/
def zipFile (z : Zip) (path : String) (f : JsFile) : Zip :=
  if z.any (fun e => e.1 == path) then
    z.map (fun e => if e.1 = path then (path, f) else e)
  else z ++ [(path, f)]

/-- JS `file.name.split(".").pop()` — note a dot-free name is its own
"extension". -/
def jsExt (name : String) : String :=
  String.mk ((splitDotChars name.data).getLastD [])

/-- JS `String.prototype.toLowerCase` on ASCII (no input here contains
non-ASCII letters). -/
def jsToLower (c : Char) : Char :=
  if 65 ≤ c.toNat ∧ c.toNat ≤ 90 then Char.ofNat (c.toNat + 32) else c

/-- `.toLowerCase().replace(/\s+/g, "-")`: lowercase, and each maximal
whitespace run becomes one hyphen.  The flag records whether the previous
character was part of a whitespace run. -/
def slugAux : Bool → List Char → List Char
  | _, [] => []
  | inRun, c :: cs =>
    if isJsSpace c then
      (if inRun then slugAux true cs else '-' :: slugAux true cs)
    else jsToLower c :: slugAux false cs

def slugify (s : String) : String := String.mk (slugAux false s.data)

/-- Replace the element at an index, leaving the list unchanged when the
index is out of range (the JS code would throw there; all theorems assume
in-bounds indices). -/
def modifyAt {α : Type} (f : α → α) : ℕ → List α → List α
  | _, [] => []
  | 0, x :: xs => f x :: xs
  | n + 1, x :: xs => x :: modifyAt f n xs

/-- `data.logos[li].variants[vi].src = s` (source line 170). -/
def setVariantSrc (d : BrandData) (li vi : ℕ) (s : String) : BrandData :=
  { d with logos := modifyAt (fun lg =>
      { lg with variants := modifyAt (fun v => { v with src := s }) vi lg.variants }) li d.logos }

/-- `data.gallery[gi].src = s` (source line 180). -/
def setGallerySrc (d : BrandData) (gi : ℕ) (s : String) : BrandData :=
  { d with gallery := modifyAt (fun it => { it with src := s }) gi d.gallery }

/-- The logo-variant target filename (source lines 163–167). -/
def logoFilename (d : BrandData) (li vi : ℕ) (f : JsFile) : String :=
  slugify ((d.logos.getD li default).name) ++ "-" ++ natToStr (vi + 1) ++ "." ++ jsExt f.name

/-- The inner `files.forEach((file, variantIndex) => ...)` (source lines
162–171); holes in the sparse array are skipped by `forEach`. -/
def processLogoFiles (li : ℕ) : ℕ → List (Option JsFile) → Zip × BrandData → Zip × BrandData
  | _, [], acc => acc
  | vi, of :: rest, acc =>
    processLogoFiles li (vi + 1) rest
      (match of with
       | none => acc
       | some f =>
         let fname := logoFilename acc.2 li vi f
         (zipFile acc.1 ("assets/logos/" ++ fname) f,
          setVariantSrc acc.2 li vi ("/assets/logos/" ++ fname)))

/-- The outer loop over `Object.entries(uploadedFiles.logos)` (line 161). -/
def processLogos : List (ℕ × List (Option JsFile)) → Zip × BrandData → Zip × BrandData
  | [], acc => acc
  | (li, files) :: rest, acc => processLogos rest (processLogoFiles li 0 files acc)

/-- The gallery target filename (source line 177). -/
def galleryFilename (gi : ℕ) (f : JsFile) : String :=
  "photo-" ++ natToStr (gi + 1) ++ "." ++ jsExt f.name

/-- The gallery loop (source lines 175–181). -/
def processGallery : List (ℕ × JsFile) → Zip × BrandData → Zip × BrandData
  | [], acc => acc
  | (gi, f) :: rest, acc =>
    processGallery rest
      (zipFile acc.1 ("assets/gallery/" ++ galleryFilename gi f) f,
       setGallerySrc acc.2 gi ("/assets/gallery/" ++ galleryFilename gi f))

/-- The font target filename (source lines 186–189). -/
def fontFilename (d : BrandData) (fi : ℕ) (f : JsFile) : String :=
  slugify ((d.typography.fonts.getD fi default).name) ++ "-" ++ f.name

/-- The inner font `files.forEach` (source lines 185–191); nothing is
written back into the document. -/
def processFontFiles (fi : ℕ) : List JsFile → Zip × BrandData → Zip × BrandData
  | [], acc => acc
  | f :: rest, acc =>
    processFontFiles fi rest
      (zipFile acc.1 ("assets/fonts/" ++ fontFilename acc.2 fi f) f, acc.2)

/-- The fonts loop (source line 184). -/
def processFonts : List (ℕ × List JsFile) → Zip × BrandData → Zip × BrandData
  | [], acc => acc
  | (fi, files) :: rest, acc => processFonts rest (processFontFiles fi files acc)

/-- The result of `onSubmit`'s export: the asset entries, the rewritten
document (serialized as `data.json` at the archive root, sibling of
`assets/`), and the suggested archive filename (source line 202). -/
structure ExportResult where
  assets : Zip
  doc : BrandData
  zipName : String
  deriving DecidableEq, Inhabited

def exportKit (data : BrandData) (uf : UploadedFiles) : ExportResult :=
  let s1 := processLogos uf.logos ([], data)
  let s2 := processGallery uf.gallery s1
  let s3 := processFonts uf.fonts s2
  { assets := s3.1, doc := s3.2, zipName := slugify data.brand.name ++ "-brand-kit.zip" }

/-- The C1 scenario kit: one logo named `"Acme"` with a single variant. -/
def c1Kit : BrandData :=
  { brand := { name := "Acme Co", description := "d", website := "https://example.com",
               updatedAt := "2024-01-01" }
    logos := [{ name := "Acme", description := "primary mark",
                variants := [{ label := "PNG", src := "assets/logos/raw.png" }] }]
    colors := [{ name := "Ink", role := ["Primary"],
                 values := { hex := "#035259", rgb := "3, 82, 89", cmyk := "34, 3, 0, 65" } }]
    typography :=
      { fonts := [{ name := "Inter", source := { type := "google", family := "Inter",
                                                 weights := [400] } }]
        examples := [{ label := "Heading", font := "Inter", sizePx := 16, weight := 400,
                       text := "Designing", lineHeight := none, letterSpacing := none }] }
    gallery := [] }

/-- The C1 scenario pending assets: one PNG named `"raw.png"` staged in
slot (logo 0, variant 0). -/
def c1Files : UploadedFiles :=
  { logos := [(0, [some { name := "raw.png", content := 7 }])], gallery := [], fonts := [] }

/-- Everything the export pipeline preserves about the document: all
fields except the `src` strings of logo variants and gallery items. -/
def SameShape (d d' : BrandData) : Prop :=
  d'.brand = d.brand ∧ d'.colors = d.colors ∧ d'.typography = d.typography ∧
  d'.logos.length = d.logos.length ∧
  (∀ i, (d'.logos.getD i default).name = (d.logos.getD i default).name ∧
        (d'.logos.getD i default).description = (d.logos.getD i default).description ∧
        (d'.logos.getD i default).variants.length =
          (d.logos.getD i default).variants.length ∧
        ∀ j, ((d'.logos.getD i default).variants.getD j default).label =
             ((d.logos.getD i default).variants.getD j default).label) ∧
  d'.gallery.length = d.gallery.length ∧
  (∀ i, (d'.gallery.getD i default).caption = (d.gallery.getD i default).caption)

/-- The archive paths a logo entry's sparse file array will produce. -/
def logoPathsAux (d : BrandData) (li : ℕ) : ℕ → List (Option JsFile) → List String
  | _, [] => []
  | vi, none :: rest => logoPathsAux d li (vi + 1) rest
  | vi, some f :: rest =>
    ("assets/logos/" ++ logoFilename d li vi f) :: logoPathsAux d li (vi + 1) rest

/-- Every archive path the pending assets will produce, kind folder
included. -/
def pendingPaths (d : BrandData) (uf : UploadedFiles) : List String :=
  (uf.logos.map (fun e => logoPathsAux d e.1 0 e.2)).join ++
  uf.gallery.map (fun e => "assets/gallery/" ++ galleryFilename e.1 e.2) ++
  (uf.fonts.map (fun e => e.2.map (fun f => "assets/fonts/" ++ fontFilename d e.1 f))).join

/-- The C4 counterexample kit: two distinct logos that share the name
`"Acme"`, each with one variant. -/
def c4Kit : BrandData :=
  { c1Kit with logos :=
      [{ name := "Acme", description := "primary mark",
         variants := [{ label := "PNG", src := "a" }] },
       { name := "Acme", description := "alternate mark",
         variants := [{ label := "PNG", src := "b" }] }] }

/-- The C4 counterexample pending assets: one file per logo, staged at
variant 0 of each. -/
def c4Files : UploadedFiles :=
  { logos := [(0, [some { name := "a.png", content := 1 }]),
              (1, [some { name := "b.png", content := 2 }])],
    gallery := [], fonts := [] }

/-! ## The schema validator (translated from `src/src/schemas/brand-schema.ts`)

The candidate document is a JSON-like tree; zod walks it, collecting a
list of issues (field path + message).  The schema file's own constraints
and custom messages are translated exactly; zod-library internals that are
not part of this repository (the generic type-mismatch and enum messages,
and `.url()`) are modelled from the spec, with library-default messages
abbreviated — the claims concern issue paths and the schema's custom
messages. -/

/-- A JSON-like candidate document, the input shape the validator walks.
Numbers are exact rationals (doubles in range behave identically for the
comparisons the schema makes). -/
inductive Json where
  | str : String → Json
  | num : ℚ → Json
  | bool : Bool → Json
  | null : Json
  | arr : List Json → Json
  | obj : List (String × Json) → Json
  deriving Inhabited

/-- One step of an issue's field path: an object key or an array index. -/
inductive PathItem where
  | fld : String → PathItem
  | idx : ℕ → PathItem
  deriving DecidableEq, Inhabited

/-- A zod issue: the path of the offending field and a message. -/
structure ZodIssue where
  path : List PathItem
  message : String
  deriving DecidableEq, Inhabited

/-- The JSON type name used in type-mismatch messages. -/
def jsonTypeName : Json → String
  | .str _ => "string"
  | .num _ => "number"
  | .bool _ => "boolean"
  | .null => "null"
  | .arr _ => "array"
  | .obj _ => "object"

/-- Object key lookup (JS objects cannot repeat keys; the first match is
taken). -/
def jlookup (k : String) : List (String × Json) → Option Json
  | [] => none
  | e :: es => if k == e.1 then some e.2 else jlookup k es

/-- The issues of a validation result (none on success). -/
def errsOf {α : Type} : Except (List ZodIssue) α → List ZodIssue
  | .ok _ => []
  | .error es => es

/-- Whether a validation result is a success. -/
def exceptOk {α : Type} : Except (List ZodIssue) α → Bool
  | .ok _ => true
  | .error _ => false

/-- zod's issue-collecting composition: both sides are always evaluated
and their issues concatenated in schema order — no short-circuiting. -/
def zap {α β : Type} : Except (List ZodIssue) (α → β) → Except (List ZodIssue) α →
    Except (List ZodIssue) β
  | .ok f, .ok a => .ok (f a)
  | rf, ra => .error (errsOf rf ++ errsOf ra)

/-- The `z.string()` base check. -/
def vStr (path : List PathItem) : Json → Except (List ZodIssue) String
  | .str s => .ok s
  | j => .error [⟨path, "Expected string, received " ++ jsonTypeName j⟩]

/-- The `z.string().min(m, msg)` check. -/
def vStrMin (m : ℕ) (msg : String) (path : List PathItem) (j : Json) :
    Except (List ZodIssue) String :=
  match vStr path j with
  | .ok s => if m ≤ s.length then .ok s else .error [⟨path, msg⟩]
  | .error es => .error es

/-- A `z.string().regex(re, msg)`-style check with the regex realized as a
boolean predicate. -/
def vStrCheck (ok : String → Bool) (msg : String) (path : List PathItem) (j : Json) :
    Except (List ZodIssue) String :=
  match vStr path j with
  | .ok s => if ok s then .ok s else .error [⟨path, msg⟩]
  | .error es => .error es

/-- The `z.number()` base check. -/
def vNum (path : List PathItem) : Json → Except (List ZodIssue) ℚ
  | .num q => .ok q
  | j => .error [⟨path, "Expected number, received " ++ jsonTypeName j⟩]

/-- The `z.number().min(lo, msg)` check. -/
def vNumMin (lo : ℚ) (msg : String) (path : List PathItem) (j : Json) :
    Except (List ZodIssue) ℚ :=
  match vNum path j with
  | .ok q => if q < lo then .error [⟨path, msg⟩] else .ok q
  | .error es => .error es

/-- The `z.number().min(lo).max(hi)` check; both bounds are checked and
all issues collected. -/
def vNumRange (lo hi : ℚ) (loMsg hiMsg : String) (path : List PathItem) (j : Json) :
    Except (List ZodIssue) ℚ :=
  match vNum path j with
  | .ok q =>
    match (if q < lo then [(⟨path, loMsg⟩ : ZodIssue)] else []) ++
        (if hi < q then [(⟨path, hiMsg⟩ : ZodIssue)] else []) with
    | [] => .ok q
    | es => .error es
  | .error es => .error es

/-- The `z.enum([...])` check. -/
def vEnum (options : List String) (path : List PathItem) (j : Json) :
    Except (List ZodIssue) String :=
  match j with
  | .str s => if options.contains s then .ok s else .error [⟨path, "Invalid enum value"⟩]
  | j => .error [⟨path, "Expected string, received " ++ jsonTypeName j⟩]

/-- An `.optional()` field: an absent key is accepted as `none`. -/
def vOptional {α : Type} (v : List PathItem → Json → Except (List ZodIssue) α)
    (path : List PathItem) : Option Json → Except (List ZodIssue) (Option α)
  | none => .ok none
  | some j =>
    match v path j with
    | .ok a => .ok (some a)
    | .error es => .error es

/-- A required field: an absent key is the zod `Required` issue. -/
def vReq {α : Type} (v : List PathItem → Json → Except (List ZodIssue) α)
    (path : List PathItem) : Option Json → Except (List ZodIssue) α
  | none => .error [⟨path, "Required"⟩]
  | some j => v path j

/-- Element-wise array validation: every element is validated at its
indexed path and ALL issues are collected. -/
def vElems {α : Type} (v : List PathItem → Json → Except (List ZodIssue) α)
    (path : List PathItem) : ℕ → List Json → Except (List ZodIssue) (List α)
  | _, [] => .ok []
  | i, x :: xs =>
    match v (path ++ [.idx i]) x, vElems v path (i + 1) xs with
    | .ok a, .ok as => .ok (a :: as)
    | ra, ras => .error (errsOf ra ++ errsOf ras)

/-- The `z.array(inner).min(minN, minMsg)` check: the length check and the
element checks all run, the length issue reported first as zod does. -/
def vArrayMin {α : Type} (v : List PathItem → Json → Except (List ZodIssue) α)
    (minN : ℕ) (minMsg : String) (path : List PathItem) :
    Option Json → Except (List ZodIssue) (List α)
  | none => .error [⟨path, "Required"⟩]
  | some (.arr xs) =>
    match (if xs.length < minN then [(⟨path, minMsg⟩ : ZodIssue)] else []),
        vElems v path 0 xs with
    | [], r => r
    | ms, r => .error (ms ++ errsOf r)
  | some j => .error [⟨path, "Expected array, received " ++ jsonTypeName j⟩]

/-- The `z.array(inner).default([])` check (source line 80): an absent key
yields the default empty list with no issue. -/
def vArrayDefault {α : Type} (v : List PathItem → Json → Except (List ZodIssue) α)
    (path : List PathItem) : Option Json → Except (List ZodIssue) (List α)
  | none => .ok []
  | some j => vArrayMin v 0 "" path (some j)

/-- Decimal digit test for the schema regexes. -/
def isDecDig (c : Char) : Bool := (decDigitVal c).isSome

/-- Hex digit test (`[0-9A-Fa-f]`). -/
def isHexDig (c : Char) : Bool := (hexDigitVal c).isSome

/-- The hex regex `^#[0-9A-Fa-f]\x7b6\x7d$` (source line 18). -/
def hexRegexOk (s : String) : Bool :=
  match s.data with
  | '#' :: rest => rest.length == 6 && rest.all isHexDig
  | _ => false

/-- Consume a greedy digit run that the regex requires to have length
1–3 (a longer run cannot be split, because the next required character is
never a digit). -/
def chompDigits13 (cs : List Char) : Option (List Char) :=
  let run := cs.takeWhile isDecDig
  if 1 ≤ run.length && run.length ≤ 3 then some (cs.drop run.length) else none

/-- Consume one expected character. -/
def chompChar (c : Char) : List Char → Option (List Char)
  | d :: rest => if d == c then some rest else none
  | [] => none

/-- Consume a greedy whitespace run. -/
def chompSpaces (cs : List Char) : List Char := cs.dropWhile isJsSpace

/-- Consume `n` repetitions of a comma, optional whitespace, and a 1–3
digit group. -/
def chompGroups : ℕ → List Char → Option (List Char)
  | 0, cs => some cs
  | n + 1, cs =>
    match chompChar ',' cs with
    | none => none
    | some r1 =>
      match chompDigits13 (chompSpaces r1) with
      | none => none
      | some r2 => chompGroups n r2

/-- The comma-separated digit-group regexes of source lines 19–20, with
`n + 1` groups in total: the rgb regex is `n = 2`, the cmyk regex `n = 3`. -/
def sepDigitsRegexOk (n : ℕ) (s : String) : Bool :=
  match chompDigits13 s.data with
  | none => false
  | some r1 =>
    match chompGroups n r1 with
    | none => false
    | some r2 => r2.isEmpty

/-- Consume a digit run the regex requires to have exact length `n`. -/
def chompDigitsExact (n : ℕ) (cs : List Char) : Option (List Char) :=
  let run := cs.takeWhile isDecDig
  if run.length == n then some (cs.drop n) else none

/-- The date regex of source line 71 (four digits, dash, two digits,
dash, two digits). -/
def dateRegexOk (s : String) : Bool :=
  match chompDigitsExact 4 s.data with
  | none => false
  | some r1 =>
    match chompChar '-' r1 with
    | none => false
    | some r2 =>
      match chompDigitsExact 2 r2 with
      | none => false
      | some r3 =>
        match chompChar '-' r3 with
        | none => false
        | some r4 =>
          match chompDigitsExact 2 r4 with
          | none => false
          | some r5 => r5.isEmpty

/-- ASCII letter test for URL schemes. -/
def isUrlLetter (c : Char) : Bool :=
  (97 ≤ c.toNat && c.toNat ≤ 122) || (65 ≤ c.toNat && c.toNat ≤ 90)

/-- Modelled from the spec: `website` must be an absolute URL.  zod's
`.url()` implementation is not part of this repository, so an absolute
URL is modelled as a nonempty letter-initiated scheme, `"://"`, and a
nonempty remainder. -/
def isAbsoluteUrl (s : String) : Bool :=
  let scheme := s.data.takeWhile isUrlLetter
  !scheme.isEmpty &&
    (match s.data.drop scheme.length with
     | ':' :: '/' :: '/' :: r => !r.isEmpty
     | _ => false)

/-- The `logoVariantSchema` (source lines 4–7). -/
def vLogoVariant (path : List PathItem) (j : Json) : Except (List ZodIssue) LogoVariant :=
  match j with
  | .obj fs =>
    zap (zap (.ok LogoVariant.mk)
      (vReq (vStrMin 1 "Label is required") (path ++ [.fld "label"]) (jlookup "label" fs)))
      (vReq (vStrMin 1 "Source path is required") (path ++ [.fld "src"]) (jlookup "src" fs))
  | j => .error [⟨path, "Expected object, received " ++ jsonTypeName j⟩]

/-- The `logoSchema` (source lines 10–14). -/
def vLogo (path : List PathItem) (j : Json) : Except (List ZodIssue) Logo :=
  match j with
  | .obj fs =>
    zap (zap (zap (.ok Logo.mk)
      (vReq (vStrMin 1 "Logo name is required") (path ++ [.fld "name"]) (jlookup "name" fs)))
      (vReq (vStrMin 1 "Description is required") (path ++ [.fld "description"])
        (jlookup "description" fs)))
      (vArrayMin vLogoVariant 1 "At least one variant is required"
        (path ++ [.fld "variants"]) (jlookup "variants" fs))
  | j => .error [⟨path, "Expected object, received " ++ jsonTypeName j⟩]

/-- The `colorValuesSchema` (source lines 17–21). -/
def vColorValues (path : List PathItem) (j : Json) : Except (List ZodIssue) ColorValues :=
  match j with
  | .obj fs =>
    zap (zap (zap (.ok ColorValues.mk)
      (vReq (vStrCheck hexRegexOk "Must be a valid hex color (e.g., #035259)")
        (path ++ [.fld "hex"]) (jlookup "hex" fs)))
      (vReq (vStrCheck (sepDigitsRegexOk 2) "Must be in format: R, G, B (e.g., 3, 82, 89)")
        (path ++ [.fld "rgb"]) (jlookup "rgb" fs)))
      (vReq (vStrCheck (sepDigitsRegexOk 3) "Must be in format: C, M, Y, K (e.g., 34, 3, 0, 65)")
        (path ++ [.fld "cmyk"]) (jlookup "cmyk" fs))
  | j => .error [⟨path, "Expected object, received " ++ jsonTypeName j⟩]

/-- The `colorSchema` (source lines 24–28). -/
def vColor (path : List PathItem) (j : Json) : Except (List ZodIssue) Color :=
  match j with
  | .obj fs =>
    zap (zap (zap (.ok Color.mk)
      (vReq (vStrMin 1 "Color name is required") (path ++ [.fld "name"]) (jlookup "name" fs)))
      (vArrayMin (vEnum ["Primary", "Secondary", "Data"]) 1 "At least one role is required"
        (path ++ [.fld "role"]) (jlookup "role" fs)))
      (vReq vColorValues (path ++ [.fld "values"]) (jlookup "values" fs))
  | j => .error [⟨path, "Expected object, received " ++ jsonTypeName j⟩]

/-- The `fontSourceSchema` (source lines 31–35). -/
def vFontSource (path : List PathItem) (j : Json) : Except (List ZodIssue) FontSource :=
  match j with
  | .obj fs =>
    zap (zap (zap (.ok FontSource.mk)
      (vReq (vEnum ["google", "local", "url"]) (path ++ [.fld "type"]) (jlookup "type" fs)))
      (vReq (vStrMin 1 "Font family is required") (path ++ [.fld "family"])
        (jlookup "family" fs)))
      (vArrayMin vNum 1 "At least one font weight is required" (path ++ [.fld "weights"])
        (jlookup "weights" fs))
  | j => .error [⟨path, "Expected object, received " ++ jsonTypeName j⟩]

/-- The `fontSchema` (source lines 38–41). -/
def vFont (path : List PathItem) (j : Json) : Except (List ZodIssue) Font :=
  match j with
  | .obj fs =>
    zap (zap (.ok Font.mk)
      (vReq (vStrMin 1 "Font name is required") (path ++ [.fld "name"]) (jlookup "name" fs)))
      (vReq vFontSource (path ++ [.fld "source"]) (jlookup "source" fs))
  | j => .error [⟨path, "Expected object, received " ++ jsonTypeName j⟩]

/-- The `typographyExampleSchema` (source lines 44–52). -/
def vTypographyExample (path : List PathItem) (j : Json) :
    Except (List ZodIssue) TypographyExample :=
  match j with
  | .obj fs =>
    zap (zap (zap (zap (zap (zap (zap (.ok TypographyExample.mk)
      (vReq (vStrMin 1 "Label is required") (path ++ [.fld "label"]) (jlookup "label" fs)))
      (vReq (vStrMin 1 "Font is required") (path ++ [.fld "font"]) (jlookup "font" fs)))
      (vReq (vNumMin 1 "Size must be at least 1px") (path ++ [.fld "sizePx"])
        (jlookup "sizePx" fs)))
      (vReq (vNumRange 100 900 "Number must be greater than or equal to 100"
        "Number must be less than or equal to 900") (path ++ [.fld "weight"])
        (jlookup "weight" fs)))
      (vReq (vStrMin 1 "Example text is required") (path ++ [.fld "text"])
        (jlookup "text" fs)))
      (vOptional vNum (path ++ [.fld "lineHeight"]) (jlookup "lineHeight" fs)))
      (vOptional vStr (path ++ [.fld "letterSpacing"]) (jlookup "letterSpacing" fs))
  | j => .error [⟨path, "Expected object, received " ++ jsonTypeName j⟩]

/-- The `typographySchema` (source lines 55–58). -/
def vTypography (path : List PathItem) (j : Json) : Except (List ZodIssue) Typography :=
  match j with
  | .obj fs =>
    zap (zap (.ok Typography.mk)
      (vArrayMin vFont 1 "At least one font is required" (path ++ [.fld "fonts"])
        (jlookup "fonts" fs)))
      (vArrayMin vTypographyExample 1 "At least one example is required"
        (path ++ [.fld "examples"]) (jlookup "examples" fs))
  | j => .error [⟨path, "Expected object, received " ++ jsonTypeName j⟩]

/-- The `galleryItemSchema` (source lines 61–64). -/
def vGalleryItem (path : List PathItem) (j : Json) : Except (List ZodIssue) GalleryItem :=
  match j with
  | .obj fs =>
    zap (zap (.ok GalleryItem.mk)
      (vOptional vStr (path ++ [.fld "caption"]) (jlookup "caption" fs)))
      (vReq (vStrMin 1 "Source path is required") (path ++ [.fld "src"]) (jlookup "src" fs))
  | j => .error [⟨path, "Expected object, received " ++ jsonTypeName j⟩]

/-- The `brandInfoSchema` (source lines 67–72). -/
def vBrandInfo (path : List PathItem) (j : Json) : Except (List ZodIssue) BrandInfo :=
  match j with
  | .obj fs =>
    zap (zap (zap (zap (.ok BrandInfo.mk)
      (vReq (vStrMin 1 "Brand name is required") (path ++ [.fld "name"]) (jlookup "name" fs)))
      (vReq (vStrMin 1 "Description is required") (path ++ [.fld "description"])
        (jlookup "description" fs)))
      (vReq (vStrCheck isAbsoluteUrl "Must be a valid URL") (path ++ [.fld "website"])
        (jlookup "website" fs)))
      (vReq (vStrCheck dateRegexOk "Must be in format: YYYY-MM-DD") (path ++ [.fld "updatedAt"])
        (jlookup "updatedAt" fs))
  | j => .error [⟨path, "Expected object, received " ++ jsonTypeName j⟩]

/-- The `brandDataSchema` (source lines 75–81). -/
def vBrandData (j : Json) : Except (List ZodIssue) BrandData :=
  match j with
  | .obj fs =>
    zap (zap (zap (zap (zap (.ok BrandData.mk)
      (vReq vBrandInfo [.fld "brand"] (jlookup "brand" fs)))
      (vArrayMin vLogo 1 "At least one logo is required" [.fld "logos"]
        (jlookup "logos" fs)))
      (vArrayMin vColor 1 "At least one color is required" [.fld "colors"]
        (jlookup "colors" fs)))
      (vReq vTypography [.fld "typography"] (jlookup "typography" fs)))
      (vArrayDefault vGalleryItem [.fld "gallery"] (jlookup "gallery" fs))
  | j => .error [⟨[], "Expected object, received " ++ jsonTypeName j⟩]

/-- The brand section of the concrete candidate documents. -/
def jBrand : Json :=
  .obj [("name", .str "Acme Co"), ("description", .str "d"),
        ("website", .str "https://example.com"), ("updatedAt", .str "2024-01-01")]

/-- The logos section of the concrete candidate documents. -/
def jLogos : Json :=
  .arr [.obj [("name", .str "Acme"), ("description", .str "primary mark"),
    ("variants", .arr [.obj [("label", .str "PNG"), ("src", .str "assets/logos/raw.png")]])]]

/-- The colors section of the concrete candidate documents. -/
def jColors : Json :=
  .arr [.obj [("name", .str "Ink"), ("role", .arr [.str "Primary"]),
    ("values", .obj [("hex", .str "#035259"), ("rgb", .str "3, 82, 89"),
                     ("cmyk", .str "34, 3, 0, 65")])]]

/-- The colors section with the malformed hex value `"#ZZZZZZ"`. -/
def jColorsBad : Json :=
  .arr [.obj [("name", .str "Ink"), ("role", .arr [.str "Primary"]),
    ("values", .obj [("hex", .str "#ZZZZZZ"), ("rgb", .str "3, 82, 89"),
                     ("cmyk", .str "34, 3, 0, 65")])]]

/-- The typography section of the concrete candidate documents. -/
def jTypography : Json :=
  .obj [("fonts", .arr [.obj [("name", .str "Inter"),
          ("source", .obj [("type", .str "google"), ("family", .str "Inter"),
                           ("weights", .arr [.num 400])])]]),
        ("examples", .arr [.obj [("label", .str "Heading"), ("font", .str "Inter"),
          ("sizePx", .num 16), ("weight", .num 400), ("text", .str "Designing")]])]

/-- A fully valid candidate document. -/
def baseFields : List (String × Json) :=
  [("brand", jBrand), ("logos", jLogos), ("colors", jColors),
   ("typography", jTypography), ("gallery", .arr [])]

/-- A candidate valid except for the hex value `"#ZZZZZZ"`. -/
def c6Fields : List (String × Json) :=
  [("brand", jBrand), ("logos", jLogos), ("colors", jColorsBad),
   ("typography", jTypography), ("gallery", .arr [])]

/-- A valid candidate with the `gallery` key entirely omitted. -/
def c10Fields : List (String × Json) :=
  [("brand", jBrand), ("logos", jLogos), ("colors", jColors), ("typography", jTypography)]

/-- A candidate with two violations: empty `logos` and empty `colors`. -/
def c7FieldsA : List (String × Json) :=
  [("brand", jBrand), ("logos", .arr []), ("colors", .arr []),
   ("typography", jTypography), ("gallery", .arr [])]

/-- The same candidate as `c7FieldsA` with its first two fields written in
the opposite order. -/
def c7FieldsB : List (String × Json) :=
  [("logos", .arr []), ("brand", jBrand), ("colors", .arr []),
   ("typography", jTypography), ("gallery", .arr [])]

mutual
/-- Two candidate documents that differ only in the ORDER of object
fields: atoms must agree, arrays are compared pointwise (order of array
elements is data), objects by key lookup (`JOptRel` relates the two
lookup results: both absent, or both present and equivalent). -/
inductive JEquiv : Json → Json → Prop where
  | str (s : String) : JEquiv (.str s) (.str s)
  | num (q : ℚ) : JEquiv (.num q) (.num q)
  | bool (c : Bool) : JEquiv (.bool c) (.bool c)
  | null : JEquiv .null .null
  | arr (xs ys : List Json) (hlen : xs.length = ys.length)
      (h : ∀ i, JEquiv (xs.getD i .null) (ys.getD i .null)) : JEquiv (.arr xs) (.arr ys)
  | obj (xs ys : List (String × Json))
      (h : ∀ k, JOptRel (jlookup k xs) (jlookup k ys)) : JEquiv (.obj xs) (.obj ys)

inductive JOptRel : Option Json → Option Json → Prop where
  | none : JOptRel none none
  | some {a b : Json} : JEquiv a b → JOptRel (some a) (some b)
end

/-! ## Properties of the string primitives -/

theorem digitChar_val_hex : ∀ d < 16, hexDigitVal (digitChar d) = some d := by decide

theorem digitChar_val_dec : ∀ d < 10, decDigitVal (digitChar d) = some d := by decide

theorem decDigitVal_bounds {c : Char} {v : ℕ} (h : decDigitVal c = some v) :
    48 ≤ c.toNat ∧ c.toNat ≤ 57 ∧ v = c.toNat - 48 := by
  unfold decDigitVal at h
  split at h
  · simp only [Option.some.injEq] at h
    omega
  · exact absurd h (by simp)

theorem hexDigitVal_bounds {c : Char} {v : ℕ} (h : hexDigitVal c = some v) :
    (48 ≤ c.toNat ∧ c.toNat ≤ 57) ∨ (97 ≤ c.toNat ∧ c.toNat ≤ 102) ∨
      (65 ≤ c.toNat ∧ c.toNat ≤ 70) := by
  unfold hexDigitVal at h
  split at h
  · left; assumption
  split at h
  · right; left; assumption
  split at h
  · right; right; assumption
  · exact absurd h (by simp)

theorem decDigitVal_isSome_hex {c : Char} {v : ℕ} (h : decDigitVal c = some v) :
    hexDigitVal c = some v := by
  obtain ⟨h1, h2, h3⟩ := decDigitVal_bounds h
  unfold hexDigitVal
  rw [if_pos ⟨h1, h2⟩, h3]

theorem hexDigit_not_space {c : Char} {v : ℕ} (h : hexDigitVal c = some v) :
    isJsSpace c = false := by
  rcases hexDigitVal_bounds h with h' | h' | h' <;>
    simp only [isJsSpace, decide_eq_false_iff_not] <;> omega

theorem hexDigit_ne_signs {c : Char} {v : ℕ} (h : hexDigitVal c = some v) :
    c ≠ '-' ∧ c ≠ '+' ∧ c ≠ 'x' ∧ c ≠ 'X' := by
  have hx : ('-').toNat = 45 ∧ ('+').toNat = 43 ∧ ('x').toNat = 120 ∧ ('X').toNat = 88 := by decide
  rcases hexDigitVal_bounds h with h' | h' | h' <;>
    refine ⟨fun hc => ?_, fun hc => ?_, fun hc => ?_, fun hc => ?_⟩ <;>
      (subst hc; omega)

theorem decDigit_not_space {c : Char} {v : ℕ} (h : decDigitVal c = some v) :
    isJsSpace c = false :=
  hexDigit_not_space (decDigitVal_isSome_hex h)

theorem decDigit_ne_signs {c : Char} {v : ℕ} (h : decDigitVal c = some v) :
    c ≠ '-' ∧ c ≠ '+' ∧ c ≠ 'x' ∧ c ≠ 'X' :=
  hexDigit_ne_signs (decDigitVal_isSome_hex h)

theorem parseDigitsAux_append {base : ℕ} {dv : Char → Option ℕ} {l1 : List Char}
    (h : ∀ c ∈ l1, (dv c).isSome) (l2 : List Char) (acc : ℕ) :
    parseDigitsAux base dv (l1 ++ l2) acc =
      parseDigitsAux base dv l2 (parseDigitsAux base dv l1 acc) := by
  induction l1 generalizing acc with
  | nil => rfl
  | cons c cs ih =>
    have hc : (dv c).isSome := h c (List.mem_cons_self c cs)
    obtain ⟨v, hv⟩ := Option.isSome_iff_exists.mp hc
    simp only [List.cons_append, parseDigitsAux, hv, List.append_eq]
    exact ih (fun c' hc' => h c' (List.mem_cons_of_mem c hc')) (acc * base + v)

theorem natDigitsAux_fuel {base : ℕ} (hb : 2 ≤ base) :
    ∀ n f1 f2, n ≤ f1 → n ≤ f2 →
      natDigitsAux base (f1 + 1) n = natDigitsAux base (f2 + 1) n := by
  intro n
  induction n using Nat.strong_induction_on with
  | _ n ih =>
    intro f1 f2 h1 h2
    simp only [natDigitsAux]
    split
    · rfl
    · rename_i hge
      have hn : base ≤ n := le_of_not_lt hge
      obtain ⟨f1', rfl⟩ : ∃ f1', f1 = f1' + 1 := ⟨f1 - 1, by omega⟩
      obtain ⟨f2', rfl⟩ : ∃ f2', f2 = f2' + 1 := ⟨f2 - 1, by omega⟩
      have hdiv : n / base < n := Nat.div_lt_self (by omega) (by omega)
      rw [ih (n / base) hdiv f1' f2' (by omega) (by omega)]

theorem natDigits_eq {base : ℕ} (hb : 2 ≤ base) (n : ℕ) :
    natDigits base n =
      if n < base then [digitChar n]
      else natDigits base (n / base) ++ [digitChar (n % base)] := by
  by_cases h : n < base
  · rw [if_pos h]
    show natDigitsAux base (n + 1) n = _
    simp only [natDigitsAux, if_pos h]
  · rw [if_neg h]
    show natDigitsAux base (n + 1) n = _
    simp only [natDigitsAux, if_neg h]
    congr 1
    have hn : base ≤ n := le_of_not_lt h
    obtain ⟨m, rfl⟩ : ∃ m, n = m + 1 := ⟨n - 1, by omega⟩
    have hdiv : (m + 1) / base ≤ m := by
      have hx : (m + 1) / base < m + 1 := Nat.div_lt_self (by omega) (by omega)
      omega
    exact natDigitsAux_fuel hb ((m + 1) / base) m ((m + 1) / base) hdiv le_rfl

theorem natDigits_mem {base : ℕ} (hb : 2 ≤ base) (n : ℕ) :
    ∀ c ∈ natDigits base n, ∃ d, d < base ∧ c = digitChar d := by
  induction n using Nat.strong_induction_on with
  | _ n ih =>
    rw [natDigits_eq hb]
    split
    · rename_i h
      intro c hc
      simp only [List.mem_singleton] at hc
      exact ⟨n, h, hc⟩
    · rename_i hge
      intro c hc
      rcases List.mem_append.mp hc with h' | h'
      · exact ih (n / base) (Nat.div_lt_self (by omega) (by omega)) c h'
      · simp only [List.mem_singleton] at h'
        exact ⟨n % base, Nat.mod_lt n (by omega), h'⟩

theorem natDigits_ne_nil {base : ℕ} (hb : 2 ≤ base) (n : ℕ) :
    natDigits base n ≠ [] := by
  rw [natDigits_eq hb]
  split
  · simp
  · simp

theorem natDigits_parse {base : ℕ} {dv : Char → Option ℕ} (hb : 2 ≤ base)
    (hdv : ∀ d < base, dv (digitChar d) = some d) (n : ℕ) :
    ∀ acc, parseDigitsAux base dv (natDigits base n) acc =
      acc * base ^ (natDigits base n).length + n := by
  have hsome : ∀ m, ∀ c ∈ natDigits base m, (dv c).isSome := by
    intro m c hc
    obtain ⟨d, hd, rfl⟩ := natDigits_mem hb m c hc
    rw [hdv d hd]; rfl
  induction n using Nat.strong_induction_on with
  | _ n ih =>
    intro acc
    rw [natDigits_eq hb]
    split
    · rename_i h
      simp only [parseDigitsAux, hdv n h, List.length_singleton, pow_one]
    · rename_i hge
      have hdiv : n / base < n := Nat.div_lt_self (by omega) (by omega)
      rw [parseDigitsAux_append (hsome (n / base)), ih (n / base) hdiv acc]
      simp only [parseDigitsAux, hdv (n % base) (Nat.mod_lt n (by omega)),
        List.length_append, List.length_singleton]
      rw [pow_succ]
      have := Nat.div_add_mod n base
      ring_nf
      omega

theorem natDigits_length_le {base : ℕ} (hb : 2 ≤ base) :
    ∀ k n, n < base ^ (k + 1) → (natDigits base n).length ≤ k + 1 := by
  intro k
  induction k with
  | zero =>
    intro n hn
    rw [natDigits_eq hb, if_pos (by simpa using hn)]
    simp
  | succ k ihk =>
    intro n hn
    rw [natDigits_eq hb]
    split
    · simp
    · rename_i hge
      have hdivlt : n / base < base ^ (k + 1) := by
        rw [Nat.div_lt_iff_lt_mul (by omega)]
        calc n < base ^ (k + 2) := hn
        _ = base ^ (k + 1) * base := by ring
      simp only [List.length_append, List.length_singleton]
      have := ihk (n / base) hdivlt
      omega

theorem natDigits_head_pos {base : ℕ} (hb : 2 ≤ base) :
    ∀ n, 1 ≤ n → ∃ d rest, natDigits base n = digitChar d :: rest ∧ 1 ≤ d ∧ d < base := by
  intro n
  induction n using Nat.strong_induction_on with
  | _ n ih =>
    intro hn
    rw [natDigits_eq hb]
    split
    · rename_i h
      exact ⟨n, [], rfl, hn, h⟩
    · rename_i hge
      have hqpos : 1 ≤ n / base := (Nat.one_le_div_iff (by omega)).mpr (by omega)
      obtain ⟨d, rest, hd, h1, h2⟩ :=
        ih (n / base) (Nat.div_lt_self (by omega) (by omega)) hqpos
      exact ⟨d, rest ++ [digitChar (n % base)], by rw [hd]; rfl, h1, h2⟩

theorem parseRun_natDigits {base : ℕ} {dv : Char → Option ℕ} (hb : 2 ≤ base)
    (hdv : ∀ d < base, dv (digitChar d) = some d) (n : ℕ) :
    parseRun base dv (natDigits base n) = some n := by
  obtain ⟨c, rest, hc⟩ := List.exists_cons_of_ne_nil (natDigits_ne_nil hb n)
  obtain ⟨d, hd, hcd⟩ := natDigits_mem hb n c (hc ▸ List.mem_cons_self c rest)
  have hsome : (dv c).isSome := by rw [hcd, hdv d hd]; rfl
  rw [hc]
  show (if (dv c).isSome then some (parseDigitsAux base dv (c :: rest) 0) else none) = some n
  rw [if_pos hsome, ← hc, natDigits_parse hb hdv n 0, zero_mul, zero_add]

/-- Character-class facts about digit characters, checked by enumeration. -/
theorem digitChar_class : ∀ d < 16,
    isJsSpace (digitChar d) = false ∧ digitChar d ≠ ',' ∧ digitChar d ≠ '-' ∧
      digitChar d ≠ '+' ∧ digitChar d ≠ 'x' ∧ digitChar d ≠ 'X' ∧ digitChar d ≠ '#' ∧
      digitChar d ≠ '.' := by decide

theorem natDigits_class {base : ℕ} (hb : 2 ≤ base) (hb' : base ≤ 16) (n : ℕ) :
    ∀ c ∈ natDigits base n,
      isJsSpace c = false ∧ c ≠ ',' ∧ c ≠ '-' ∧ c ≠ '+' ∧ c ≠ 'x' ∧ c ≠ 'X' ∧ c ≠ '#' ∧
        c ≠ '.' := by
  intro c hc
  obtain ⟨d, hd, rfl⟩ := natDigits_mem hb n c hc
  exact digitChar_class d (lt_of_lt_of_le hd hb')

theorem hasHexPrefix_natDigits {base : ℕ} (hb : 2 ≤ base) (hb' : base ≤ 16) (n : ℕ) :
    hasHexPrefix (natDigits base n) = false := by
  rcases hn : natDigits base n with _ | ⟨c0, _ | ⟨c1, rest⟩⟩
  · rfl
  · rfl
  · show (c0 == '0' && (c1 == 'x' || c1 == 'X')) = false
    have hmem : c1 ∈ natDigits base n := by rw [hn]; simp
    have hfacts := natDigits_class hb hb' n c1 hmem
    simp [hfacts.2.2.2.2.1, hfacts.2.2.2.2.2.1]

theorem jsParseIntSigned_clean {cs : List Char} (hsign : splitSign cs = (false, cs))
    (hhex : hasHexPrefix cs = false) (r16 : Bool) :
    jsParseIntSigned r16 cs =
      (if r16 then parseRun 16 hexDigitVal cs else parseRun 10 decDigitVal cs).map
        (fun n => (n : ℤ)) := by
  unfold jsParseIntSigned
  rw [hsign]
  simp only [hhex]
  cases r16 <;> simp

theorem splitSign_natDigits {base : ℕ} (hb : 2 ≤ base) (hb' : base ≤ 16) (n : ℕ) :
    splitSign (natDigits base n) = (false, natDigits base n) := by
  obtain ⟨c, rest, hc⟩ := List.exists_cons_of_ne_nil (natDigits_ne_nil hb n)
  have hfacts := natDigits_class hb hb' n c (hc ▸ List.mem_cons_self c rest)
  rw [hc]
  show (if c = '-' then (true, rest)
    else if c = '+' then (false, rest) else (false, c :: rest)) = (false, c :: rest)
  rw [if_neg hfacts.2.2.1, if_neg hfacts.2.2.2.1]

theorem dropWhile_space_natDigits {base : ℕ} (hb : 2 ≤ base) (hb' : base ≤ 16) (n : ℕ) :
    (natDigits base n).dropWhile isJsSpace = natDigits base n := by
  obtain ⟨c, rest, hc⟩ := List.exists_cons_of_ne_nil (natDigits_ne_nil hb n)
  have hfacts := natDigits_class hb hb' n c (hc ▸ List.mem_cons_self c rest)
  rw [hc, List.dropWhile_cons, if_neg (by rw [hfacts.1]; simp)]

theorem jsParseIntSigned_neg {cs : List Char} (hhex : hasHexPrefix cs = false) (r16 : Bool) :
    jsParseIntSigned r16 ('-' :: cs) =
      (if r16 then parseRun 16 hexDigitVal cs else parseRun 10 decDigitVal cs).map
        (fun n => -(n : ℤ)) := by
  unfold jsParseIntSigned
  have hsign : splitSign ('-' :: cs) = (true, cs) := by simp [splitSign]
  rw [hsign]
  simp only [hhex]
  cases r16 <;> simp

theorem jsParseInt_natToStr (n : ℕ) : jsParseInt (natToStr n) = some (n : ℤ) := by
  have h10 : (2 : ℕ) ≤ 10 := by norm_num
  have h16 : (10 : ℕ) ≤ 16 := by norm_num
  show jsParseIntSigned false ((natDigits 10 n).dropWhile isJsSpace) = some (n : ℤ)
  rw [dropWhile_space_natDigits h10 h16 n,
    jsParseIntSigned_clean (splitSign_natDigits h10 h16 n) (hasHexPrefix_natDigits h10 h16 n),
    parseRun_natDigits h10 digitChar_val_dec n]
  rfl

theorem jsParseInt_jsIntToStr (i : ℤ) : jsParseInt (jsIntToStr i) = some i := by
  have h10 : (2 : ℕ) ≤ 10 := by norm_num
  have h16 : (10 : ℕ) ≤ 16 := by norm_num
  by_cases hi : i < 0
  · have h1 : jsIntToStr i = "-" ++ natToStr i.natAbs := if_pos hi
    have hdata : (jsIntToStr i).data = '-' :: natDigits 10 i.natAbs := by rw [h1]; rfl
    show jsParseIntSigned false ((jsIntToStr i).data.dropWhile isJsSpace) = some i
    rw [hdata, List.dropWhile_cons, if_neg (by decide),
      jsParseIntSigned_neg (hasHexPrefix_natDigits h10 h16 _) false,
      parseRun_natDigits h10 digitChar_val_dec]
    show some (-(i.natAbs : ℤ)) = some i
    simp only [Option.some.injEq]
    omega
  · have h1 : jsIntToStr i = natToStr i.natAbs := if_neg hi
    rw [h1, jsParseInt_natToStr]
    simp only [Option.some.injEq]
    omega

theorem dropWhile_eq_self_of {p : Char → Bool} {cs : List Char}
    (h : ∀ c ∈ cs, p c = false) : cs.dropWhile p = cs := by
  cases cs with
  | nil => rfl
  | cons c cs =>
    rw [List.dropWhile_cons, if_neg (by rw [h c (List.mem_cons_self c cs)]; simp)]

theorem trimChars_of_clean {cs : List Char} (h : ∀ c ∈ cs, isJsSpace c = false) :
    trimChars cs = cs := by
  unfold trimChars
  rw [dropWhile_eq_self_of h,
    dropWhile_eq_self_of (fun c hc => h c (List.mem_reverse.mp hc)), List.reverse_reverse]

theorem trimChars_cons_space (cs : List Char) : trimChars (' ' :: cs) = trimChars cs := by
  unfold trimChars
  rw [List.dropWhile_cons, if_pos (by decide)]

theorem splitComma_no_comma {cs : List Char} (h : ',' ∉ cs) : splitCommaChars cs = [cs] := by
  induction cs with
  | nil => rfl
  | cons c cs ih =>
    have hc : ¬(c = ',') := fun h' => h (h' ▸ List.mem_cons_self c cs)
    have hcs : ',' ∉ cs := fun h' => h (List.mem_cons_of_mem c h')
    simp only [splitCommaChars, if_neg hc, ih hcs]

theorem splitComma_append {l1 l2 : List Char} (h : ',' ∉ l1) :
    splitCommaChars (l1 ++ ',' :: l2) = l1 :: splitCommaChars l2 := by
  induction l1 with
  | nil =>
    show splitCommaChars (',' :: l2) = [] :: splitCommaChars l2
    simp [splitCommaChars]
  | cons c cs ih =>
    have hc : ¬(c = ',') := fun h' => h (h' ▸ List.mem_cons_self c cs)
    have hcs : ',' ∉ cs := fun h' => h (List.mem_cons_of_mem c h')
    simp only [List.cons_append, splitCommaChars, if_neg hc, List.append_eq, ih hcs]

theorem jsIntToStr_class (i : ℤ) :
    ∀ c ∈ (jsIntToStr i).data, isJsSpace c = false ∧ c ≠ ',' := by
  have h10 : (2 : ℕ) ≤ 10 := by norm_num
  have h16 : (10 : ℕ) ≤ 16 := by norm_num
  intro c hc
  unfold jsIntToStr at hc
  split at hc
  · have : ((("-" : String) ++ natToStr i.natAbs)).data = '-' :: natDigits 10 i.natAbs := rfl
    rw [this] at hc
    rcases List.mem_cons.mp hc with rfl | hmem
    · exact ⟨by decide, by decide⟩
    · have := natDigits_class h10 h16 i.natAbs c hmem
      exact ⟨this.1, this.2.1⟩
  · have := natDigits_class h10 h16 i.natAbs c hc
    exact ⟨this.1, this.2.1⟩

theorem string_eta (s : String) : String.mk s.data = s := rfl

theorem parse_piece_self (i : ℤ) :
    jsParseInt (jsTrim (String.mk (jsIntToStr i).data)) = some i := by
  rw [show jsTrim (String.mk (jsIntToStr i).data)
      = String.mk (trimChars (jsIntToStr i).data) from rfl,
    trimChars_of_clean (fun c hc => (jsIntToStr_class i c hc).1), string_eta,
    jsParseInt_jsIntToStr]

theorem parse_piece_space (i : ℤ) :
    jsParseInt (jsTrim (String.mk (' ' :: (jsIntToStr i).data))) = some i := by
  rw [show jsTrim (String.mk (' ' :: (jsIntToStr i).data))
      = String.mk (trimChars (' ' :: (jsIntToStr i).data)) from rfl,
    trimChars_cons_space,
    trimChars_of_clean (fun c hc => (jsIntToStr_class i c hc).1), string_eta,
    jsParseInt_jsIntToStr]

theorem rgbParts_format (x y z : ℤ) :
    rgbParts (jsIntToStr x ++ ", " ++ jsIntToStr y ++ ", " ++ jsIntToStr z) =
      [some x, some y, some z] := by
  unfold rgbParts jsSplitComma
  have hx : ',' ∉ (jsIntToStr x).data := fun h => ((jsIntToStr_class x ',' h).2) rfl
  have hy : ',' ∉ ' ' :: (jsIntToStr y).data := by
    intro h
    rcases List.mem_cons.mp h with h' | h'
    · exact absurd h' (by decide)
    · exact ((jsIntToStr_class y ',' h').2) rfl
  have hz : ',' ∉ ' ' :: (jsIntToStr z).data := by
    intro h
    rcases List.mem_cons.mp h with h' | h'
    · exact absurd h' (by decide)
    · exact ((jsIntToStr_class z ',' h').2) rfl
  have hdata : (jsIntToStr x ++ ", " ++ jsIntToStr y ++ ", " ++ jsIntToStr z).data
      = (jsIntToStr x).data ++
          ',' :: ((' ' :: (jsIntToStr y).data) ++ ',' :: (' ' :: (jsIntToStr z).data)) := by
    show (((jsIntToStr x).data ++ [',', ' '] ++ (jsIntToStr y).data ++ [',', ' ']) ++
        (jsIntToStr z).data) = _
    simp
  rw [hdata, splitComma_append hx, splitComma_append hy, splitComma_no_comma hz]
  simp only [List.map_cons, List.map_nil, List.cons.injEq, and_true]
  exact ⟨parse_piece_self x, parse_piece_space y, parse_piece_space z⟩

theorem cmykParts_format (x y z w : ℤ) :
    cmykParts (jsIntToStr x ++ ", " ++ jsIntToStr y ++ ", " ++ jsIntToStr z ++ ", " ++
        jsIntToStr w) = [some x, some y, some z, some w] := by
  unfold cmykParts jsSplitComma
  have hx : ',' ∉ (jsIntToStr x).data := fun h => ((jsIntToStr_class x ',' h).2) rfl
  have hsp : ∀ i : ℤ, ',' ∉ ' ' :: (jsIntToStr i).data := by
    intro i h
    rcases List.mem_cons.mp h with h' | h'
    · exact absurd h' (by decide)
    · exact ((jsIntToStr_class i ',' h').2) rfl
  have hdata : (jsIntToStr x ++ ", " ++ jsIntToStr y ++ ", " ++ jsIntToStr z ++ ", " ++
        jsIntToStr w).data
      = (jsIntToStr x).data ++
          ',' :: ((' ' :: (jsIntToStr y).data) ++
            ',' :: ((' ' :: (jsIntToStr z).data) ++ ',' :: (' ' :: (jsIntToStr w).data))) := by
    show ((((jsIntToStr x).data ++ [',', ' '] ++ (jsIntToStr y).data ++ [',', ' ']) ++
        (jsIntToStr z).data ++ [',', ' ']) ++ (jsIntToStr w).data) = _
    simp
  rw [hdata, splitComma_append hx, splitComma_append (hsp y), splitComma_append (hsp z),
    splitComma_no_comma (hsp w)]
  simp only [List.map_cons, List.map_nil, List.cons.injEq, and_true]
  exact ⟨parse_piece_self x, parse_piece_space y, parse_piece_space z, parse_piece_space w⟩

theorem jsRound_div (n : ℤ) (d : ℕ) (hd : 0 < d) :
    jsRound ((n : ℚ) / (d : ℚ)) = jsRoundDiv n d := by
  unfold jsRound jsRoundDiv
  have hd' : ((d : ℚ)) ≠ 0 := by positivity
  have key : (n : ℚ) / (d : ℚ) + 1 / 2 = ((2 * n + d : ℤ) : ℚ) / ((2 * d : ℕ) : ℚ) := by
    push_cast
    field_simp
    ring
  rw [key, Rat.floor_intCast_div_natCast]
  push_cast
  ring_nf

theorem natAbs_sq_cast (M : ℤ) : ((M.natAbs * M.natAbs : ℕ) : ℚ) = (M : ℚ) * (M : ℚ) := by
  push_cast [Int.cast_natAbs]
  exact abs_mul_abs_self _

theorem scaled_chan_eq (v M : ℤ) (hM : (M : ℚ) ≠ 0) :
    ((1 - (v : ℚ) / 255 - (1 - (M : ℚ) / 255)) / (1 - (1 - (M : ℚ) / 255))) * 100 =
      (((M - v) * 100 * M : ℤ) : ℚ) / ((M.natAbs * M.natAbs : ℕ) : ℚ) := by
  rw [natAbs_sq_cast]
  push_cast
  field_simp
  ring

theorem scaled_k_eq (M : ℤ) :
    (1 - (M : ℚ) / 255) * 100 = (((255 - M) * 100 : ℤ) : ℚ) / ((255 : ℕ) : ℚ) := by
  push_cast
  field_simp

theorem rgbToCmyk_parts {s : String} {r g b : ℤ}
    (h : rgbParts s = [some r, some g, some b]) :
    rgbToCmyk s = cmykOfInts r g b := by
  have hmax : ((r : ℚ) / 255 ⊔ ((g : ℚ) / 255 ⊔ (b : ℚ) / 255)) =
      ((max r (max g b) : ℤ) : ℚ) / 255 := by
    push_cast
    rw [max_div_div_right (by norm_num : (0:ℚ) ≤ 255),
      max_div_div_right (by norm_num : (0:ℚ) ≤ 255)]
  simp only [rgbToCmyk, h, hmax]
  by_cases h0 : max r (max g b) = 0
  · rw [if_pos (by rw [h0]; norm_num)]
    rw [show cmykOfInts r g b =
      (if max r (max g b) = 0 then "0, 0, 0, 100" else _) from rfl, if_pos h0]
  · have hMq : ((max r (max g b) : ℤ) : ℚ) ≠ 0 := Int.cast_ne_zero.mpr h0
    have hcond : ¬(1 - ((max r (max g b) : ℤ) : ℚ) / 255 = 1) := by
      intro hcc
      apply hMq
      field_simp at hcc
      exact_mod_cast hcc
    have hpos : 0 < (max r (max g b)).natAbs * (max r (max g b)).natAbs := by
      have : (max r (max g b)).natAbs ≠ 0 := Int.natAbs_ne_zero.mpr h0
      positivity
    rw [if_neg hcond, scaled_chan_eq r _ hMq, scaled_chan_eq g _ hMq, scaled_chan_eq b _ hMq,
      scaled_k_eq,
      jsRound_div ((max r (max g b) - r) * 100 * max r (max g b)) _ hpos,
      jsRound_div ((max r (max g b) - g) * 100 * max r (max g b)) _ hpos,
      jsRound_div ((max r (max g b) - b) * 100 * max r (max g b)) _ hpos,
      jsRound_div ((255 - max r (max g b)) * 100) 255 (by norm_num)]
    simp only [cmykOfInts, if_neg h0]

theorem scaled_rgb_eq (c k : ℤ) :
    255 * (1 - (c : ℚ) / 100) * (1 - (k : ℚ) / 100) =
      ((255 * (100 - c) * (100 - k) : ℤ) : ℚ) / ((10000 : ℕ) : ℚ) := by
  rw [eq_div_iff (by norm_num : ((10000 : ℕ) : ℚ) ≠ 0)]
  push_cast
  ring

theorem cmykToRgb_parts {s : String} {c m y k : ℤ}
    (h : cmykParts s = [some c, some m, some y, some k]) :
    cmykToRgb s = rgbOfCmykInts c m y k := by
  simp only [cmykToRgb, h]
  rw [scaled_rgb_eq c k, scaled_rgb_eq m k, scaled_rgb_eq y k,
    jsRound_div (255 * (100 - c) * (100 - k)) 10000 (by norm_num),
    jsRound_div (255 * (100 - m) * (100 - k)) 10000 (by norm_num),
    jsRound_div (255 * (100 - y) * (100 - k)) 10000 (by norm_num)]
  simp only [rgbOfCmykInts]

theorem hexPad2_eq (n : ℕ) (hn : n < 256) :
    (let hex := jsIntToHexStr (n : ℤ)
     if hex.length = 1 then "0" ++ hex else hex) = hexByteStr n := by
  have habs : ((n : ℤ)).natAbs = n := Int.natAbs_ofNat n
  have hpos : ¬((n : ℤ) < 0) := by omega
  have h16 : (2 : ℕ) ≤ 16 := by norm_num
  have hform : jsIntToHexStr (n : ℤ) = String.mk (natDigits 16 n) := by
    unfold jsIntToHexStr
    rw [if_neg hpos, habs]
    rfl
  by_cases hsmall : n < 16
  · have hd : natDigits 16 n = [digitChar n] := by rw [natDigits_eq h16, if_pos hsmall]
    have hlen : (jsIntToHexStr (n : ℤ)).length = 1 := by rw [hform, hd]; rfl
    show (if (jsIntToHexStr (n : ℤ)).length = 1 then "0" ++ jsIntToHexStr (n : ℤ)
      else jsIntToHexStr (n : ℤ)) = hexByteStr n
    rw [if_pos hlen, hform, hd]
    show String.mk ['0', digitChar n] = hexByteStr n
    unfold hexByteStr
    rw [Nat.div_eq_of_lt hsmall, Nat.mod_eq_of_lt hsmall]
    rfl
  · have hq : n / 16 < 16 := by omega
    have hd : natDigits 16 n = [digitChar (n / 16), digitChar (n % 16)] := by
      rw [natDigits_eq h16, if_neg hsmall, natDigits_eq h16, if_pos hq]
      rfl
    have hlen : ¬((jsIntToHexStr (n : ℤ)).length = 1) := by rw [hform, hd]; simp [String.length]
    show (if (jsIntToHexStr (n : ℤ)).length = 1 then "0" ++ jsIntToHexStr (n : ℤ)
      else jsIntToHexStr (n : ℤ)) = hexByteStr n
    rw [if_neg hlen, hform, hd]
    rfl

theorem rgbToHex_parts {s : String} {rn gn bn : ℕ}
    (h : rgbParts s = [some (rn : ℤ), some (gn : ℤ), some (bn : ℤ)])
    (hr : rn < 256) (hg : gn < 256) (hb : bn < 256) :
    rgbToHex s = "#" ++ hexByteStr rn ++ hexByteStr gn ++ hexByteStr bn := by
  simp only [rgbToHex, h, List.map_cons, List.map_nil, List.foldl]
  rw [hexPad2_eq rn hr, hexPad2_eq gn hg, hexPad2_eq bn hb]
  apply congrArg String.mk
  show ('#' :: []) ++ ((([] ++ (hexByteStr rn).data) ++ (hexByteStr gn).data) ++
      (hexByteStr bn).data) = _
  simp only [List.nil_append, List.append_assoc, List.cons_append]
  rfl

theorem hexToRgb_of_data {s : String} {c1 c2 c3 c4 c5 c6 : Char}
    (hdata : s.data = '#' :: [c1, c2, c3, c4, c5, c6]) :
    hexToRgb s = jsNumToStr (jsParseIntHex (String.mk [c1, c2])) ++ ", " ++
      jsNumToStr (jsParseIntHex (String.mk [c3, c4])) ++ ", " ++
      jsNumToStr (jsParseIntHex (String.mk [c5, c6])) := by
  unfold hexToRgb
  rw [hdata]
  rfl

theorem jsParseIntHex_pair {c1 c2 : Char} {v1 v2 : ℕ}
    (h1 : hexDigitVal c1 = some v1) (h2 : hexDigitVal c2 = some v2) :
    jsParseIntHex (String.mk [c1, c2]) = some ((v1 * 16 + v2 : ℕ) : ℤ) := by
  have hs1 := hexDigit_not_space h1
  have hn1 := hexDigit_ne_signs h1
  have hn2 := hexDigit_ne_signs h2
  show jsParseIntSigned true ([c1, c2].dropWhile isJsSpace) = some ((v1 * 16 + v2 : ℕ) : ℤ)
  rw [List.dropWhile_cons, if_neg (by rw [hs1]; simp)]
  have hsign : splitSign [c1, c2] = (false, [c1, c2]) := by
    show (if c1 = '-' then _ else if c1 = '+' then _ else ((false : Bool), [c1, c2])) = _
    rw [if_neg hn1.1, if_neg hn1.2.1]
  have hhex : hasHexPrefix [c1, c2] = false := by
    show (c1 == '0' && (c2 == 'x' || c2 == 'X')) = false
    simp [hn2.2.2.1, hn2.2.2.2]
  rw [jsParseIntSigned_clean hsign hhex, if_pos rfl]
  have hrun : parseRun 16 hexDigitVal [c1, c2] = some (v1 * 16 + v2) := by
    show (if (hexDigitVal c1).isSome then some (parseDigitsAux 16 hexDigitVal [c1, c2] 0)
      else none) = _
    rw [if_pos (by rw [h1]; rfl)]
    show some (parseDigitsAux 16 hexDigitVal [c1, c2] 0) = _
    simp only [parseDigitsAux, h1, h2, Nat.zero_mul, Nat.zero_add]
  rw [hrun]
  rfl

theorem jsRoundDiv_nonneg {n : ℤ} {d : ℕ} (hn : 0 ≤ n) (hd : 0 < d) :
    0 ≤ jsRoundDiv n d := by
  unfold jsRoundDiv
  apply Int.ediv_nonneg <;> positivity

theorem jsRoundDiv_le {n : ℤ} {d : ℕ} (c : ℕ) (hd : 0 < d) (hn : n ≤ (d : ℤ) * c) :
    jsRoundDiv n d ≤ c := by
  have h2d : (0 : ℤ) < 2 * d := by positivity
  have hlt : jsRoundDiv n d < c + 1 := by
    unfold jsRoundDiv
    rw [Int.ediv_lt_iff_lt_mul h2d]
    push_cast
    nlinarith [hd]
  omega

theorem chan_nonneg {v m : ℤ} (hvm : v ≤ m) (hm : 0 < m) :
    0 ≤ jsRoundDiv ((m - v) * 100 * m) (m.natAbs * m.natAbs) := by
  apply jsRoundDiv_nonneg
  · nlinarith
  · have : m.natAbs ≠ 0 := Int.natAbs_ne_zero.mpr (by omega)
    positivity

theorem chan_le_100 {v m : ℤ} (hv : 0 ≤ v) (hvm : v ≤ m) :
    jsRoundDiv ((m - v) * 100 * m) (m.natAbs * m.natAbs) ≤ 100 := by
  by_cases hm : m = 0
  · subst hm
    unfold jsRoundDiv
    norm_num
  · have hmpos : 0 < m := by omega
    apply jsRoundDiv_le
    · have : m.natAbs ≠ 0 := Int.natAbs_ne_zero.mpr hm
      positivity
    · have habs : ((m.natAbs * m.natAbs : ℕ) : ℤ) = m * m := Int.natAbs_mul_self
      rw [habs]
      push_cast
      nlinarith [mul_nonneg hv (hv.trans hvm)]

theorem kchan_nonneg {m : ℤ} (hm : m ≤ 255) : 0 ≤ jsRoundDiv ((255 - m) * 100) 255 := by
  apply jsRoundDiv_nonneg
  · nlinarith
  · norm_num

theorem kchan_le_100 {m : ℤ} (hm : 0 ≤ m) : jsRoundDiv ((255 - m) * 100) 255 ≤ 100 := by
  apply jsRoundDiv_le
  · norm_num
  · push_cast
    nlinarith

theorem rout_nonneg {c k : ℤ} (hc : c ≤ 100) (hk : k ≤ 100) :
    0 ≤ jsRoundDiv (255 * (100 - c) * (100 - k)) 10000 := by
  apply jsRoundDiv_nonneg
  · nlinarith
  · norm_num

theorem rout_le_255 {c k : ℤ} (hc : 0 ≤ c) (hc2 : c ≤ 100) (hk : 0 ≤ k) (hk2 : k ≤ 100) :
    jsRoundDiv (255 * (100 - c) * (100 - k)) 10000 ≤ 255 := by
  apply jsRoundDiv_le
  · norm_num
  · push_cast
    nlinarith [mul_nonneg (by linarith : (0:ℤ) ≤ 100 - c) (by linarith : (0:ℤ) ≤ 100 - k),
      mul_le_mul (by linarith : 100 - c ≤ 100) (by linarith : 100 - k ≤ 100)
        (by linarith : (0:ℤ) ≤ 100 - k) (by norm_num : (0:ℤ) ≤ 100)]

theorem validRgb_chars {s : String} (h : isValidRgbStr s) :
    ∀ c ∈ s.data, (decDigitVal c).isSome ∨ c = ',' ∨ c = ' ' := by
  obtain ⟨la, lb, lc, ha, hb, hc, hdata⟩ := h
  intro c hcmem
  rw [hdata] at hcmem
  simp only [List.mem_append, List.mem_cons] at hcmem
  rcases hcmem with h' | h' | h' | h'
  · exact Or.inl (ha.2.2 c h')
  · exact Or.inr (Or.inl h')
  · exact Or.inr (Or.inr h')
  · rcases h' with h'' | h'' | h'' | h''
    · exact Or.inl (hb.2.2 c h'')
    · exact Or.inr (Or.inl h'')
    · exact Or.inr (Or.inr h'')
    · exact Or.inl (hc.2.2 c h'')

/-- A natural number below 1000 yields a digits block. -/
theorem digitsBlock_natToStr {n : ℕ} (hn : n < 1000) : digitsBlock (natToStr n).data := by
  have h10 : (2 : ℕ) ≤ 10 := by norm_num
  refine ⟨natDigits_ne_nil h10 n, ?_, ?_⟩
  · have : n < 10 ^ (2 + 1) := by norm_num; omega
    exact natDigits_length_le h10 2 n this
  · intro c hc
    obtain ⟨d, hd, rfl⟩ := natDigits_mem h10 n c hc
    rw [digitChar_val_dec d hd]
    rfl

theorem data_append (a b : String) : (a ++ b).data = a.data ++ b.data := rfl

theorem hexDigitVal_lt {c : Char} {v : ℕ} (h : hexDigitVal c = some v) : v < 16 := by
  unfold hexDigitVal at h
  split at h
  · simp only [Option.some.injEq] at h; omega
  split at h
  · simp only [Option.some.injEq] at h; omega
  split at h
  · simp only [Option.some.injEq] at h; omega
  · exact absurd h (by simp)

theorem jsIntToStr_ne_nil (i : ℤ) : (jsIntToStr i).data ≠ [] := by
  unfold jsIntToStr
  split
  · show '-' :: natDigits 10 i.natAbs ≠ []
    simp
  · exact natDigits_ne_nil (by norm_num) i.natAbs

theorem fmt3_ne_empty (x y z : ℤ) :
    jsIntToStr x ++ ", " ++ jsIntToStr y ++ ", " ++ jsIntToStr z ≠ "" := by
  intro h
  have hd := congrArg String.data h
  simp only [data_append, show ("" : String).data = [] from rfl,
    show (", " : String).data = [',', ' '] from rfl, List.append_eq_nil] at hd
  simp at hd

theorem fmt4_ne_empty (x y z w : ℤ) :
    jsIntToStr x ++ ", " ++ jsIntToStr y ++ ", " ++ jsIntToStr z ++ ", " ++ jsIntToStr w
      ≠ "" := by
  intro h
  have hd := congrArg String.data h
  simp only [data_append, show ("" : String).data = [] from rfl,
    show (", " : String).data = [',', ' '] from rfl, List.append_eq_nil] at hd
  simp at hd

theorem hexToRgb_valid {s : String} {c1 c2 c3 c4 c5 c6 : Char} {v1 v2 v3 v4 v5 v6 : ℕ}
    (hdata : s.data = ['#', c1, c2, c3, c4, c5, c6])
    (h1 : hexDigitVal c1 = some v1) (h2 : hexDigitVal c2 = some v2)
    (h3 : hexDigitVal c3 = some v3) (h4 : hexDigitVal c4 = some v4)
    (h5 : hexDigitVal c5 = some v5) (h6 : hexDigitVal c6 = some v6) :
    hexToRgb s = jsIntToStr ((v1 * 16 + v2 : ℕ) : ℤ) ++ ", " ++
      jsIntToStr ((v3 * 16 + v4 : ℕ) : ℤ) ++ ", " ++ jsIntToStr ((v5 * 16 + v6 : ℕ) : ℤ) := by
  rw [hexToRgb_of_data hdata, jsParseIntHex_pair h1 h2, jsParseIntHex_pair h3 h4,
    jsParseIntHex_pair h5 h6]
  rfl

theorem hexToCmyk_eq {s : String} {c1 c2 c3 c4 c5 c6 : Char} {v1 v2 v3 v4 v5 v6 : ℕ}
    (hdata : s.data = ['#', c1, c2, c3, c4, c5, c6])
    (h1 : hexDigitVal c1 = some v1) (h2 : hexDigitVal c2 = some v2)
    (h3 : hexDigitVal c3 = some v3) (h4 : hexDigitVal c4 = some v4)
    (h5 : hexDigitVal c5 = some v5) (h6 : hexDigitVal c6 = some v6) :
    hexToCmyk s = cmykOfInts ((v1 * 16 + v2 : ℕ) : ℤ) ((v3 * 16 + v4 : ℕ) : ℤ)
      ((v5 * 16 + v6 : ℕ) : ℤ) := by
  have hrgb := hexToRgb_valid hdata h1 h2 h3 h4 h5 h6
  have hparts := rgbParts_format ((v1 * 16 + v2 : ℕ) : ℤ) ((v3 * 16 + v4 : ℕ) : ℤ)
    ((v5 * 16 + v6 : ℕ) : ℤ)
  simp only [hexToCmyk, hrgb, if_neg (fmt3_ne_empty _ _ _), hparts, List.getD, List.getElem?_cons_zero,
    List.getElem?_cons_succ, Option.getD_some]
  exact rgbToCmyk_parts hparts

theorem cmykOfInts_pos {r g b : ℤ} (h0 : max r (max g b) ≠ 0) :
    cmykOfInts r g b =
      jsIntToStr (jsRoundDiv ((max r (max g b) - r) * 100 * max r (max g b))
          ((max r (max g b)).natAbs * (max r (max g b)).natAbs)) ++ ", " ++
        jsIntToStr (jsRoundDiv ((max r (max g b) - g) * 100 * max r (max g b))
          ((max r (max g b)).natAbs * (max r (max g b)).natAbs)) ++ ", " ++
        jsIntToStr (jsRoundDiv ((max r (max g b) - b) * 100 * max r (max g b))
          ((max r (max g b)).natAbs * (max r (max g b)).natAbs)) ++ ", " ++
        jsIntToStr (jsRoundDiv ((255 - max r (max g b)) * 100) 255) := by
  simp only [cmykOfInts, if_neg h0]

theorem cmykToHex_parts {s : String} {c m y k : ℤ}
    (hp : cmykParts s = [some c, some m, some y, some k])
    (hc : 0 ≤ c) (hc2 : c ≤ 100) (hm : 0 ≤ m) (hm2 : m ≤ 100)
    (hy : 0 ≤ y) (hy2 : y ≤ 100) (hk : 0 ≤ k) (hk2 : k ≤ 100) :
    cmykToHex s = "#" ++
      hexByteStr (jsRoundDiv (255 * (100 - c) * (100 - k)) 10000).toNat ++
      hexByteStr (jsRoundDiv (255 * (100 - m) * (100 - k)) 10000).toNat ++
      hexByteStr (jsRoundDiv (255 * (100 - y) * (100 - k)) 10000).toNat := by
  have hrgb := cmykToRgb_parts hp
  have hzeta : rgbOfCmykInts c m y k =
      jsIntToStr (jsRoundDiv (255 * (100 - c) * (100 - k)) 10000) ++ ", " ++
        jsIntToStr (jsRoundDiv (255 * (100 - m) * (100 - k)) 10000) ++ ", " ++
        jsIntToStr (jsRoundDiv (255 * (100 - y) * (100 - k)) 10000) := rfl
  have hne : rgbOfCmykInts c m y k ≠ "" := by rw [hzeta]; exact fmt3_ne_empty _ _ _
  have htn : ∀ v : ℤ, 0 ≤ v → v = ((v.toNat : ℕ) : ℤ) := by
    intro v hv
    omega
  have hr0 := rout_nonneg hc2 hk2
  have hm0 := rout_nonneg hm2 hk2
  have hy0 := rout_nonneg hy2 hk2
  have hparts := rgbParts_format (jsRoundDiv (255 * (100 - c) * (100 - k)) 10000)
    (jsRoundDiv (255 * (100 - m) * (100 - k)) 10000)
    (jsRoundDiv (255 * (100 - y) * (100 - k)) 10000)
  have hparts' : rgbParts (jsIntToStr (jsRoundDiv (255 * (100 - c) * (100 - k)) 10000) ++
      ", " ++ jsIntToStr (jsRoundDiv (255 * (100 - m) * (100 - k)) 10000) ++ ", " ++
      jsIntToStr (jsRoundDiv (255 * (100 - y) * (100 - k)) 10000)) =
      [some (((jsRoundDiv (255 * (100 - c) * (100 - k)) 10000).toNat : ℕ) : ℤ),
       some (((jsRoundDiv (255 * (100 - m) * (100 - k)) 10000).toNat : ℕ) : ℤ),
       some (((jsRoundDiv (255 * (100 - y) * (100 - k)) 10000).toNat : ℕ) : ℤ)] := by
    rw [hparts]
    congr 1
    · rw [← htn _ hr0]
    congr 1
    · rw [← htn _ hm0]
    congr 2
    rw [← htn _ hy0]
  have hrlt : (jsRoundDiv (255 * (100 - c) * (100 - k)) 10000).toNat < 256 := by
    have := rout_le_255 hc hc2 hk hk2
    omega
  have hmlt : (jsRoundDiv (255 * (100 - m) * (100 - k)) 10000).toNat < 256 := by
    have := rout_le_255 hm hm2 hk hk2
    omega
  have hylt : (jsRoundDiv (255 * (100 - y) * (100 - k)) 10000).toNat < 256 := by
    have := rout_le_255 hy hy2 hk hk2
    omega
  show (if cmykToRgb s = "" then "" else rgbToHex (cmykToRgb s)) = _
  rw [hrgb]
  rw [if_neg hne]
  rw [hzeta]
  rw [rgbToHex_parts hparts' hrlt hmlt hylt]

theorem validHex_of_bytes {r g b : ℕ} (hr : r < 256) (hg : g < 256) (hb : b < 256) :
    isValidHexStr ("#" ++ hexByteStr r ++ hexByteStr g ++ hexByteStr b) := by
  have hdiv : ∀ n : ℕ, n < 256 → n / 16 < 16 := by
    intro n hn
    omega
  have hmod : ∀ n : ℕ, n % 16 < 16 := fun n => Nat.mod_lt n (by norm_num)
  have hsome : ∀ d : ℕ, d < 16 → (hexDigitVal (digitChar d)).isSome := by
    intro d hd
    rw [digitChar_val_hex d hd]
    rfl
  refine ⟨digitChar (r / 16), digitChar (r % 16), digitChar (g / 16), digitChar (g % 16),
    digitChar (b / 16), digitChar (b % 16),
    hsome _ (hdiv r hr), hsome _ (hmod r), hsome _ (hdiv g hg), hsome _ (hmod g),
    hsome _ (hdiv b hb), hsome _ (hmod b), ?_⟩
  rfl

theorem jsRoundDiv_natCast (a d : ℕ) :
    jsRoundDiv (a : ℤ) d = (((2 * a + d) / (2 * d) : ℕ) : ℤ) := by
  unfold jsRoundDiv
  rw [show ((2 : ℤ) * (a : ℤ) + (d : ℤ)) = ((2 * a + d : ℕ) : ℤ) by push_cast; ring,
    show ((2 : ℤ) * ((d : ℕ) : ℤ)) = ((2 * d : ℕ) : ℤ) by push_cast; ring,
    ← Int.natCast_div]

theorem chan_cast {v m : ℕ} (hvm : v ≤ m) :
    jsRoundDiv (((m : ℤ) - (v : ℤ)) * 100 * (m : ℤ)) ((m : ℤ).natAbs * (m : ℤ).natAbs) =
      (((2 * ((m - v) * 100 * m) + m * m) / (2 * (m * m)) : ℕ) : ℤ) := by
  rw [show ((m : ℤ) - (v : ℤ)) * 100 * (m : ℤ) = (((m - v) * 100 * m : ℕ) : ℤ) by
      push_cast [hvm]; ring,
    Int.natAbs_ofNat, jsRoundDiv_natCast]

theorem kchan_cast {m : ℕ} (hm : m ≤ 255) :
    jsRoundDiv ((255 - (m : ℤ)) * 100) 255 =
      (((2 * ((255 - m) * 100) + 255) / (2 * 255) : ℕ) : ℤ) := by
  rw [show (255 - (m : ℤ)) * 100 = (((255 - m) * 100 : ℕ) : ℤ) by push_cast [hm]; ring,
    jsRoundDiv_natCast]

theorem rout_cast {c kk : ℕ} (hc : c ≤ 100) (hk : kk ≤ 100) :
    jsRoundDiv (255 * (100 - (c : ℤ)) * (100 - (kk : ℤ))) 10000 =
      (((2 * (255 * (100 - c) * (100 - kk)) + 10000) / (2 * 10000) : ℕ) : ℤ) := by
  rw [show 255 * (100 - (c : ℤ)) * (100 - (kk : ℤ)) =
      ((255 * (100 - c) * (100 - kk) : ℕ) : ℤ) by push_cast [hc, hk]; ring,
    jsRoundDiv_natCast]

theorem chanOut_cast {v m : ℕ} (hvm : v ≤ m) (hm : 0 < m) (hm' : m ≤ 255) :
    (jsRoundDiv (255 * (100 - jsRoundDiv (((m : ℤ) - (v : ℤ)) * 100 * (m : ℤ))
          ((m : ℤ).natAbs * (m : ℤ).natAbs)) *
        (100 - jsRoundDiv ((255 - (m : ℤ)) * 100) 255)) 10000).toNat = chanOutN v m := by
  have hc100 : ((2 * ((m - v) * 100 * m) + m * m) / (2 * (m * m)) : ℕ) ≤ 100 := by
    have hz := chan_le_100 (v := (v : ℤ)) (m := (m : ℤ)) (by positivity) (by exact_mod_cast hvm)
    rw [chan_cast hvm] at hz
    exact_mod_cast hz
  have hk100 : ((2 * ((255 - m) * 100) + 255) / (2 * 255) : ℕ) ≤ 100 := by
    have hz := kchan_le_100 (m := (m : ℤ)) (by positivity)
    rw [kchan_cast hm'] at hz
    exact_mod_cast hz
  rw [chan_cast hvm, kchan_cast hm', rout_cast hc100 hk100]
  unfold chanOutN
  exact Int.toNat_ofNat _

theorem string_ext {s t : String} (h : s.data = t.data) : s = t := by
  cases s
  cases t
  exact congrArg String.mk (by simpa using h)

theorem lower_hex_digitChar {c : Char} {v : ℕ} (h : hexDigitVal c = some v)
    (hl : isLowerHex c) : digitChar v = c := by
  unfold hexDigitVal at h
  unfold isLowerHex at hl
  split at h
  · rename_i hrange
    simp only [Option.some.injEq] at h
    unfold digitChar
    rw [if_pos (by omega), show 48 + v = c.toNat by omega]
    exact Char.ofNat_toNat c
  split at h
  · rename_i h1 hrange
    simp only [Option.some.injEq] at h
    unfold digitChar
    rw [if_neg (by omega), show 87 + v = c.toNat by omega]
    exact Char.ofNat_toNat c
  split at h
  · rename_i h1 h2 hrange
    exfalso
    rcases hl with h' | h' <;> omega
  · exact absurd h (by simp)

/-- C9 (confirmed): `rgbToCmyk "0, 0, 0"` returns `"0, 0, 0, 100"` exactly,
through the `k == 1` pure-black branch that avoids the division by zero. -/
theorem C9_pure_black : rgbToCmyk "0, 0, 0" = "0, 0, 0, 100" := by
  rw [rgbToCmyk_parts (r := 0) (g := 0) (b := 0) (by decide)]
  decide

theorem roundHalfAway_eq_jsRound {q : ℚ} (h : 0 ≤ q) : roundHalfAway q = jsRound q := by
  unfold roundHalfAway jsRound
  rw [if_pos h]

theorem maxq_cast (r g b : ℤ) :
    ((r : ℚ) / 255 ⊔ ((g : ℚ) / 255 ⊔ (b : ℚ) / 255)) = ((max r (max g b) : ℤ) : ℚ) / 255 := by
  push_cast
  rw [max_div_div_right (by norm_num : (0:ℚ) ≤ 255),
    max_div_div_right (by norm_num : (0:ℚ) ≤ 255)]

theorem halfAway_chan {v M : ℤ} (hv : v ≤ M) (hM : 0 < M) :
    roundHalfAway ((((M - v) * 100 * M : ℤ) : ℚ) / ((M.natAbs * M.natAbs : ℕ) : ℚ)) =
      jsRoundDiv ((M - v) * 100 * M) (M.natAbs * M.natAbs) := by
  have hd : 0 < M.natAbs * M.natAbs := by
    have : M.natAbs ≠ 0 := Int.natAbs_ne_zero.mpr (by omega)
    positivity
  have hq : 0 ≤ (((M - v) * 100 * M : ℤ) : ℚ) / ((M.natAbs * M.natAbs : ℕ) : ℚ) := by
    apply div_nonneg
    · have h' : (0 : ℤ) ≤ (M - v) * 100 * M := by nlinarith
      exact_mod_cast h'
    · positivity
  rw [roundHalfAway_eq_jsRound hq, jsRound_div _ _ hd]

theorem halfAway_k {M : ℤ} (hM : M ≤ 255) :
    roundHalfAway ((((255 - M) * 100 : ℤ) : ℚ) / ((255 : ℕ) : ℚ)) =
      jsRoundDiv ((255 - M) * 100) 255 := by
  have hq : 0 ≤ (((255 - M) * 100 : ℤ) : ℚ) / ((255 : ℕ) : ℚ) := by
    apply div_nonneg
    · have h' : (0 : ℤ) ≤ (255 - M) * 100 := by nlinarith
      exact_mod_cast h'
    · positivity
  rw [roundHalfAway_eq_jsRound hq, jsRound_div _ _ (by norm_num)]

/-- C8 (amended): on inputs whose three parsed components lie in `[0, 255]`
and are not all zero, every one of the four output components of
`rgbToCmyk` is the corresponding exact scaled percentage rounded
half-away-from-zero (the code's `Math.round` rounds ties toward +∞, which
agrees with half-away-from-zero on these non-negative percentages; negative
out-of-range inputs can produce negative percentages where the two rounding
modes differ, see the counterexample). -/
theorem C8_round_half_away (s : String) (r g b : ℤ)
    (h : rgbParts s = [some r, some g, some b])
    (hr : 0 ≤ r) (hr2 : r ≤ 255) (hg : 0 ≤ g) (hg2 : g ≤ 255)
    (hb : 0 ≤ b) (hb2 : b ≤ 255) (hnz : ¬(r = 0 ∧ g = 0 ∧ b = 0)) :
    rgbToCmyk s =
      jsIntToStr (roundHalfAway (((1 - (r : ℚ) / 255 -
          (1 - max ((r : ℚ) / 255) (max ((g : ℚ) / 255) ((b : ℚ) / 255)))) /
        (1 - (1 - max ((r : ℚ) / 255) (max ((g : ℚ) / 255) ((b : ℚ) / 255))))) * 100)) ++
      ", " ++
      jsIntToStr (roundHalfAway (((1 - (g : ℚ) / 255 -
          (1 - max ((r : ℚ) / 255) (max ((g : ℚ) / 255) ((b : ℚ) / 255)))) /
        (1 - (1 - max ((r : ℚ) / 255) (max ((g : ℚ) / 255) ((b : ℚ) / 255))))) * 100)) ++
      ", " ++
      jsIntToStr (roundHalfAway (((1 - (b : ℚ) / 255 -
          (1 - max ((r : ℚ) / 255) (max ((g : ℚ) / 255) ((b : ℚ) / 255)))) /
        (1 - (1 - max ((r : ℚ) / 255) (max ((g : ℚ) / 255) ((b : ℚ) / 255))))) * 100)) ++
      ", " ++
      jsIntToStr (roundHalfAway
        ((1 - max ((r : ℚ) / 255) (max ((g : ℚ) / 255) ((b : ℚ) / 255))) * 100)) := by
  have hM0 : max r (max g b) ≠ 0 := by
    intro hM
    have h1 : r ≤ 0 := hM ▸ le_max_left r (max g b)
    have h2 : g ≤ 0 := by
      have := (le_max_left g b).trans (le_max_right r (max g b))
      omega
    have h3 : b ≤ 0 := by
      have := (le_max_right g b).trans (le_max_right r (max g b))
      omega
    exact hnz ⟨by omega, by omega, by omega⟩
  have hMpos : 0 < max r (max g b) := by
    have : (0 : ℤ) ≤ max r (max g b) := hr.trans (le_max_left r (max g b))
    omega
  have hMle : max r (max g b) ≤ 255 := max_le hr2 (max_le hg2 hb2)
  have hMq : ((max r (max g b) : ℤ) : ℚ) ≠ 0 := Int.cast_ne_zero.mpr hM0
  rw [rgbToCmyk_parts h, cmykOfInts_pos hM0, maxq_cast r g b,
    scaled_chan_eq r _ hMq, scaled_chan_eq g _ hMq, scaled_chan_eq b _ hMq, scaled_k_eq,
    halfAway_chan (le_max_left r (max g b)) hMpos,
    halfAway_chan ((le_max_left g b).trans (le_max_right r (max g b))) hMpos,
    halfAway_chan ((le_max_right g b).trans (le_max_right r (max g b))) hMpos,
    halfAway_k hMle]

/-- C8 witness: the amended rounding description instantiated at
`"10, 20, 40"`. -/
theorem C8_round_half_away_witness :
    rgbToCmyk "10, 20, 40" =
      jsIntToStr (roundHalfAway (((1 - ((10 : ℤ) : ℚ) / 255 -
          (1 - max (((10 : ℤ) : ℚ) / 255) (max (((20 : ℤ) : ℚ) / 255) (((40 : ℤ) : ℚ) / 255)))) /
        (1 - (1 - max (((10 : ℤ) : ℚ) / 255)
          (max (((20 : ℤ) : ℚ) / 255) (((40 : ℤ) : ℚ) / 255))))) * 100)) ++
      ", " ++
      jsIntToStr (roundHalfAway (((1 - ((20 : ℤ) : ℚ) / 255 -
          (1 - max (((10 : ℤ) : ℚ) / 255) (max (((20 : ℤ) : ℚ) / 255) (((40 : ℤ) : ℚ) / 255)))) /
        (1 - (1 - max (((10 : ℤ) : ℚ) / 255)
          (max (((20 : ℤ) : ℚ) / 255) (((40 : ℤ) : ℚ) / 255))))) * 100)) ++
      ", " ++
      jsIntToStr (roundHalfAway (((1 - ((40 : ℤ) : ℚ) / 255 -
          (1 - max (((10 : ℤ) : ℚ) / 255) (max (((20 : ℤ) : ℚ) / 255) (((40 : ℤ) : ℚ) / 255)))) /
        (1 - (1 - max (((10 : ℤ) : ℚ) / 255)
          (max (((20 : ℤ) : ℚ) / 255) (((40 : ℤ) : ℚ) / 255))))) * 100)) ++
      ", " ++
      jsIntToStr (roundHalfAway ((1 - max (((10 : ℤ) : ℚ) / 255)
        (max (((20 : ℤ) : ℚ) / 255) (((40 : ℤ) : ℚ) / 255))) * 100)) :=
  C8_round_half_away "10, 20, 40" 10 20 40 (by decide) (by norm_num) (by norm_num)
    (by norm_num) (by norm_num) (by norm_num) (by norm_num) (by decide)

/-- C8 counterexample: at the parseable input `"-2040, -2295, -2295"`
(whose every floating-point step is exact in the JS engine) the `m`
component's scaled percentage is exactly −12.5; the code emits −12
(`Math.round`, ties toward +∞) while round-half-away-from-zero demands −13. -/
theorem C8_counterexample :
    rgbToCmyk "-2040, -2295, -2295" = "0, -12, -12, 900" ∧
    roundHalfAway (((1 - ((-2295 : ℤ) : ℚ) / 255 -
        (1 - max (((-2040 : ℤ) : ℚ) / 255)
          (max (((-2295 : ℤ) : ℚ) / 255) (((-2295 : ℤ) : ℚ) / 255)))) /
      (1 - (1 - max (((-2040 : ℤ) : ℚ) / 255)
          (max (((-2295 : ℤ) : ℚ) / 255) (((-2295 : ℤ) : ℚ) / 255))))) * 100) = -13 ∧
    ("0, -12, -12, 900" : String) ≠ "0, -13, -13, 900" := by
  refine ⟨?_, ?_, by decide⟩
  · rw [rgbToCmyk_parts (r := -2040) (g := -2295) (b := -2295) (by decide)]
    decide
  · have hm : max (((-2040 : ℤ) : ℚ) / 255)
        (max (((-2295 : ℤ) : ℚ) / 255) (((-2295 : ℤ) : ℚ) / 255)) = -8 := by
      rw [max_def, max_def]
      norm_num
    rw [hm]
    have harg : ((1 - ((-2295 : ℤ) : ℚ) / 255 - (1 - (-8 : ℚ))) / (1 - (1 - (-8 : ℚ)))) * 100 =
        -25 / 2 := by
      norm_num
    rw [harg]
    unfold roundHalfAway
    rw [if_neg (by norm_num)]
    rw [show (-(-25 / 2 : ℚ) + 1 / 2) = ((13 : ℤ) : ℚ) by norm_num, Int.floor_intCast]

/-- C2 (amended): `hexToRgb` then `rgbToHex` round-trips exactly on every
valid 6-digit hex string written with lowercase digits (`rgbToHex` always
emits lowercase, so uppercase inputs come back lowercased instead). -/
theorem C2_roundtrip_lower (s : String) (c1 c2 c3 c4 c5 c6 : Char) (v1 v2 v3 v4 v5 v6 : ℕ)
    (hdata : s.data = ['#', c1, c2, c3, c4, c5, c6])
    (h1 : hexDigitVal c1 = some v1) (h2 : hexDigitVal c2 = some v2)
    (h3 : hexDigitVal c3 = some v3) (h4 : hexDigitVal c4 = some v4)
    (h5 : hexDigitVal c5 = some v5) (h6 : hexDigitVal c6 = some v6)
    (hl1 : isLowerHex c1) (hl2 : isLowerHex c2) (hl3 : isLowerHex c3)
    (hl4 : isLowerHex c4) (hl5 : isLowerHex c5) (hl6 : isLowerHex c6) :
    rgbToHex (hexToRgb s) = s := by
  have hw1 := hexDigitVal_lt h1
  have hw2 := hexDigitVal_lt h2
  have hw3 := hexDigitVal_lt h3
  have hw4 := hexDigitVal_lt h4
  have hw5 := hexDigitVal_lt h5
  have hw6 := hexDigitVal_lt h6
  rw [hexToRgb_valid hdata h1 h2 h3 h4 h5 h6,
    rgbToHex_parts (rgbParts_format _ _ _) (by omega) (by omega) (by omega)]
  apply string_ext
  show '#' :: ((hexByteStr (v1 * 16 + v2)).data ++ ((hexByteStr (v3 * 16 + v4)).data ++
    (hexByteStr (v5 * 16 + v6)).data)) = s.data
  unfold hexByteStr
  rw [hdata,
    show (v1 * 16 + v2) / 16 = v1 by omega, show (v1 * 16 + v2) % 16 = v2 by omega,
    show (v3 * 16 + v4) / 16 = v3 by omega, show (v3 * 16 + v4) % 16 = v4 by omega,
    show (v5 * 16 + v6) / 16 = v5 by omega, show (v5 * 16 + v6) % 16 = v6 by omega,
    lower_hex_digitChar h1 hl1, lower_hex_digitChar h2 hl2, lower_hex_digitChar h3 hl3,
    lower_hex_digitChar h4 hl4, lower_hex_digitChar h5 hl5, lower_hex_digitChar h6 hl6]
  rfl

/-- C2 witness: the lowercase round-trip at `"#035a6b"`. -/
theorem C2_roundtrip_lower_witness : rgbToHex (hexToRgb "#035a6b") = "#035a6b" :=
  C2_roundtrip_lower "#035a6b" '0' '3' '5' 'a' '6' 'b' 0 3 5 10 6 11 (by decide)
    (by decide) (by decide) (by decide) (by decide) (by decide) (by decide)
    (by decide) (by decide) (by decide) (by decide) (by decide) (by decide)

/-- C2 counterexample: `"#0000AA"` is a valid 6-digit hex string (uppercase
digits), but the round-trip returns the lowercased `"#0000aa"`, not the
input. -/
theorem C2_counterexample :
    rgbToHex (hexToRgb "#0000AA") = "#0000aa" ∧ ("#0000aa" : String) ≠ "#0000AA" := by
  constructor
  · decide
  · decide

set_option maxRecDepth 10000 in
set_option maxHeartbeats 4000000 in
theorem chanBound : ∀ m < 256, 0 < m → ∀ v < m + 1,
    chanOutN v m ≤ v + 2 ∧ v ≤ chanOutN v m + 2 := by decide

theorem c5_core (R G B : ℕ) (hR : R < 256) (hG : G < 256) (hB : B < 256) :
    ∃ r' g' b' : ℕ, r' < 256 ∧ g' < 256 ∧ b' < 256 ∧
      cmykToHex (cmykOfInts (R : ℤ) (G : ℤ) (B : ℤ)) =
        "#" ++ hexByteStr r' ++ hexByteStr g' ++ hexByteStr b' ∧
      ((r' : ℤ) - R).natAbs ≤ 2 ∧ ((g' : ℤ) - G).natAbs ≤ 2 ∧ ((b' : ℤ) - B).natAbs ≤ 2 := by
  by_cases hM : max R (max G B) = 0
  · obtain ⟨hR0, hGB0⟩ := Nat.max_eq_zero_iff.mp hM
    obtain ⟨hG0, hB0⟩ := Nat.max_eq_zero_iff.mp hGB0
    subst hR0
    subst hG0
    subst hB0
    have h2 : cmykOfInts ((0 : ℕ) : ℤ) ((0 : ℕ) : ℤ) ((0 : ℕ) : ℤ) = "0, 0, 0, 100" := by
      decide
    have h3 := cmykToHex_parts (s := "0, 0, 0, 100") (c := 0) (m := 0) (y := 0) (k := 100)
      (by decide) (by norm_num) (by norm_num) (by norm_num) (by norm_num)
      (by norm_num) (by norm_num) (by norm_num) (by norm_num)
    refine ⟨0, 0, 0, by norm_num, by norm_num, by norm_num, ?_, by decide, by decide, by decide⟩
    rw [h2, h3]
    decide
  · have hMpos : 0 < max R (max G B) := Nat.pos_of_ne_zero hM
    have hM255 : max R (max G B) ≤ 255 := by
      apply Nat.max_le.mpr
      constructor
      · omega
      apply Nat.max_le.mpr
      omega
    have hcast : max ((R : ℤ)) (max ((G : ℤ)) ((B : ℤ))) = ((max R (max G B) : ℕ) : ℤ) := by
      rw [Nat.cast_max, Nat.cast_max]
    have hcast0 : ((max R (max G B) : ℕ) : ℤ) ≠ 0 := by exact_mod_cast hM
    have hfmt := cmykOfInts_pos (r := (R : ℤ)) (g := (G : ℤ)) (b := (B : ℤ)) (by rw [hcast]; exact hcast0)
    rw [hcast] at hfmt
    have hRM : (R : ℤ) ≤ ((max R (max G B) : ℕ) : ℤ) := by
      exact_mod_cast Nat.le_max_left R (max G B)
    have hGM : (G : ℤ) ≤ ((max R (max G B) : ℕ) : ℤ) := by
      exact_mod_cast (Nat.le_max_left G B).trans (Nat.le_max_right R (max G B))
    have hBM : (B : ℤ) ≤ ((max R (max G B) : ℕ) : ℤ) := by
      exact_mod_cast (Nat.le_max_right G B).trans (Nat.le_max_right R (max G B))
    have hMposZ : (0 : ℤ) < ((max R (max G B) : ℕ) : ℤ) := by exact_mod_cast hMpos
    have hM255Z : ((max R (max G B) : ℕ) : ℤ) ≤ 255 := by exact_mod_cast hM255
    have hCr0 := chan_nonneg hRM hMposZ
    have hCg0 := chan_nonneg hGM hMposZ
    have hCb0 := chan_nonneg hBM hMposZ
    have hCr1 := chan_le_100 (v := (R : ℤ)) (by positivity) hRM
    have hCg1 := chan_le_100 (v := (G : ℤ)) (by positivity) hGM
    have hCb1 := chan_le_100 (v := (B : ℤ)) (by positivity) hBM
    have hK0 := kchan_nonneg hM255Z
    have hK1 := kchan_le_100 (le_of_lt hMposZ)
    have hch := cmykToHex_parts (cmykParts_format _ _ _ _) hCr0 hCr1 hCg0 hCg1 hCb0 hCb1 hK0 hK1
    have hcr := chanOut_cast (Nat.le_max_left R (max G B)) hMpos hM255
    have hcg := chanOut_cast ((Nat.le_max_left G B).trans (Nat.le_max_right R (max G B)))
      hMpos hM255
    have hcb := chanOut_cast ((Nat.le_max_right G B).trans (Nat.le_max_right R (max G B)))
      hMpos hM255
    have hbr := chanBound (max R (max G B)) (by omega) hMpos R
      (by have := Nat.le_max_left R (max G B); omega)
    have hbg := chanBound (max R (max G B)) (by omega) hMpos G
      (by have := (Nat.le_max_left G B).trans (Nat.le_max_right R (max G B)); omega)
    have hbb := chanBound (max R (max G B)) (by omega) hMpos B
      (by have := (Nat.le_max_right G B).trans (Nat.le_max_right R (max G B)); omega)
    have hrlt : (jsRoundDiv (255 * (100 - jsRoundDiv ((((max R (max G B) : ℕ) : ℤ) - (R : ℤ)) *
        100 * ((max R (max G B) : ℕ) : ℤ)) (((max R (max G B) : ℕ) : ℤ).natAbs *
        ((max R (max G B) : ℕ) : ℤ).natAbs)) *
        (100 - jsRoundDiv ((255 - ((max R (max G B) : ℕ) : ℤ)) * 100) 255)) 10000).toNat <
        256 := by
      have := rout_le_255 hCr0 hCr1 hK0 hK1
      omega
    have hglt : (jsRoundDiv (255 * (100 - jsRoundDiv ((((max R (max G B) : ℕ) : ℤ) - (G : ℤ)) *
        100 * ((max R (max G B) : ℕ) : ℤ)) (((max R (max G B) : ℕ) : ℤ).natAbs *
        ((max R (max G B) : ℕ) : ℤ).natAbs)) *
        (100 - jsRoundDiv ((255 - ((max R (max G B) : ℕ) : ℤ)) * 100) 255)) 10000).toNat <
        256 := by
      have := rout_le_255 hCg0 hCg1 hK0 hK1
      omega
    have hblt : (jsRoundDiv (255 * (100 - jsRoundDiv ((((max R (max G B) : ℕ) : ℤ) - (B : ℤ)) *
        100 * ((max R (max G B) : ℕ) : ℤ)) (((max R (max G B) : ℕ) : ℤ).natAbs *
        ((max R (max G B) : ℕ) : ℤ).natAbs)) *
        (100 - jsRoundDiv ((255 - ((max R (max G B) : ℕ) : ℤ)) * 100) 255)) 10000).toNat <
        256 := by
      have := rout_le_255 hCb0 hCb1 hK0 hK1
      omega
    refine ⟨_, _, _, hrlt, hglt, hblt, by rw [hfmt, hch], ?_, ?_, ?_⟩
    · rw [hcr]
      omega
    · rw [hcg]
      omega
    · rw [hcb]
      omega

/-- C5 (amended): composing `hexToCmyk` then `cmykToHex` on a valid
6-digit hex string yields a valid hex string whose RGB byte components
each differ from the input's by at most 2 (the claimed bound of 1 fails,
see the counterexample; 2 is tight). -/
theorem C5_drift_bound (s : String) (c1 c2 c3 c4 c5 c6 : Char) (v1 v2 v3 v4 v5 v6 : ℕ)
    (hdata : s.data = ['#', c1, c2, c3, c4, c5, c6])
    (h1 : hexDigitVal c1 = some v1) (h2 : hexDigitVal c2 = some v2)
    (h3 : hexDigitVal c3 = some v3) (h4 : hexDigitVal c4 = some v4)
    (h5 : hexDigitVal c5 = some v5) (h6 : hexDigitVal c6 = some v6) :
    ∃ r' g' b' : ℕ, r' < 256 ∧ g' < 256 ∧ b' < 256 ∧
      cmykToHex (hexToCmyk s) = "#" ++ hexByteStr r' ++ hexByteStr g' ++ hexByteStr b' ∧
      isValidHexStr (cmykToHex (hexToCmyk s)) ∧
      ((r' : ℤ) - ((v1 * 16 + v2 : ℕ) : ℤ)).natAbs ≤ 2 ∧
      ((g' : ℤ) - ((v3 * 16 + v4 : ℕ) : ℤ)).natAbs ≤ 2 ∧
      ((b' : ℤ) - ((v5 * 16 + v6 : ℕ) : ℤ)).natAbs ≤ 2 := by
  have hw1 := hexDigitVal_lt h1
  have hw2 := hexDigitVal_lt h2
  have hw3 := hexDigitVal_lt h3
  have hw4 := hexDigitVal_lt h4
  have hw5 := hexDigitVal_lt h5
  have hw6 := hexDigitVal_lt h6
  obtain ⟨r', g', b', hrlt, hglt, hblt, hout, hdr, hdg, hdb⟩ :=
    c5_core (v1 * 16 + v2) (v3 * 16 + v4) (v5 * 16 + v6) (by omega) (by omega) (by omega)
  have hcomp : cmykToHex (hexToCmyk s) = "#" ++ hexByteStr r' ++ hexByteStr g' ++ hexByteStr b' := by
    rw [hexToCmyk_eq hdata h1 h2 h3 h4 h5 h6, hout]
  exact ⟨r', g', b', hrlt, hglt, hblt, hcomp,
    hcomp ▸ validHex_of_bytes hrlt hglt hblt, hdr, hdg, hdb⟩

/-- C5 witness: the drift bound instantiated at `"#035259"`. -/
theorem C5_drift_bound_witness :
    ∃ r' g' b' : ℕ, r' < 256 ∧ g' < 256 ∧ b' < 256 ∧
      cmykToHex (hexToCmyk "#035259") = "#" ++ hexByteStr r' ++ hexByteStr g' ++ hexByteStr b' ∧
      isValidHexStr (cmykToHex (hexToCmyk "#035259")) ∧
      ((r' : ℤ) - ((0 * 16 + 3 : ℕ) : ℤ)).natAbs ≤ 2 ∧
      ((g' : ℤ) - ((5 * 16 + 2 : ℕ) : ℤ)).natAbs ≤ 2 ∧
      ((b' : ℤ) - ((5 * 16 + 9 : ℕ) : ℤ)).natAbs ≤ 2 :=
  C5_drift_bound "#035259" '0' '3' '5' '2' '5' '9' 0 3 5 2 5 9 (by decide) (by decide)
    (by decide) (by decide) (by decide) (by decide) (by decide)

/-- C5 counterexample: at `"#414000"` (r = 0x41 = 65, g = 0x40 = 64, b = 0)
the round trip returns `"#403e00"`, whose green byte 0x3e = 62 differs from
the input's 64 by 2, violating the claimed per-channel bound of 1.  (All
floating-point steps at this input round identically to the exact rational
model.) -/
theorem C5_counterexample :
    cmykToHex (hexToCmyk "#414000") = "#403e00" ∧ 1 < ((64 : ℤ) - 62).natAbs := by
  constructor
  · have h1 := hexToCmyk_eq (s := "#414000") (by decide : ("#414000" : String).data =
      ['#', '4', '1', '4', '0', '0', '0'])
      (show hexDigitVal '4' = some 4 by decide) (show hexDigitVal '1' = some 1 by decide)
      (show hexDigitVal '4' = some 4 by decide) (show hexDigitVal '0' = some 0 by decide)
      (show hexDigitVal '0' = some 0 by decide) (show hexDigitVal '0' = some 0 by decide)
    have h2 : cmykOfInts ((4 * 16 + 1 : ℕ) : ℤ) ((4 * 16 + 0 : ℕ) : ℤ) ((0 * 16 + 0 : ℕ) : ℤ) =
        "0, 2, 100, 75" := by decide
    have h3 := cmykToHex_parts (s := "0, 2, 100, 75") (c := 0) (m := 2) (y := 100) (k := 75)
      (by decide) (by norm_num) (by norm_num) (by norm_num) (by norm_num) (by norm_num)
      (by norm_num) (by norm_num) (by norm_num)
    rw [h1, h2, h3]
    decide
  · decide

theorem jsIntToStr_natCast (n : ℕ) : jsIntToStr ((n : ℕ) : ℤ) = natToStr n := by
  unfold jsIntToStr
  rw [if_neg (by omega), Int.natAbs_ofNat]

theorem hexToRgb_badlen {s : String} (h : (removeFirstHash s.data).length ≠ 6) :
    hexToRgb s = "" := by
  show (if (String.mk (removeFirstHash s.data)).length ≠ 6 then "" else _) = ""
  exact if_pos h

theorem hexToCmyk_badlen {s : String} (h : (removeFirstHash s.data).length ≠ 6) :
    hexToCmyk s = "" := by
  show (if hexToRgb s = "" then "" else _) = ""
  rw [hexToRgb_badlen h]
  rfl

theorem rgbToHex_fail {s : String}
    (h : ∀ x y z : ℤ, rgbParts s ≠ [some x, some y, some z]) : rgbToHex s = "" := by
  unfold rgbToHex
  split
  · rename_i x y z heq
    exact absurd heq (h x y z)
  · rfl

theorem rgbToCmyk_fail {s : String}
    (h : ∀ x y z : ℤ, rgbParts s ≠ [some x, some y, some z]) : rgbToCmyk s = "" := by
  unfold rgbToCmyk
  split
  · rename_i x y z heq
    exact absurd heq (h x y z)
  · rfl

theorem cmykToRgb_fail {s : String}
    (h : ∀ x y z w : ℤ, cmykParts s ≠ [some x, some y, some z, some w]) :
    cmykToRgb s = "" := by
  unfold cmykToRgb
  split
  · rename_i x y z w heq
    exact absurd heq (h x y z w)
  · rfl

theorem cmykToHex_fail {s : String}
    (h : ∀ x y z w : ℤ, cmykParts s ≠ [some x, some y, some z, some w]) :
    cmykToHex s = "" := by
  show (if cmykToRgb s = "" then "" else _) = ""
  rw [cmykToRgb_fail h]
  rfl

theorem validRgb_of_fmt {x y z : ℕ} (hx : x < 1000) (hy : y < 1000) (hz : z < 1000) :
    isValidRgbStr (jsIntToStr ((x : ℕ) : ℤ) ++ ", " ++ jsIntToStr ((y : ℕ) : ℤ) ++ ", " ++
      jsIntToStr ((z : ℕ) : ℤ)) := by
  refine ⟨(natToStr x).data, (natToStr y).data, (natToStr z).data,
    digitsBlock_natToStr hx, digitsBlock_natToStr hy, digitsBlock_natToStr hz, ?_⟩
  rw [jsIntToStr_natCast, jsIntToStr_natCast, jsIntToStr_natCast]
  show (((natToStr x).data ++ [',', ' '] ++ (natToStr y).data ++ [',', ' ']) ++
      (natToStr z).data) = _
  simp

theorem validCmyk_of_fmt {x y z w : ℕ} (hx : x < 1000) (hy : y < 1000) (hz : z < 1000)
    (hw : w < 1000) :
    isValidCmykStr (jsIntToStr ((x : ℕ) : ℤ) ++ ", " ++ jsIntToStr ((y : ℕ) : ℤ) ++ ", " ++
      jsIntToStr ((z : ℕ) : ℤ) ++ ", " ++ jsIntToStr ((w : ℕ) : ℤ)) := by
  refine ⟨(natToStr x).data, (natToStr y).data, (natToStr z).data, (natToStr w).data,
    digitsBlock_natToStr hx, digitsBlock_natToStr hy, digitsBlock_natToStr hz,
    digitsBlock_natToStr hw, ?_⟩
  rw [jsIntToStr_natCast, jsIntToStr_natCast, jsIntToStr_natCast, jsIntToStr_natCast]
  show ((((natToStr x).data ++ [',', ' '] ++ (natToStr y).data ++ [',', ' ']) ++
      (natToStr z).data ++ [',', ' ']) ++ (natToStr w).data) = _
  simp

theorem validCmyk_black : isValidCmykStr "0, 0, 0, 100" := by
  refine ⟨['0'], ['0'], ['0'], ['1', '0', '0'], ?_, ?_, ?_, ?_, ?_⟩ <;> first
    | exact ⟨by decide, by decide, by decide⟩
    | decide

theorem validCmyk_cmykOfInts {r g b : ℤ} (hr : 0 ≤ r) (hr2 : r ≤ 255) (hg : 0 ≤ g)
    (hg2 : g ≤ 255) (hb : 0 ≤ b) (hb2 : b ≤ 255) : isValidCmykStr (cmykOfInts r g b) := by
  by_cases hM : max r (max g b) = 0
  · rw [show cmykOfInts r g b = (if max r (max g b) = 0 then "0, 0, 0, 100" else _) from rfl,
      if_pos hM]
    exact validCmyk_black
  · rw [cmykOfInts_pos hM]
    have hMpos : 0 < max r (max g b) := by
      have h' : (0 : ℤ) ≤ max r (max g b) := hr.trans (le_max_left r (max g b))
      omega
    have hMle : max r (max g b) ≤ 255 := max_le hr2 (max_le hg2 hb2)
    have hc1 := chan_nonneg (le_max_left r (max g b)) hMpos
    have hc2 := chan_le_100 hr (le_max_left r (max g b))
    have hm1 := chan_nonneg ((le_max_left g b).trans (le_max_right r (max g b))) hMpos
    have hm2 := chan_le_100 hg ((le_max_left g b).trans (le_max_right r (max g b)))
    have hy1 := chan_nonneg ((le_max_right g b).trans (le_max_right r (max g b))) hMpos
    have hy2 := chan_le_100 hb ((le_max_right g b).trans (le_max_right r (max g b)))
    have hk1 := kchan_nonneg hMle
    have hk2 := kchan_le_100 (le_of_lt hMpos)
    have hrw : ∀ v : ℤ, 0 ≤ v → v ≤ 100 → v = ((v.toNat : ℕ) : ℤ) ∧ v.toNat < 1000 := by
      intro v h1 h2
      omega
    rw [(hrw _ hc1 hc2).1, (hrw _ hm1 hm2).1, (hrw _ hy1 hy2).1, (hrw _ hk1 hk2).1]
    exact validCmyk_of_fmt (hrw _ hc1 hc2).2 (hrw _ hm1 hm2).2 (hrw _ hy1 hy2).2
      (hrw _ hk1 hk2).2

theorem validRgb_rgbOfCmykInts {c m y k : ℤ} (hc : 0 ≤ c) (hc2 : c ≤ 100) (hm : 0 ≤ m)
    (hm2 : m ≤ 100) (hy : 0 ≤ y) (hy2 : y ≤ 100) (hk : 0 ≤ k) (hk2 : k ≤ 100) :
    isValidRgbStr (rgbOfCmykInts c m y k) := by
  have hzeta : rgbOfCmykInts c m y k =
      jsIntToStr (jsRoundDiv (255 * (100 - c) * (100 - k)) 10000) ++ ", " ++
        jsIntToStr (jsRoundDiv (255 * (100 - m) * (100 - k)) 10000) ++ ", " ++
        jsIntToStr (jsRoundDiv (255 * (100 - y) * (100 - k)) 10000) := rfl
  have h1 := rout_nonneg hc2 hk2
  have h2 := rout_le_255 hc hc2 hk hk2
  have h3 := rout_nonneg hm2 hk2
  have h4 := rout_le_255 hm hm2 hk hk2
  have h5 := rout_nonneg hy2 hk2
  have h6 := rout_le_255 hy hy2 hk hk2
  have hrw : ∀ v : ℤ, 0 ≤ v → v ≤ 255 → v = ((v.toNat : ℕ) : ℤ) ∧ v.toNat < 1000 := by
    intro v ha hb
    omega
  rw [hzeta, (hrw _ h1 h2).1, (hrw _ h3 h4).1, (hrw _ h5 h6).1]
  exact validRgb_of_fmt (hrw _ h1 h2).2 (hrw _ h3 h4).2 (hrw _ h5 h6).2

/-- C3 (amended): every codec function always returns a string (the pure
embedding never raises).  The sentinel-or-valid guarantee holds in these
forms: the hex-input functions return `""` whenever the `#`-stripped input
does not have exactly six characters, and return target-format-valid
strings on genuinely hex input; the rgb/cmyk-input functions return `""`
whenever their input does not parse into the right number of integer
components, and return target-format-valid strings when the parsed
components lie in the nominal ranges (`[0,255]` / `[0,100]`).  Outside
those ranges — in particular `hexToRgb` on a six-character non-hex input —
the functions can instead return a non-sentinel invalid string such as
`"NaN, NaN, NaN"` (see the counterexample). -/
theorem C3_sentinel_or_valid :
    (∀ s : String, (removeFirstHash s.data).length ≠ 6 →
      hexToRgb s = "" ∧ hexToCmyk s = "") ∧
    (∀ (s : String) (c1 c2 c3 c4 c5 c6 : Char) (v1 v2 v3 v4 v5 v6 : ℕ),
      s.data = ['#', c1, c2, c3, c4, c5, c6] →
      hexDigitVal c1 = some v1 → hexDigitVal c2 = some v2 → hexDigitVal c3 = some v3 →
      hexDigitVal c4 = some v4 → hexDigitVal c5 = some v5 → hexDigitVal c6 = some v6 →
      isValidRgbStr (hexToRgb s) ∧ isValidCmykStr (hexToCmyk s)) ∧
    (∀ s : String, (∀ x y z : ℤ, rgbParts s ≠ [some x, some y, some z]) →
      rgbToHex s = "" ∧ rgbToCmyk s = "") ∧
    (∀ (s : String) (x y z : ℤ), rgbParts s = [some x, some y, some z] →
      0 ≤ x → x ≤ 255 → 0 ≤ y → y ≤ 255 → 0 ≤ z → z ≤ 255 →
      isValidHexStr (rgbToHex s) ∧ isValidCmykStr (rgbToCmyk s)) ∧
    (∀ s : String, (∀ x y z w : ℤ, cmykParts s ≠ [some x, some y, some z, some w]) →
      cmykToRgb s = "" ∧ cmykToHex s = "") ∧
    (∀ (s : String) (x y z w : ℤ), cmykParts s = [some x, some y, some z, some w] →
      0 ≤ x → x ≤ 100 → 0 ≤ y → y ≤ 100 → 0 ≤ z → z ≤ 100 → 0 ≤ w → w ≤ 100 →
      isValidRgbStr (cmykToRgb s) ∧ isValidHexStr (cmykToHex s)) := by
  refine ⟨?_, ?_, ?_, ?_, ?_, ?_⟩
  · intro s h
    exact ⟨hexToRgb_badlen h, hexToCmyk_badlen h⟩
  · intro s c1 c2 c3 c4 c5 c6 v1 v2 v3 v4 v5 v6 hdata h1 h2 h3 h4 h5 h6
    have hw1 := hexDigitVal_lt h1
    have hw2 := hexDigitVal_lt h2
    have hw3 := hexDigitVal_lt h3
    have hw4 := hexDigitVal_lt h4
    have hw5 := hexDigitVal_lt h5
    have hw6 := hexDigitVal_lt h6
    constructor
    · rw [hexToRgb_valid hdata h1 h2 h3 h4 h5 h6]
      exact validRgb_of_fmt (by omega) (by omega) (by omega)
    · rw [hexToCmyk_eq hdata h1 h2 h3 h4 h5 h6]
      exact validCmyk_cmykOfInts (by positivity) (by exact_mod_cast (by omega : v1 * 16 + v2 ≤ 255))
        (by positivity) (by exact_mod_cast (by omega : v3 * 16 + v4 ≤ 255))
        (by positivity) (by exact_mod_cast (by omega : v5 * 16 + v6 ≤ 255))
  · intro s h
    exact ⟨rgbToHex_fail h, rgbToCmyk_fail h⟩
  · intro s x y z hp hx hx2 hy hy2 hz hz2
    have hxeq : x = ((x.toNat : ℕ) : ℤ) := by omega
    have hyeq : y = ((y.toNat : ℕ) : ℤ) := by omega
    have hzeq : z = ((z.toNat : ℕ) : ℤ) := by omega
    constructor
    · have hp' : rgbParts s = [some ((x.toNat : ℕ) : ℤ), some ((y.toNat : ℕ) : ℤ),
          some ((z.toNat : ℕ) : ℤ)] := by rw [hp, ← hxeq, ← hyeq, ← hzeq]
      rw [rgbToHex_parts hp' (by omega) (by omega) (by omega)]
      exact validHex_of_bytes (by omega) (by omega) (by omega)
    · rw [rgbToCmyk_parts hp]
      exact validCmyk_cmykOfInts hx hx2 hy hy2 hz hz2
  · intro s h
    exact ⟨cmykToRgb_fail h, cmykToHex_fail h⟩
  · intro s x y z w hp hx hx2 hy hy2 hz hz2 hw hw2
    constructor
    · rw [cmykToRgb_parts hp]
      exact validRgb_rgbOfCmykInts hx hx2 hy hy2 hz hz2 hw hw2
    · rw [cmykToHex_parts hp hx hx2 hy hy2 hz hz2 hw hw2]
      have h1 := rout_nonneg hx2 hw2
      have h2 := rout_le_255 hx hx2 hw hw2
      have h3 := rout_nonneg hy2 hw2
      have h4 := rout_le_255 hy hy2 hw hw2
      have h5 := rout_nonneg hz2 hw2
      have h6 := rout_le_255 hz hz2 hw hw2
      exact validHex_of_bytes (by omega) (by omega) (by omega)

/-- C3 witness: each branch of the sentinel-or-valid description applied
at a concrete input. -/
theorem C3_sentinel_or_valid_witness :
    (hexToRgb "#12345" = "" ∧ hexToCmyk "#12345" = "") ∧
    (isValidRgbStr (hexToRgb "#035259") ∧ isValidCmykStr (hexToCmyk "#035259")) ∧
    (rgbToHex "garbage" = "" ∧ rgbToCmyk "garbage" = "") ∧
    (isValidHexStr (rgbToHex "3, 82, 89") ∧ isValidCmykStr (rgbToCmyk "3, 82, 89")) ∧
    (cmykToRgb "1, 2, 3" = "" ∧ cmykToHex "1, 2, 3" = "") ∧
    (isValidRgbStr (cmykToRgb "34, 3, 0, 65") ∧ isValidHexStr (cmykToHex "34, 3, 0, 65")) := by
  have hfail3 : ∀ x y z : ℤ, rgbParts "garbage" ≠ [some x, some y, some z] := by
    intro x y z h
    rw [show rgbParts "garbage" = [none] from by decide] at h
    exact absurd h (by simp)
  have hfail4 : ∀ x y z w : ℤ, cmykParts "1, 2, 3" ≠ [some x, some y, some z, some w] := by
    intro x y z w h
    rw [show cmykParts "1, 2, 3" = [some 1, some 2, some 3] from by decide] at h
    exact absurd h (by simp)
  refine ⟨C3_sentinel_or_valid.1 "#12345" (by decide),
    C3_sentinel_or_valid.2.1 "#035259" '0' '3' '5' '2' '5' '9' 0 3 5 2 5 9 (by decide)
      (by decide) (by decide) (by decide) (by decide) (by decide) (by decide),
    C3_sentinel_or_valid.2.2.1 "garbage" hfail3,
    C3_sentinel_or_valid.2.2.2.1 "3, 82, 89" 3 82 89 (by decide) (by norm_num) (by norm_num)
      (by norm_num) (by norm_num) (by norm_num) (by norm_num),
    C3_sentinel_or_valid.2.2.2.2.1 "1, 2, 3" hfail4,
    C3_sentinel_or_valid.2.2.2.2.2 "34, 3, 0, 65" 34 3 0 65 (by decide) (by norm_num)
      (by norm_num) (by norm_num) (by norm_num) (by norm_num) (by norm_num) (by norm_num)
      (by norm_num)⟩

/-- C3 counterexample: `hexToRgb` applied to the six-character non-hex
input `"zzzzzz"` returns `"NaN, NaN, NaN"` — neither the empty sentinel
nor a syntactically valid RGB string — because the source parses the three
byte pairs with no NaN check. -/
theorem C3_counterexample :
    hexToRgb "zzzzzz" = "NaN, NaN, NaN" ∧ hexToRgb "zzzzzz" ≠ "" ∧
    ¬ isValidRgbStr (hexToRgb "zzzzzz") := by
  refine ⟨by decide, by decide, ?_⟩
  intro hval
  have hmem := validRgb_chars hval 'N' (by decide)
  rcases hmem with h' | h' | h' <;> exact absurd h' (by decide)

/-- C1 counterexample: in the Acme scenario the document field is set to
`"/assets/logos/acme-1.png"` — with a leading slash (source line 170) — and
therefore not to the claimed `"assets/logos/acme-1.png"`. -/
theorem C1_counterexample :
    (((exportKit c1Kit c1Files).doc.logos.getD 0 default).variants.getD 0 default).src =
      "/assets/logos/acme-1.png" ∧
    (((exportKit c1Kit c1Files).doc.logos.getD 0 default).variants.getD 0 default).src ≠
      "assets/logos/acme-1.png" := by decide

/-- C1 (amended): the Acme kit with one pending `"raw.png"` in slot
(logo 0, variant 0) exports exactly one archive entry at
`assets/logos/acme-1.png`, and `logos[0].variants[0].src` is set to
`"/assets/logos/acme-1.png"` (the slash-prefixed form of that entry's
path). -/
theorem C1_acme_scenario :
    (exportKit c1Kit c1Files).assets =
      [("assets/logos/acme-1.png", { name := "raw.png", content := 7 })] ∧
    (((exportKit c1Kit c1Files).doc.logos.getD 0 default).variants.getD 0 default).src =
      "/assets/logos/acme-1.png" := by decide

/-! ## Invariants of the export pipeline -/

theorem modifyAt_length {α : Type} (f : α → α) : ∀ (i : ℕ) (l : List α),
    (modifyAt f i l).length = l.length := by
  intro i l
  induction l generalizing i with
  | nil => cases i <;> rfl
  | cons x xs ih =>
    cases i with
    | zero => rfl
    | succ n => simpa [modifyAt] using ih n

theorem getD_modifyAt_ne {α : Type} (f : α → α) {i j : ℕ} (h : i ≠ j) (l : List α)
    (dflt : α) : (modifyAt f i l).getD j dflt = l.getD j dflt := by
  induction l generalizing i j with
  | nil => cases i <;> rfl
  | cons x xs ih =>
    cases i with
    | zero =>
      cases j with
      | zero => exact absurd rfl h
      | succ m => rfl
    | succ n =>
      cases j with
      | zero => rfl
      | succ m => simpa [modifyAt] using ih (fun h' => h (by omega))

theorem getD_modifyAt_self {α : Type} (f : α → α) {i : ℕ} {l : List α} (h : i < l.length)
    (dflt : α) : (modifyAt f i l).getD i dflt = f (l.getD i dflt) := by
  induction l generalizing i with
  | nil => simp at h
  | cons x xs ih =>
    cases i with
    | zero => rfl
    | succ n => simpa [modifyAt] using ih (by simpa using h)

theorem zipFile_keys (z : Zip) (path : String) (f : JsFile) :
    (zipFile z path f).map Prod.fst =
      if path ∈ z.map Prod.fst then z.map Prod.fst else z.map Prod.fst ++ [path] := by
  unfold zipFile
  have hany : (z.any (fun e => e.1 == path)) = true ↔ path ∈ z.map Prod.fst := by
    simp [List.any_eq_true, List.mem_map]
  by_cases hmem : path ∈ z.map Prod.fst
  · rw [if_pos (hany.mpr hmem), if_pos hmem, List.map_map]
    apply List.map_congr_left
    intro e _
    by_cases he : e.1 = path
    · simp [Function.comp, he]
    · simp [Function.comp, he]
  · rw [if_neg (fun hc => hmem (hany.mp hc)), if_neg hmem]
    simp

theorem zipFile_keys_nodup {z : Zip} (h : (z.map Prod.fst).Nodup) (path : String)
    (f : JsFile) : ((zipFile z path f).map Prod.fst).Nodup := by
  rw [zipFile_keys]
  by_cases hmem : path ∈ z.map Prod.fst
  · rwa [if_pos hmem]
  · rw [if_neg hmem]
    refine List.Nodup.append h (List.nodup_singleton path) ?_
    intro a ha hpa
    rw [List.mem_singleton] at hpa
    exact hmem (hpa ▸ ha)

theorem zipFile_keys_mem {z : Zip} {p : String} (path : String) (f : JsFile) :
    p ∈ (zipFile z path f).map Prod.fst ↔ p ∈ z.map Prod.fst ∨ p = path := by
  rw [zipFile_keys]
  by_cases hmem : path ∈ z.map Prod.fst
  · rw [if_pos hmem]
    constructor
    · exact Or.inl
    · rintro (h | rfl)
      · exact h
      · exact hmem
  · rw [if_neg hmem]
    simp

theorem modifyAt_ge {α : Type} (f : α → α) : ∀ {i : ℕ} {l : List α}, l.length ≤ i →
    modifyAt f i l = l := by
  intro i l
  induction l generalizing i with
  | nil => intro _; cases i <;> rfl
  | cons x xs ih =>
    intro h
    cases i with
    | zero => simp at h
    | succ n => simpa [modifyAt] using ih (by simpa using h)

theorem sameShape_refl (d : BrandData) : SameShape d d :=
  ⟨rfl, rfl, rfl, rfl, fun _ => ⟨rfl, rfl, rfl, fun _ => rfl⟩, rfl, fun _ => rfl⟩

theorem sameShape_trans {a b c : BrandData} (h1 : SameShape a b) (h2 : SameShape b c) :
    SameShape a c := by
  obtain ⟨x1, x2, x3, x4, x5, x6, x7⟩ := h1
  obtain ⟨y1, y2, y3, y4, y5, y6, y7⟩ := h2
  refine ⟨y1.trans x1, y2.trans x2, y3.trans x3, y4.trans x4, ?_, y6.trans x6, ?_⟩
  · intro i
    obtain ⟨a1, a2, a3, a4⟩ := x5 i
    obtain ⟨b1, b2, b3, b4⟩ := y5 i
    exact ⟨b1.trans a1, b2.trans a2, b3.trans a3, fun j => (b4 j).trans (a4 j)⟩
  · intro i
    exact (y7 i).trans (x7 i)

theorem variants_label_modify {vi : ℕ} {vs : List LogoVariant} (s : String) (j : ℕ) :
    ((modifyAt (fun v => { v with src := s }) vi vs).getD j default).label =
      ((vs.getD j default)).label := by
  by_cases hij : vi = j
  · subst hij
    by_cases hlt : vi < vs.length
    · rw [getD_modifyAt_self _ hlt]
    · rw [modifyAt_ge _ (by omega)]
  · rw [getD_modifyAt_ne _ hij]

theorem sameShape_setVariantSrc (d : BrandData) (li vi : ℕ) (s : String) :
    SameShape d (setVariantSrc d li vi s) := by
  unfold setVariantSrc SameShape
  refine ⟨rfl, rfl, rfl, modifyAt_length _ _ _, ?_, rfl, fun _ => rfl⟩
  intro i
  by_cases hi : li = i
  · subst hi
    by_cases hlt : li < d.logos.length
    · rw [getD_modifyAt_self _ hlt]
      exact ⟨rfl, rfl, modifyAt_length _ _ _, fun j => variants_label_modify s j⟩
    · rw [modifyAt_ge _ (by omega)]
      exact ⟨rfl, rfl, rfl, fun _ => rfl⟩
  · rw [getD_modifyAt_ne _ hi]
    exact ⟨rfl, rfl, rfl, fun _ => rfl⟩

theorem sameShape_setGallerySrc (d : BrandData) (gi : ℕ) (s : String) :
    SameShape d (setGallerySrc d gi s) := by
  unfold setGallerySrc SameShape
  refine ⟨rfl, rfl, rfl, rfl, fun _ => ⟨rfl, rfl, rfl, fun _ => rfl⟩,
    modifyAt_length _ _ _, ?_⟩
  intro i
  by_cases hi : gi = i
  · subst hi
    by_cases hlt : gi < d.gallery.length
    · rw [getD_modifyAt_self _ hlt]
    · rw [modifyAt_ge _ (by omega)]
  · rw [getD_modifyAt_ne _ hi]

theorem setVariantSrc_other {d : BrandData} {li vi i j : ℕ} (s : String)
    (h : i ≠ li ∨ j ≠ vi) :
    (((setVariantSrc d li vi s).logos.getD i default).variants.getD j default) =
      ((d.logos.getD i default).variants.getD j default) := by
  unfold setVariantSrc
  rcases h with h | h
  · rw [show ({ d with logos := modifyAt _ li d.logos } : BrandData).logos =
      modifyAt _ li d.logos from rfl, getD_modifyAt_ne _ (fun h' => h h'.symm)]
  · by_cases hi : li = i
    · subst hi
      by_cases hlt : li < d.logos.length
      · rw [show ({ d with logos := modifyAt _ li d.logos } : BrandData).logos =
          modifyAt _ li d.logos from rfl, getD_modifyAt_self _ hlt,
          show ({ (d.logos.getD li default) with variants := modifyAt _ vi _ } : Logo).variants
            = modifyAt (fun v => { v with src := s }) vi
              (d.logos.getD li default).variants from rfl,
          getD_modifyAt_ne _ (fun h' => h h'.symm)]
      · rw [show ({ d with logos := modifyAt _ li d.logos } : BrandData).logos =
          modifyAt _ li d.logos from rfl, modifyAt_ge _ (by omega)]
    · rw [show ({ d with logos := modifyAt _ li d.logos } : BrandData).logos =
        modifyAt _ li d.logos from rfl, getD_modifyAt_ne _ hi]

theorem setVariantSrc_target {d : BrandData} {li vi : ℕ} (s : String)
    (hli : li < d.logos.length) (hvi : vi < (d.logos.getD li default).variants.length) :
    (((setVariantSrc d li vi s).logos.getD li default).variants.getD vi default) =
      { ((d.logos.getD li default).variants.getD vi default) with src := s } := by
  unfold setVariantSrc
  rw [show ({ d with logos := modifyAt _ li d.logos } : BrandData).logos =
    modifyAt _ li d.logos from rfl, getD_modifyAt_self _ hli,
    show ({ (d.logos.getD li default) with variants := modifyAt _ vi _ } : Logo).variants
      = modifyAt (fun v => { v with src := s }) vi (d.logos.getD li default).variants from rfl,
    getD_modifyAt_self _ hvi]

theorem setGallerySrc_other {d : BrandData} {gi i : ℕ} (s : String) (h : i ≠ gi) :
    ((setGallerySrc d gi s).gallery.getD i default) = (d.gallery.getD i default) := by
  unfold setGallerySrc
  rw [show ({ d with gallery := modifyAt _ gi d.gallery } : BrandData).gallery =
    modifyAt _ gi d.gallery from rfl, getD_modifyAt_ne _ (fun h' => h h'.symm)]

theorem setGallerySrc_target {d : BrandData} {gi : ℕ} (s : String)
    (hgi : gi < d.gallery.length) :
    ((setGallerySrc d gi s).gallery.getD gi default) =
      { (d.gallery.getD gi default) with src := s } := by
  unfold setGallerySrc
  rw [show ({ d with gallery := modifyAt _ gi d.gallery } : BrandData).gallery =
    modifyAt _ gi d.gallery from rfl, getD_modifyAt_self _ hgi]

theorem logoFilename_congr {d d' : BrandData} (h : SameShape d d') (li vi : ℕ) (f : JsFile) :
    logoFilename d' li vi f = logoFilename d li vi f := by
  unfold logoFilename
  rw [(h.2.2.2.2.1 li).1]

theorem logoPathsAux_congr {d d' : BrandData} (h : SameShape d d') (li : ℕ) :
    ∀ vi files, logoPathsAux d' li vi files = logoPathsAux d li vi files := by
  intro vi files
  induction files generalizing vi with
  | nil => rfl
  | cons of rest ih =>
    cases of with
    | none => simpa [logoPathsAux] using ih (vi + 1)
    | some f => simp [logoPathsAux, ih (vi + 1), logoFilename_congr h]

theorem fontFilename_congr {d d' : BrandData} (h : SameShape d d') (fi : ℕ) (f : JsFile) :
    fontFilename d' fi f = fontFilename d fi f := by
  unfold fontFilename
  rw [h.2.2.1]

theorem plf_shape (li : ℕ) : ∀ (files : List (Option JsFile)) (vi : ℕ) (z : Zip)
    (d : BrandData), SameShape d (processLogoFiles li vi files (z, d)).2 := by
  intro files
  induction files with
  | nil => intro vi z d; exact sameShape_refl d
  | cons of rest ih =>
    intro vi z d
    cases of with
    | none => exact ih (vi + 1) z d
    | some f =>
      exact sameShape_trans (sameShape_setVariantSrc d li vi _) (ih (vi + 1) _ _)

theorem plf_zip_mem (li : ℕ) : ∀ (files : List (Option JsFile)) (vi : ℕ) (z : Zip)
    (d : BrandData) (p : String),
    p ∈ (processLogoFiles li vi files (z, d)).1.map Prod.fst ↔
      p ∈ z.map Prod.fst ∨ p ∈ logoPathsAux d li vi files := by
  intro files
  induction files with
  | nil => intro vi z d p; simp [processLogoFiles, logoPathsAux]
  | cons of rest ih =>
    intro vi z d p
    cases of with
    | none => simpa [processLogoFiles, logoPathsAux] using ih (vi + 1) z d p
    | some f =>
      show p ∈ (processLogoFiles li (vi + 1) rest
        (zipFile z ("assets/logos/" ++ logoFilename d li vi f) f,
         setVariantSrc d li vi ("/assets/logos/" ++ logoFilename d li vi f))).1.map Prod.fst ↔ _
      rw [ih (vi + 1) _ _ p,
        logoPathsAux_congr (sameShape_setVariantSrc d li vi _) li (vi + 1) rest,
        zipFile_keys_mem]
      simp [logoPathsAux]
      tauto

theorem plf_zip_nodup (li : ℕ) : ∀ (files : List (Option JsFile)) (vi : ℕ) (z : Zip)
    (d : BrandData), (z.map Prod.fst).Nodup →
    ((processLogoFiles li vi files (z, d)).1.map Prod.fst).Nodup := by
  intro files
  induction files with
  | nil => intro vi z d h; exact h
  | cons of rest ih =>
    intro vi z d h
    cases of with
    | none => exact ih (vi + 1) z d h
    | some f => exact ih (vi + 1) _ _ (zipFile_keys_nodup h _ _)

theorem plf_src_unchanged (li : ℕ) : ∀ (files : List (Option JsFile)) (vi : ℕ) (z : Zip)
    (d : BrandData) (i j : ℕ),
    (i ≠ li ∨ ∀ off, j = vi + off → files.getD off none = none) →
    (((processLogoFiles li vi files (z, d)).2.logos.getD i default).variants.getD j default) =
      ((d.logos.getD i default).variants.getD j default) := by
  intro files
  induction files with
  | nil => intro vi z d i j _; rfl
  | cons of rest ih =>
    intro vi z d i j h
    have hrest : i ≠ li ∨ ∀ off, j = (vi + 1) + off → rest.getD off none = none := by
      rcases h with h | h
      · exact Or.inl h
      · exact Or.inr (fun off hoff => h (off + 1) (by omega))
    cases of with
    | none => exact ih (vi + 1) z d i j hrest
    | some f =>
      show (((processLogoFiles li (vi + 1) rest
        (zipFile z _ f, setVariantSrc d li vi _)).2.logos.getD i default).variants.getD j
          default) = _
      rw [ih (vi + 1) _ _ i j hrest]
      apply setVariantSrc_other
      rcases h with h | h
      · exact Or.inl h
      · right
        intro hj
        have := h 0 (by omega)
        simp at this

theorem plf_src_set (li : ℕ) : ∀ (files : List (Option JsFile)) (vi : ℕ) (z : Zip)
    (d : BrandData) (off : ℕ) (f : JsFile),
    files.getD off none = some f → li < d.logos.length →
    vi + files.length ≤ (d.logos.getD li default).variants.length →
    ((((processLogoFiles li vi files (z, d)).2.logos.getD li default).variants.getD (vi + off)
      default)).src = "/assets/logos/" ++ logoFilename d li (vi + off) f := by
  intro files
  induction files with
  | nil => intro vi z d off f hoff; simp at hoff
  | cons of rest ih =>
    intro vi z d off f hoff hli hlen
    cases off with
    | zero =>
      have hof : of = some f := by simpa using hoff
      subst hof
      show ((((processLogoFiles li (vi + 1) rest
        (zipFile z _ f,
         setVariantSrc d li vi ("/assets/logos/" ++ logoFilename d li vi f))).2.logos.getD li
          default).variants.getD (vi + 0) default)).src = _
      rw [show vi + 0 = vi by omega,
        plf_src_unchanged li rest (vi + 1) _ _ li vi
          (Or.inr (fun off' hoff' => absurd hoff' (by omega))),
        setVariantSrc_target _ hli (by rw [List.length_cons] at hlen; omega)]
    | succ off' =>
      have hoff' : rest.getD off' none = some f := by simpa using hoff
      cases of with
      | none =>
        show ((((processLogoFiles li (vi + 1) rest (z, d)).2.logos.getD li
          default).variants.getD (vi + (off' + 1)) default)).src = _
        rw [show vi + (off' + 1) = (vi + 1) + off' by omega]
        exact ih (vi + 1) z d off' f hoff' hli (by rw [List.length_cons] at hlen; omega)
      | some f0 =>
        have hsh := sameShape_setVariantSrc d li vi
          ("/assets/logos/" ++ logoFilename d li vi f0)
        show ((((processLogoFiles li (vi + 1) rest
          (zipFile z _ f0, setVariantSrc d li vi _)).2.logos.getD li
            default).variants.getD (vi + (off' + 1)) default)).src = _
        rw [show vi + (off' + 1) = (vi + 1) + off' by omega,
          ih (vi + 1) _ _ off' f hoff'
            (by rw [hsh.2.2.2.1]; exact hli)
            (by rw [(hsh.2.2.2.2.1 li).2.2.1]; rw [List.length_cons] at hlen; omega),
          logoFilename_congr hsh]

theorem pl_shape : ∀ (L : List (ℕ × List (Option JsFile))) (acc : Zip × BrandData),
    SameShape acc.2 (processLogos L acc).2 := by
  intro L
  induction L with
  | nil => intro acc; exact sameShape_refl acc.2
  | cons e rest ih =>
    intro acc
    obtain ⟨li, files⟩ := e
    exact sameShape_trans (plf_shape li files 0 acc.1 acc.2)
      (ih (processLogoFiles li 0 files acc))

theorem pl_zip_mem : ∀ (L : List (ℕ × List (Option JsFile))) (acc : Zip × BrandData)
    (p : String),
    p ∈ (processLogos L acc).1.map Prod.fst ↔
      p ∈ acc.1.map Prod.fst ∨
        p ∈ (L.map (fun e => logoPathsAux acc.2 e.1 0 e.2)).join := by
  intro L
  induction L with
  | nil => intro acc p; simp [processLogos]
  | cons e rest ih =>
    intro acc p
    obtain ⟨li, files⟩ := e
    show p ∈ (processLogos rest (processLogoFiles li 0 files acc)).1.map Prod.fst ↔ _
    rw [ih (processLogoFiles li 0 files acc) p, plf_zip_mem li files 0 acc.1 acc.2 p]
    have hcongr : (rest.map (fun e =>
        logoPathsAux (processLogoFiles li 0 files acc).2 e.1 0 e.2)) =
        rest.map (fun e => logoPathsAux acc.2 e.1 0 e.2) := by
      apply List.map_congr_left
      intro e _
      exact logoPathsAux_congr (plf_shape li files 0 acc.1 acc.2) e.1 0 e.2
    rw [hcongr]
    simp [List.join]
    tauto

theorem pl_zip_nodup : ∀ (L : List (ℕ × List (Option JsFile))) (acc : Zip × BrandData),
    (acc.1.map Prod.fst).Nodup → ((processLogos L acc).1.map Prod.fst).Nodup := by
  intro L
  induction L with
  | nil => intro acc h; exact h
  | cons e rest ih =>
    intro acc h
    obtain ⟨li, files⟩ := e
    exact ih (processLogoFiles li 0 files acc) (plf_zip_nodup li files 0 acc.1 acc.2 h)

theorem pl_src_unchanged : ∀ (L : List (ℕ × List (Option JsFile))) (acc : Zip × BrandData)
    (i j : ℕ), (∀ files, (i, files) ∈ L → files.getD j none = none) →
    (((processLogos L acc).2.logos.getD i default).variants.getD j default) =
      ((acc.2.logos.getD i default).variants.getD j default) := by
  intro L
  induction L with
  | nil => intro acc i j _; rfl
  | cons e rest ih =>
    intro acc i j h
    obtain ⟨li, files⟩ := e
    show (((processLogos rest (processLogoFiles li 0 files acc)).2.logos.getD i
      default).variants.getD j default) = _
    rw [ih (processLogoFiles li 0 files acc) i j
      (fun files' hmem => h files' (List.mem_cons_of_mem _ hmem))]
    apply plf_src_unchanged
    by_cases hi : i = li
    · subst hi
      right
      intro off hoff
      have := h files (List.mem_cons_self _ _)
      simpa [hoff] using this
    · exact Or.inl hi

theorem pl_src_set : ∀ (L : List (ℕ × List (Option JsFile))) (acc : Zip × BrandData)
    (li : ℕ) (files : List (Option JsFile)) (vi : ℕ) (f : JsFile),
    (li, files) ∈ L → (L.map Prod.fst).Nodup →
    (∀ p ∈ L, p.1 < acc.2.logos.length ∧
      p.2.length ≤ ((acc.2.logos.getD p.1 default).variants).length) →
    files.getD vi none = some f →
    ((((processLogos L acc).2.logos.getD li default).variants.getD vi default)).src =
      "/assets/logos/" ++ logoFilename acc.2 li vi f := by
  intro L
  induction L with
  | nil => intro acc li files vi f hmem; simp at hmem
  | cons e rest ih =>
    intro acc li files vi f hmem hnd hbounds hslot
    obtain ⟨li0, files0⟩ := e
    rcases List.mem_cons.mp hmem with heq | hmem'
    · obtain ⟨h1, h2⟩ := Prod.mk.inj heq
      subst h1
      subst h2
      show ((((processLogos rest (processLogoFiles li 0 files acc)).2.logos.getD li
        default).variants.getD vi default)).src = _
      have hnotin : ∀ files', (li, files') ∈ rest → files'.getD vi none = none := by
        intro files' hmem''
        exfalso
        have hkey : li ∈ rest.map Prod.fst := List.mem_map.mpr ⟨(li, files'), hmem'', rfl⟩
        rw [List.map_cons] at hnd
        exact (List.nodup_cons.mp hnd).1 hkey
      rw [pl_src_unchanged rest (processLogoFiles li 0 files acc) li vi hnotin]
      have hb := hbounds (li, files) (List.mem_cons_self _ _)
      have := plf_src_set li files 0 acc.1 acc.2 vi f hslot hb.1 (by simpa using hb.2)
      simpa using this
    · have hsh := plf_shape li0 files0 0 acc.1 acc.2
      have hbounds' : ∀ p ∈ rest, p.1 < (processLogoFiles li0 0 files0 acc).2.logos.length ∧
          p.2.length ≤ (((processLogoFiles li0 0 files0 acc).2.logos.getD p.1
            default).variants).length := by
        intro p hp
        obtain ⟨hb1, hb2⟩ := hbounds p (List.mem_cons_of_mem _ hp)
        refine ⟨by rw [hsh.2.2.2.1]; exact hb1, ?_⟩
        rw [(hsh.2.2.2.2.1 p.1).2.2.1]
        exact hb2
      rw [List.map_cons] at hnd
      have hnd' : (rest.map Prod.fst).Nodup := (List.nodup_cons.mp hnd).2
      show ((((processLogos rest (processLogoFiles li0 0 files0 acc)).2.logos.getD li
        default).variants.getD vi default)).src = _
      rw [ih (processLogoFiles li0 0 files0 acc) li files vi f hmem' hnd' hbounds' hslot,
        logoFilename_congr hsh]

theorem plf_gallery_eq (li : ℕ) : ∀ (files : List (Option JsFile)) (vi : ℕ)
    (acc : Zip × BrandData), (processLogoFiles li vi files acc).2.gallery = acc.2.gallery := by
  intro files
  induction files with
  | nil => intro vi acc; rfl
  | cons of rest ih =>
    intro vi acc
    cases of with
    | none => exact ih (vi + 1) acc
    | some f =>
      show (processLogoFiles li (vi + 1) rest _).2.gallery = _
      rw [ih (vi + 1) _]
      rfl

theorem pl_gallery_eq : ∀ (L : List (ℕ × List (Option JsFile))) (acc : Zip × BrandData),
    (processLogos L acc).2.gallery = acc.2.gallery := by
  intro L
  induction L with
  | nil => intro acc; rfl
  | cons e rest ih =>
    intro acc
    obtain ⟨li, files⟩ := e
    show (processLogos rest (processLogoFiles li 0 files acc)).2.gallery = _
    rw [ih (processLogoFiles li 0 files acc), plf_gallery_eq li files 0 acc]

theorem pg_shape : ∀ (G : List (ℕ × JsFile)) (acc : Zip × BrandData),
    SameShape acc.2 (processGallery G acc).2 := by
  intro G
  induction G with
  | nil => intro acc; exact sameShape_refl acc.2
  | cons e rest ih =>
    intro acc
    obtain ⟨gi, f⟩ := e
    exact sameShape_trans (sameShape_setGallerySrc acc.2 gi _) (ih _)

theorem pg_zip_mem : ∀ (G : List (ℕ × JsFile)) (acc : Zip × BrandData) (p : String),
    p ∈ (processGallery G acc).1.map Prod.fst ↔
      p ∈ acc.1.map Prod.fst ∨
        p ∈ G.map (fun e => "assets/gallery/" ++ galleryFilename e.1 e.2) := by
  intro G
  induction G with
  | nil => intro acc p; simp [processGallery]
  | cons e rest ih =>
    intro acc p
    obtain ⟨gi, f⟩ := e
    show p ∈ (processGallery rest _).1.map Prod.fst ↔ _
    rw [ih _ p, zipFile_keys_mem]
    simp [List.mem_cons]
    tauto

theorem pg_zip_nodup : ∀ (G : List (ℕ × JsFile)) (acc : Zip × BrandData),
    (acc.1.map Prod.fst).Nodup → ((processGallery G acc).1.map Prod.fst).Nodup := by
  intro G
  induction G with
  | nil => intro acc h; exact h
  | cons e rest ih =>
    intro acc h
    obtain ⟨gi, f⟩ := e
    exact ih _ (zipFile_keys_nodup h _ _)

theorem pg_logos_eq : ∀ (G : List (ℕ × JsFile)) (acc : Zip × BrandData),
    (processGallery G acc).2.logos = acc.2.logos := by
  intro G
  induction G with
  | nil => intro acc; rfl
  | cons e rest ih =>
    intro acc
    obtain ⟨gi, f⟩ := e
    show (processGallery rest _).2.logos = _
    rw [ih _]
    rfl

theorem pg_gallery_unchanged : ∀ (G : List (ℕ × JsFile)) (acc : Zip × BrandData) (i : ℕ),
    (∀ f, (i, f) ∉ G) →
    (processGallery G acc).2.gallery.getD i default = acc.2.gallery.getD i default := by
  intro G
  induction G with
  | nil => intro acc i _; rfl
  | cons e rest ih =>
    intro acc i h
    obtain ⟨gi, f⟩ := e
    have hrest : ∀ f', (i, f') ∉ rest := fun f' hm => h f' (List.mem_cons_of_mem _ hm)
    have hne : i ≠ gi := by
      intro heq
      subst heq
      exact h f (List.mem_cons_self _ _)
    show (processGallery rest _).2.gallery.getD i default = _
    rw [ih _ i hrest]
    exact setGallerySrc_other _ hne

theorem pg_src_set : ∀ (G : List (ℕ × JsFile)) (acc : Zip × BrandData) (gi : ℕ) (f : JsFile),
    (gi, f) ∈ G → (G.map Prod.fst).Nodup → gi < acc.2.gallery.length →
    ((processGallery G acc).2.gallery.getD gi default).src =
      "/assets/gallery/" ++ galleryFilename gi f := by
  intro G
  induction G with
  | nil => intro acc gi f hmem; simp at hmem
  | cons e rest ih =>
    intro acc gi f hmem hnd hbound
    obtain ⟨gi0, f0⟩ := e
    rw [List.map_cons] at hnd
    rcases List.mem_cons.mp hmem with heq | hmem'
    · obtain ⟨h1, h2⟩ := Prod.mk.inj heq
      subst h1
      subst h2
      have hnotin : ∀ f', (gi, f') ∉ rest := by
        intro f' hm
        exact (List.nodup_cons.mp hnd).1 (List.mem_map.mpr ⟨(gi, f'), hm, rfl⟩)
      show ((processGallery rest _).2.gallery.getD gi default).src = _
      rw [pg_gallery_unchanged rest _ gi hnotin]
      rw [setGallerySrc_target _ hbound]
    · have hlen : (setGallerySrc acc.2 gi0
          ("/assets/gallery/" ++ galleryFilename gi0 f0)).gallery.length =
          acc.2.gallery.length := modifyAt_length _ _ _
      show ((processGallery rest _).2.gallery.getD gi default).src = _
      exact ih _ gi f hmem' (List.nodup_cons.mp hnd).2 (by rw [hlen]; exact hbound)

theorem pff_doc (fi : ℕ) : ∀ (files : List JsFile) (acc : Zip × BrandData),
    (processFontFiles fi files acc).2 = acc.2 := by
  intro files
  induction files with
  | nil => intro acc; rfl
  | cons f rest ih =>
    intro acc
    show (processFontFiles fi rest _).2 = _
    rw [ih _]

theorem pfonts_doc : ∀ (F : List (ℕ × List JsFile)) (acc : Zip × BrandData),
    (processFonts F acc).2 = acc.2 := by
  intro F
  induction F with
  | nil => intro acc; rfl
  | cons e rest ih =>
    intro acc
    obtain ⟨fi, files⟩ := e
    show (processFonts rest (processFontFiles fi files acc)).2 = _
    rw [ih _, pff_doc fi files acc]

theorem pff_zip_mem (fi : ℕ) : ∀ (files : List JsFile) (acc : Zip × BrandData) (p : String),
    p ∈ (processFontFiles fi files acc).1.map Prod.fst ↔
      p ∈ acc.1.map Prod.fst ∨
        p ∈ files.map (fun f => "assets/fonts/" ++ fontFilename acc.2 fi f) := by
  intro files
  induction files with
  | nil => intro acc p; simp [processFontFiles]
  | cons f rest ih =>
    intro acc p
    show p ∈ (processFontFiles fi rest
      (zipFile acc.1 ("assets/fonts/" ++ fontFilename acc.2 fi f) f, acc.2)).1.map
        Prod.fst ↔ _
    rw [ih (zipFile acc.1 ("assets/fonts/" ++ fontFilename acc.2 fi f) f, acc.2) p,
      zipFile_keys_mem]
    simp [List.mem_cons]
    tauto

theorem pff_zip_nodup (fi : ℕ) : ∀ (files : List JsFile) (acc : Zip × BrandData),
    (acc.1.map Prod.fst).Nodup → ((processFontFiles fi files acc).1.map Prod.fst).Nodup := by
  intro files
  induction files with
  | nil => intro acc h; exact h
  | cons f rest ih =>
    intro acc h
    exact ih _ (zipFile_keys_nodup h _ _)

theorem pfonts_zip_mem : ∀ (F : List (ℕ × List JsFile)) (acc : Zip × BrandData) (p : String),
    p ∈ (processFonts F acc).1.map Prod.fst ↔
      p ∈ acc.1.map Prod.fst ∨
        p ∈ (F.map (fun e =>
          e.2.map (fun f => "assets/fonts/" ++ fontFilename acc.2 e.1 f))).join := by
  intro F
  induction F with
  | nil => intro acc p; simp [processFonts]
  | cons e rest ih =>
    intro acc p
    obtain ⟨fi, files⟩ := e
    show p ∈ (processFonts rest (processFontFiles fi files acc)).1.map Prod.fst ↔ _
    rw [ih (processFontFiles fi files acc) p, pff_doc fi files acc]
    rw [pff_zip_mem fi files acc p]
    simp only [List.map_cons, List.join_cons, List.mem_append]
    tauto

theorem pfonts_zip_nodup : ∀ (F : List (ℕ × List JsFile)) (acc : Zip × BrandData),
    (acc.1.map Prod.fst).Nodup → ((processFonts F acc).1.map Prod.fst).Nodup := by
  intro F
  induction F with
  | nil => intro acc h; exact h
  | cons e rest ih =>
    intro acc h
    obtain ⟨fi, files⟩ := e
    exact ih _ (pff_zip_nodup fi files acc h)

theorem ek_doc_eq (d : BrandData) (uf : UploadedFiles) :
    (exportKit d uf).doc =
      (processGallery uf.gallery (processLogos uf.logos ([], d))).2 := by
  show (processFonts uf.fonts _).2 = _
  exact pfonts_doc uf.fonts _

theorem ek_shape (d : BrandData) (uf : UploadedFiles) : SameShape d (exportKit d uf).doc := by
  rw [ek_doc_eq]
  exact sameShape_trans (pl_shape uf.logos ([], d)) (pg_shape uf.gallery _)

theorem ek_assets_mem (d : BrandData) (uf : UploadedFiles) (p : String) :
    p ∈ (exportKit d uf).assets.map Prod.fst ↔ p ∈ pendingPaths d uf := by
  show p ∈ (processFonts uf.fonts
    (processGallery uf.gallery (processLogos uf.logos ([], d)))).1.map Prod.fst ↔ _
  rw [pfonts_zip_mem, pg_zip_mem, pl_zip_mem]
  have hsh : SameShape d (processGallery uf.gallery (processLogos uf.logos ([], d))).2 :=
    sameShape_trans (pl_shape uf.logos ([], d)) (pg_shape uf.gallery _)
  have hfonts : uf.fonts.map (fun e => e.2.map (fun f => "assets/fonts/" ++
      fontFilename (processGallery uf.gallery (processLogos uf.logos ([], d))).2 e.1 f)) =
      uf.fonts.map (fun e => e.2.map (fun f => "assets/fonts/" ++ fontFilename d e.1 f)) := by
    apply List.map_congr_left
    intro e _
    apply List.map_congr_left
    intro f _
    rw [fontFilename_congr hsh]
  rw [hfonts]
  unfold pendingPaths
  simp only [List.mem_append, List.map_nil, List.not_mem_nil, false_or]

theorem ek_assets_nodup (d : BrandData) (uf : UploadedFiles) :
    ((exportKit d uf).assets.map Prod.fst).Nodup := by
  show ((processFonts uf.fonts
    (processGallery uf.gallery (processLogos uf.logos ([], d)))).1.map Prod.fst).Nodup
  exact pfonts_zip_nodup uf.fonts _ (pg_zip_nodup uf.gallery _
    (pl_zip_nodup uf.logos ([], d) List.nodup_nil))

theorem ek_logo_src (d : BrandData) (uf : UploadedFiles)
    (hlnd : (uf.logos.map Prod.fst).Nodup)
    (hlb : ∀ p ∈ uf.logos, p.1 < d.logos.length ∧
      p.2.length ≤ ((d.logos.getD p.1 default).variants).length)
    (li : ℕ) (files : List (Option JsFile)) (vi : ℕ) (f : JsFile)
    (hmem : (li, files) ∈ uf.logos) (hslot : files.getD vi none = some f) :
    (((exportKit d uf).doc.logos.getD li default).variants.getD vi default).src =
      "/assets/logos/" ++ logoFilename d li vi f := by
  rw [ek_doc_eq, pg_logos_eq uf.gallery (processLogos uf.logos ([], d))]
  exact pl_src_set uf.logos ([], d) li files vi f hmem hlnd hlb hslot

theorem ek_gallery_src (d : BrandData) (uf : UploadedFiles)
    (hgnd : (uf.gallery.map Prod.fst).Nodup)
    (hgb : ∀ p ∈ uf.gallery, p.1 < d.gallery.length)
    (gi : ℕ) (f : JsFile) (hmem : (gi, f) ∈ uf.gallery) :
    ((exportKit d uf).doc.gallery.getD gi default).src =
      "/assets/gallery/" ++ galleryFilename gi f := by
  rw [ek_doc_eq]
  apply pg_src_set uf.gallery _ gi f hmem hgnd
  rw [pl_gallery_eq]
  exact hgb (gi, f) hmem

theorem ek_logo_frame (d : BrandData) (uf : UploadedFiles) (i j : ℕ)
    (h : ∀ files, (i, files) ∈ uf.logos → files.getD j none = none) :
    ((exportKit d uf).doc.logos.getD i default).variants.getD j default =
      (d.logos.getD i default).variants.getD j default := by
  rw [ek_doc_eq, pg_logos_eq uf.gallery (processLogos uf.logos ([], d))]
  exact pl_src_unchanged uf.logos ([], d) i j h

theorem ek_gallery_frame (d : BrandData) (uf : UploadedFiles) (i : ℕ)
    (h : ∀ f, (i, f) ∉ uf.gallery) :
    (exportKit d uf).doc.gallery.getD i default = d.gallery.getD i default := by
  rw [ek_doc_eq, pg_gallery_unchanged uf.gallery _ i h, pl_gallery_eq]

/-- C4 counterexample: with two pending assets whose target filenames
collide (two logos named `"Acme"`, variant 0 of each maps to
`assets/logos/acme-1.png`), the export produces a single archive entry,
not one per pending asset — the second upload overwrites the first in the
archive — and both rewritten `src` fields carry a leading slash, so they
are not equal to the archive entry's path either. -/
theorem C4_counterexample :
    (pendingPaths c4Kit c4Files).length = 2 ∧
    (exportKit c4Kit c4Files).assets.length = 1 ∧
    (exportKit c4Kit c4Files).assets =
      [("assets/logos/acme-1.png", { name := "b.png", content := 2 })] ∧
    (((exportKit c4Kit c4Files).doc.logos.getD 0 default).variants.getD 0 default).src =
      "/assets/logos/acme-1.png" ∧
    "/assets/logos/acme-1.png" ∉ (exportKit c4Kit c4Files).assets.map Prod.fst := by
  decide

/-- C4 (amended): assume the staged uploads have no duplicate logo or
gallery indices and all indices are in bounds (as the DOM guarantees).
Then the archive's asset paths are exactly the pending paths, without
duplicates — so colliding pending assets (same target filename) fold into
ONE archive entry rather than one entry each; every logo-variant and
gallery slot holding a pending asset has its `src` rewritten to the
slash-prefixed form `"/" ++ path` of that entry's path; and everything
else is untouched: variant and gallery slots without a pending asset are
byte-identical to the input, and `brand`, `colors`, `typography` and all
non-`src` fields (`SameShape`) are preserved. -/
theorem C4_export_frame (d : BrandData) (uf : UploadedFiles)
    (hlnd : (uf.logos.map Prod.fst).Nodup)
    (hgnd : (uf.gallery.map Prod.fst).Nodup)
    (hlb : ∀ p ∈ uf.logos, p.1 < d.logos.length ∧
      p.2.length ≤ ((d.logos.getD p.1 default).variants).length)
    (hgb : ∀ p ∈ uf.gallery, p.1 < d.gallery.length) :
    ((exportKit d uf).assets.map Prod.fst).Nodup ∧
    (∀ p, p ∈ (exportKit d uf).assets.map Prod.fst ↔ p ∈ pendingPaths d uf) ∧
    (∀ li files vi f, (li, files) ∈ uf.logos → files.getD vi none = some f →
      (((exportKit d uf).doc.logos.getD li default).variants.getD vi default).src =
        "/assets/logos/" ++ logoFilename d li vi f) ∧
    (∀ gi f, (gi, f) ∈ uf.gallery →
      ((exportKit d uf).doc.gallery.getD gi default).src =
        "/assets/gallery/" ++ galleryFilename gi f) ∧
    (∀ i j, (∀ files, (i, files) ∈ uf.logos → files.getD j none = none) →
      ((exportKit d uf).doc.logos.getD i default).variants.getD j default =
        (d.logos.getD i default).variants.getD j default) ∧
    (∀ i, (∀ f, (i, f) ∉ uf.gallery) →
      (exportKit d uf).doc.gallery.getD i default = d.gallery.getD i default) ∧
    (exportKit d uf).doc.brand = d.brand ∧ (exportKit d uf).doc.colors = d.colors ∧
    (exportKit d uf).doc.typography = d.typography ∧ SameShape d (exportKit d uf).doc := by
  refine ⟨ek_assets_nodup d uf, ek_assets_mem d uf, ?_, ?_, ?_, ?_,
    (ek_shape d uf).1, (ek_shape d uf).2.1, (ek_shape d uf).2.2.1, ek_shape d uf⟩
  · intro li files vi f hmem hslot
    exact ek_logo_src d uf hlnd hlb li files vi f hmem hslot
  · intro gi f hmem
    exact ek_gallery_src d uf hgnd hgb gi f hmem
  · intro i j h
    exact ek_logo_frame d uf i j h
  · intro i h
    exact ek_gallery_frame d uf i h

/-- C4 witness: the amended theorem applied to the concrete Acme kit and
its single staged upload. -/
theorem C4_export_frame_witness :
    (((exportKit c1Kit c1Files).doc.logos.getD 0 default).variants.getD 0 default).src =
      "/assets/logos/" ++ logoFilename c1Kit 0 0 { name := "raw.png", content := 7 } :=
  (C4_export_frame c1Kit c1Files (by decide) (by decide) (by decide) (by decide)).2.2.1
    0 [some { name := "raw.png", content := 7 }] 0 { name := "raw.png", content := 7 }
    (by decide) (by decide)

theorem zap_errs {α β : Type} (rf : Except (List ZodIssue) (α → β))
    (ra : Except (List ZodIssue) α) : errsOf (zap rf ra) = errsOf rf ++ errsOf ra := by
  cases rf <;> cases ra <;> rfl

theorem zap_not_ok_left {α β : Type} {rf : Except (List ZodIssue) (α → β)}
    (ra : Except (List ZodIssue) α) (h : exceptOk rf = false) :
    exceptOk (zap rf ra) = false := by
  cases rf <;> cases ra <;> simp_all [zap, exceptOk]

theorem zap_not_ok_right {α β : Type} (rf : Except (List ZodIssue) (α → β))
    {ra : Except (List ZodIssue) α} (h : exceptOk ra = false) :
    exceptOk (zap rf ra) = false := by
  cases rf <;> cases ra <;> simp_all [zap, exceptOk]

theorem zap_ok_inv {α β : Type} {rf : Except (List ZodIssue) (α → β)}
    {ra : Except (List ZodIssue) α} {b : β} (h : zap rf ra = .ok b) :
    ∃ f a, rf = .ok f ∧ ra = .ok a ∧ b = f a := by
  cases rf with
  | ok f =>
    cases ra with
    | ok a => exact ⟨f, a, rfl, rfl, by simpa [zap] using h.symm⟩
    | error es => simp [zap] at h
  | error es => cases ra <;> simp [zap] at h

/-- The whole-document issue list is the concatenation of the five
top-level sections' issue lists, in schema order: no section's failure
suppresses another's issues. -/
theorem vBrandData_errs (fs : List (String × Json)) :
    errsOf (vBrandData (.obj fs)) =
      errsOf (vReq vBrandInfo [.fld "brand"] (jlookup "brand" fs)) ++
      errsOf (vArrayMin vLogo 1 "At least one logo is required" [.fld "logos"]
        (jlookup "logos" fs)) ++
      errsOf (vArrayMin vColor 1 "At least one color is required" [.fld "colors"]
        (jlookup "colors" fs)) ++
      errsOf (vReq vTypography [.fld "typography"] (jlookup "typography" fs)) ++
      errsOf (vArrayDefault vGalleryItem [.fld "gallery"] (jlookup "gallery" fs)) := by
  show errsOf (zap (zap (zap (zap (zap (.ok BrandData.mk) _) _) _) _) _) = _
  rw [zap_errs, zap_errs, zap_errs, zap_errs, zap_errs]
  simp [errsOf, List.append_assoc]

/-- The typography section's issue list splits likewise into the fonts
and examples issue lists. -/
theorem vTypography_errs (path : List PathItem) (fs : List (String × Json)) :
    errsOf (vTypography path (.obj fs)) =
      errsOf (vArrayMin vFont 1 "At least one font is required" (path ++ [.fld "fonts"])
        (jlookup "fonts" fs)) ++
      errsOf (vArrayMin vTypographyExample 1 "At least one example is required"
        (path ++ [.fld "examples"]) (jlookup "examples" fs)) := by
  show errsOf (zap (zap (.ok Typography.mk) _) _) = _
  rw [zap_errs, zap_errs]
  simp [errsOf]

/-- Element-wise validation of a nonempty array splits into the head's
issues and the tail's issues: an invalid element never suppresses later
elements' issues. -/
theorem vElems_errs {α : Type} (v : List PathItem → Json → Except (List ZodIssue) α)
    (path : List PathItem) (i : ℕ) (x : Json) (xs : List Json) :
    errsOf (vElems v path i (x :: xs)) =
      errsOf (v (path ++ [.idx i]) x) ++ errsOf (vElems v path (i + 1) xs) := by
  show errsOf (match v (path ++ [.idx i]) x, vElems v path (i + 1) xs with
    | .ok a, .ok as => .ok (a :: as)
    | ra, ras => .error (errsOf ra ++ errsOf ras)) = _
  cases v (path ++ [.idx i]) x <;> cases vElems v path (i + 1) xs <;> rfl

theorem jlookup_mem {k : String} {v : Json} : ∀ {xs : List (String × Json)},
    jlookup k xs = some v → ∃ e ∈ xs, e.2 = v := by
  intro xs
  induction xs with
  | nil => intro h; simp [jlookup] at h
  | cons e es ih =>
    intro h
    by_cases hk : (k == e.1) = true
    · refine ⟨e, List.mem_cons_self _ _, ?_⟩
      simpa [jlookup, hk] using h
    · rw [jlookup, if_neg hk] at h
      obtain ⟨e', he', hv⟩ := ih h
      exact ⟨e', List.mem_cons_of_mem _ he', hv⟩

theorem jlookup_sizeOf {k : String} {v : Json} {xs : List (String × Json)}
    (h : jlookup k xs = some v) : sizeOf v < sizeOf (Json.obj xs) := by
  obtain ⟨e, he, hv⟩ := jlookup_mem h
  obtain ⟨k', v'⟩ := e
  have h1 : sizeOf (k', v') ≤ sizeOf xs := le_of_lt (List.sizeOf_lt_of_mem he)
  have h2 : sizeOf (Json.obj xs) = 1 + sizeOf xs := by simp
  have h3 : sizeOf (k', v') = 1 + sizeOf k' + sizeOf v' := by simp
  simp only [Prod.snd] at hv
  subst hv
  omega

theorem getD_sizeOf {xs : List Json} {i : ℕ} (h : i < xs.length) :
    sizeOf (xs.getD i Json.null) < sizeOf (Json.arr xs) := by
  have hmem : xs.getD i Json.null ∈ xs := by
    rw [List.getD_eq_getElem xs Json.null h]
    exact List.getElem_mem h
  have h1 := List.sizeOf_lt_of_mem hmem
  have h2 : sizeOf (Json.arr xs) = 1 + sizeOf xs := by simp
  omega

theorem jequiv_refl_aux : ∀ (n : ℕ) (a : Json), sizeOf a ≤ n → JEquiv a a := by
  intro n
  induction n with
  | zero =>
    intro a h
    cases a <;> simp at h
  | succ n ih =>
    intro a h
    match a with
    | .str s => exact JEquiv.str s
    | .num q => exact JEquiv.num q
    | .bool c => exact JEquiv.bool c
    | .null => exact JEquiv.null
    | .arr xs =>
      refine JEquiv.arr xs xs rfl ?_
      intro i
      by_cases hi : i < xs.length
      · exact ih _ (by have := getD_sizeOf hi; omega)
      · rw [List.getD_eq_default _ _ (by omega)]
        exact JEquiv.null
    | .obj xs =>
      refine JEquiv.obj xs xs ?_
      intro k
      cases hk : jlookup k xs with
      | none => exact JOptRel.none
      | some v =>
        refine JOptRel.some (ih v ?_)
        have := jlookup_sizeOf hk
        omega

theorem jequiv_refl (a : Json) : JEquiv a a := jequiv_refl_aux (sizeOf a) a le_rfl

theorem jlookup_perm : ∀ {xs ys : List (String × Json)}, xs.Perm ys →
    (xs.map Prod.fst).Nodup → ∀ k, jlookup k xs = jlookup k ys := by
  intro xs ys hp
  induction hp with
  | nil => intro _ k; rfl
  | cons e hp' ih =>
    intro hnd k
    rw [List.map_cons] at hnd
    by_cases hk : (k == e.1) = true
    · simp [jlookup, hk]
    · rw [jlookup, if_neg hk, jlookup, if_neg hk]
      exact ih (List.nodup_cons.mp hnd).2 k
  | swap e1 e2 l =>
    intro hnd k
    rw [List.map_cons, List.map_cons] at hnd
    have hne : e2.1 ≠ e1.1 := by
      have := (List.nodup_cons.mp hnd).1
      intro heq
      exact this (by rw [heq]; exact List.mem_cons_self _ _)
    by_cases h1 : (k == e2.1) = true
    · have hk2 : (k == e1.1) = false := by
        rw [beq_iff_eq] at h1
        subst h1
        simpa [beq_iff_eq] using hne
      simp [jlookup, h1, hk2]
    · simp [jlookup, h1]
  | trans hp1 hp2 ih1 ih2 =>
    intro hnd k
    rw [ih1 hnd k, ih2 (((hp1.map Prod.fst).nodup_iff).mp hnd) k]

/-- Reordering the fields of an object whose keys do not repeat produces
an order-equivalent document. -/
theorem jequiv_of_perm {xs ys : List (String × Json)} (hp : xs.Perm ys)
    (hnd : (xs.map Prod.fst).Nodup) : JEquiv (.obj xs) (.obj ys) := by
  refine JEquiv.obj xs ys ?_
  intro k
  rw [jlookup_perm hp hnd k]
  cases jlookup k ys with
  | none => exact JOptRel.none
  | some v => exact JOptRel.some (jequiv_refl v)

theorem jequiv_obj_rel {xs ys : List (String × Json)}
    (h : JEquiv (.obj xs) (.obj ys)) (k : String) :
    JOptRel (jlookup k xs) (jlookup k ys) := by
  cases h with
  | obj xs ys h1 => exact h1 k

theorem vStr_congr (p : List PathItem) (a b : Json) (h : JEquiv a b) :
    vStr p a = vStr p b := by
  cases h <;> rfl

theorem vStrMin_congr (m : ℕ) (msg : String) (p : List PathItem) (a b : Json)
    (h : JEquiv a b) : vStrMin m msg p a = vStrMin m msg p b := by
  cases h <;> rfl

theorem vStrCheck_congr (ok : String → Bool) (msg : String) (p : List PathItem) (a b : Json)
    (h : JEquiv a b) : vStrCheck ok msg p a = vStrCheck ok msg p b := by
  cases h <;> rfl

theorem vNum_congr (p : List PathItem) (a b : Json) (h : JEquiv a b) :
    vNum p a = vNum p b := by
  cases h <;> rfl

theorem vNumMin_congr (lo : ℚ) (msg : String) (p : List PathItem) (a b : Json)
    (h : JEquiv a b) : vNumMin lo msg p a = vNumMin lo msg p b := by
  cases h <;> rfl

theorem vNumRange_congr (lo hi : ℚ) (loMsg hiMsg : String) (p : List PathItem) (a b : Json)
    (h : JEquiv a b) : vNumRange lo hi loMsg hiMsg p a = vNumRange lo hi loMsg hiMsg p b := by
  cases h <;> rfl

theorem vEnum_congr (options : List String) (p : List PathItem) (a b : Json)
    (h : JEquiv a b) : vEnum options p a = vEnum options p b := by
  cases h <;> rfl

theorem vReq_congr {α : Type} {v : List PathItem → Json → Except (List ZodIssue) α}
    (hv : ∀ p a b, JEquiv a b → v p a = v p b) {o1 o2 : Option Json} (hrel : JOptRel o1 o2)
    {p : List PathItem} : vReq v p o1 = vReq v p o2 := by
  cases hrel with
  | none => rfl
  | some hab => exact hv _ _ _ hab

theorem vOptional_congr {α : Type} {v : List PathItem → Json → Except (List ZodIssue) α}
    (hv : ∀ p a b, JEquiv a b → v p a = v p b) {o1 o2 : Option Json} (hrel : JOptRel o1 o2)
    {p : List PathItem} : vOptional v p o1 = vOptional v p o2 := by
  cases hrel with
  | none => rfl
  | some hab =>
    simp only [vOptional]
    rw [hv _ _ _ hab]

theorem vElems_congr {α : Type} {v : List PathItem → Json → Except (List ZodIssue) α}
    (hv : ∀ p a b, JEquiv a b → v p a = v p b) (p : List PathItem) :
    ∀ (xs ys : List Json) (i : ℕ), xs.length = ys.length →
    (∀ k, JEquiv (xs.getD k .null) (ys.getD k .null)) →
    vElems v p i xs = vElems v p i ys := by
  intro xs
  induction xs with
  | nil =>
    intro ys i hlen _
    cases ys with
    | nil => rfl
    | cons y ys => simp at hlen
  | cons x xs ih =>
    intro ys i hlen hk
    cases ys with
    | nil => simp at hlen
    | cons y ys =>
      simp only [vElems]
      have h0 : JEquiv x y := by simpa using hk 0
      have hx : v (p ++ [PathItem.idx i]) x = v (p ++ [PathItem.idx i]) y := hv _ x y h0
      rw [hx, ih ys (i + 1) (by simpa using hlen) (fun k => by simpa using hk (k + 1))]

theorem vArrayMin_congr {α : Type} {v : List PathItem → Json → Except (List ZodIssue) α}
    (hv : ∀ p a b, JEquiv a b → v p a = v p b) (minN : ℕ) (minMsg : String)
    {o1 o2 : Option Json} (hrel : JOptRel o1 o2) {p : List PathItem} :
    vArrayMin v minN minMsg p o1 = vArrayMin v minN minMsg p o2 := by
  cases hrel with
  | none => rfl
  | some hab =>
    cases hab with
    | str s => rfl
    | num q => rfl
    | bool c => rfl
    | null => rfl
    | obj xs ys h1 => rfl
    | arr xs ys hlen harr =>
      simp only [vArrayMin]
      rw [hlen, vElems_congr hv p xs ys 0 hlen harr]

theorem vArrayDefault_congr {α : Type} {v : List PathItem → Json → Except (List ZodIssue) α}
    (hv : ∀ p a b, JEquiv a b → v p a = v p b) {o1 o2 : Option Json} (hrel : JOptRel o1 o2)
    {p : List PathItem} : vArrayDefault v p o1 = vArrayDefault v p o2 := by
  cases hrel with
  | none => rfl
  | some hab => exact vArrayMin_congr hv 0 "" (JOptRel.some hab)

theorem vLogoVariant_congr (p : List PathItem) (a b : Json) (h : JEquiv a b) :
    vLogoVariant p a = vLogoVariant p b := by
  cases h with
  | str s => rfl
  | num q => rfl
  | bool c => rfl
  | null => rfl
  | arr xs ys hlen harr => rfl
  | obj xs ys h1 =>
    show zap (zap (.ok LogoVariant.mk) _) _ = zap (zap (.ok LogoVariant.mk) _) _
    rw [vReq_congr (vStrMin_congr 1 "Label is required") (h1 "label"),
        vReq_congr (vStrMin_congr 1 "Source path is required") (h1 "src")]

theorem vLogo_congr (p : List PathItem) (a b : Json) (h : JEquiv a b) :
    vLogo p a = vLogo p b := by
  cases h with
  | str s => rfl
  | num q => rfl
  | bool c => rfl
  | null => rfl
  | arr xs ys hlen harr => rfl
  | obj xs ys h1 =>
    show zap (zap (zap (.ok Logo.mk) _) _) _ = zap (zap (zap (.ok Logo.mk) _) _) _
    rw [vReq_congr (vStrMin_congr 1 "Logo name is required") (h1 "name"),
        vReq_congr (vStrMin_congr 1 "Description is required") (h1 "description"),
        vArrayMin_congr vLogoVariant_congr 1 "At least one variant is required"
          (h1 "variants")]

theorem vColorValues_congr (p : List PathItem) (a b : Json) (h : JEquiv a b) :
    vColorValues p a = vColorValues p b := by
  cases h with
  | str s => rfl
  | num q => rfl
  | bool c => rfl
  | null => rfl
  | arr xs ys hlen harr => rfl
  | obj xs ys h1 =>
    show zap (zap (zap (.ok ColorValues.mk) _) _) _ = zap (zap (zap (.ok ColorValues.mk) _) _) _
    rw [vReq_congr (vStrCheck_congr hexRegexOk "Must be a valid hex color (e.g., #035259)")
          (h1 "hex"),
        vReq_congr (vStrCheck_congr (sepDigitsRegexOk 2)
          "Must be in format: R, G, B (e.g., 3, 82, 89)") (h1 "rgb"),
        vReq_congr (vStrCheck_congr (sepDigitsRegexOk 3)
          "Must be in format: C, M, Y, K (e.g., 34, 3, 0, 65)") (h1 "cmyk")]

theorem vColor_congr (p : List PathItem) (a b : Json) (h : JEquiv a b) :
    vColor p a = vColor p b := by
  cases h with
  | str s => rfl
  | num q => rfl
  | bool c => rfl
  | null => rfl
  | arr xs ys hlen harr => rfl
  | obj xs ys h1 =>
    show zap (zap (zap (.ok Color.mk) _) _) _ = zap (zap (zap (.ok Color.mk) _) _) _
    rw [vReq_congr (vStrMin_congr 1 "Color name is required") (h1 "name"),
        vArrayMin_congr (vEnum_congr ["Primary", "Secondary", "Data"]) 1
          "At least one role is required" (h1 "role"),
        vReq_congr vColorValues_congr (h1 "values")]

theorem vFontSource_congr (p : List PathItem) (a b : Json) (h : JEquiv a b) :
    vFontSource p a = vFontSource p b := by
  cases h with
  | str s => rfl
  | num q => rfl
  | bool c => rfl
  | null => rfl
  | arr xs ys hlen harr => rfl
  | obj xs ys h1 =>
    show zap (zap (zap (.ok FontSource.mk) _) _) _ = zap (zap (zap (.ok FontSource.mk) _) _) _
    rw [vReq_congr (vEnum_congr ["google", "local", "url"]) (h1 "type"),
        vReq_congr (vStrMin_congr 1 "Font family is required") (h1 "family"),
        vArrayMin_congr vNum_congr 1 "At least one font weight is required" (h1 "weights")]

theorem vFont_congr (p : List PathItem) (a b : Json) (h : JEquiv a b) :
    vFont p a = vFont p b := by
  cases h with
  | str s => rfl
  | num q => rfl
  | bool c => rfl
  | null => rfl
  | arr xs ys hlen harr => rfl
  | obj xs ys h1 =>
    show zap (zap (.ok Font.mk) _) _ = zap (zap (.ok Font.mk) _) _
    rw [vReq_congr (vStrMin_congr 1 "Font name is required") (h1 "name"),
        vReq_congr vFontSource_congr (h1 "source")]

theorem vTypographyExample_congr (p : List PathItem) (a b : Json) (h : JEquiv a b) :
    vTypographyExample p a = vTypographyExample p b := by
  cases h with
  | str s => rfl
  | num q => rfl
  | bool c => rfl
  | null => rfl
  | arr xs ys hlen harr => rfl
  | obj xs ys h1 =>
    show zap (zap (zap (zap (zap (zap (zap (.ok TypographyExample.mk) _) _) _) _) _) _) _ =
      zap (zap (zap (zap (zap (zap (zap (.ok TypographyExample.mk) _) _) _) _) _) _) _
    rw [vReq_congr (vStrMin_congr 1 "Label is required") (h1 "label"),
        vReq_congr (vStrMin_congr 1 "Font is required") (h1 "font"),
        vReq_congr (vNumMin_congr 1 "Size must be at least 1px") (h1 "sizePx"),
        vReq_congr (vNumRange_congr 100 900 "Number must be greater than or equal to 100"
          "Number must be less than or equal to 900") (h1 "weight"),
        vReq_congr (vStrMin_congr 1 "Example text is required") (h1 "text"),
        vOptional_congr vNum_congr (h1 "lineHeight"),
        vOptional_congr vStr_congr (h1 "letterSpacing")]

theorem vTypography_congr (p : List PathItem) (a b : Json) (h : JEquiv a b) :
    vTypography p a = vTypography p b := by
  cases h with
  | str s => rfl
  | num q => rfl
  | bool c => rfl
  | null => rfl
  | arr xs ys hlen harr => rfl
  | obj xs ys h1 =>
    show zap (zap (.ok Typography.mk) _) _ = zap (zap (.ok Typography.mk) _) _
    rw [vArrayMin_congr vFont_congr 1 "At least one font is required" (h1 "fonts"),
        vArrayMin_congr vTypographyExample_congr 1 "At least one example is required"
          (h1 "examples")]

theorem vGalleryItem_congr (p : List PathItem) (a b : Json) (h : JEquiv a b) :
    vGalleryItem p a = vGalleryItem p b := by
  cases h with
  | str s => rfl
  | num q => rfl
  | bool c => rfl
  | null => rfl
  | arr xs ys hlen harr => rfl
  | obj xs ys h1 =>
    show zap (zap (.ok GalleryItem.mk) _) _ = zap (zap (.ok GalleryItem.mk) _) _
    rw [vOptional_congr vStr_congr (h1 "caption"),
        vReq_congr (vStrMin_congr 1 "Source path is required") (h1 "src")]

theorem vBrandInfo_congr (p : List PathItem) (a b : Json) (h : JEquiv a b) :
    vBrandInfo p a = vBrandInfo p b := by
  cases h with
  | str s => rfl
  | num q => rfl
  | bool c => rfl
  | null => rfl
  | arr xs ys hlen harr => rfl
  | obj xs ys h1 =>
    show zap (zap (zap (zap (.ok BrandInfo.mk) _) _) _) _ =
      zap (zap (zap (zap (.ok BrandInfo.mk) _) _) _) _
    rw [vReq_congr (vStrMin_congr 1 "Brand name is required") (h1 "name"),
        vReq_congr (vStrMin_congr 1 "Description is required") (h1 "description"),
        vReq_congr (vStrCheck_congr isAbsoluteUrl "Must be a valid URL") (h1 "website"),
        vReq_congr (vStrCheck_congr dateRegexOk "Must be in format: YYYY-MM-DD")
          (h1 "updatedAt")]

theorem vBrandData_congr (a b : Json) (h : JEquiv a b) : vBrandData a = vBrandData b := by
  cases h with
  | str s => rfl
  | num q => rfl
  | bool c => rfl
  | null => rfl
  | arr xs ys hlen harr => rfl
  | obj xs ys h1 =>
    show zap (zap (zap (zap (zap (.ok BrandData.mk) _) _) _) _) _ =
      zap (zap (zap (zap (zap (.ok BrandData.mk) _) _) _) _) _
    rw [vReq_congr vBrandInfo_congr (h1 "brand"),
        vArrayMin_congr vLogo_congr 1 "At least one logo is required" (h1 "logos"),
        vArrayMin_congr vColor_congr 1 "At least one color is required" (h1 "colors"),
        vReq_congr vTypography_congr (h1 "typography"),
        vArrayDefault_congr vGalleryItem_congr (h1 "gallery")]

/-- C6: schema validation rejects any candidate object whose `logos` or
`colors` value is the empty array, and any candidate whose `typography`
object carries an empty `fonts` or `examples` array, in each case
reporting the schema's min-length issue at the path naming that array;
and the concrete candidate that is fully valid except for the hex value
`"#ZZZZZZ"` is rejected with exactly one issue, at
`colors.0.values.hex`, citing the hex message. -/
theorem C6_rejections :
    (∀ fs, jlookup "logos" fs = some (.arr []) →
      exceptOk (vBrandData (.obj fs)) = false ∧
      (⟨[.fld "logos"], "At least one logo is required"⟩ : ZodIssue) ∈
        errsOf (vBrandData (.obj fs))) ∧
    (∀ fs, jlookup "colors" fs = some (.arr []) →
      exceptOk (vBrandData (.obj fs)) = false ∧
      (⟨[.fld "colors"], "At least one color is required"⟩ : ZodIssue) ∈
        errsOf (vBrandData (.obj fs))) ∧
    (∀ fs tf, jlookup "typography" fs = some (.obj tf) →
      jlookup "fonts" tf = some (.arr []) →
      exceptOk (vBrandData (.obj fs)) = false ∧
      (⟨[.fld "typography", .fld "fonts"], "At least one font is required"⟩ : ZodIssue) ∈
        errsOf (vBrandData (.obj fs))) ∧
    (∀ fs tf, jlookup "typography" fs = some (.obj tf) →
      jlookup "examples" tf = some (.arr []) →
      exceptOk (vBrandData (.obj fs)) = false ∧
      (⟨[.fld "typography", .fld "examples"], "At least one example is required"⟩ : ZodIssue) ∈
        errsOf (vBrandData (.obj fs))) ∧
    (exceptOk (vBrandData (.obj c6Fields)) = false ∧
      errsOf (vBrandData (.obj c6Fields)) =
        [⟨[.fld "colors", .idx 0, .fld "values", .fld "hex"],
          "Must be a valid hex color (e.g., #035259)"⟩]) := by
  refine ⟨?_, ?_, ?_, ?_, rfl, rfl⟩
  · intro fs h
    have hlr : vArrayMin vLogo 1 "At least one logo is required" [.fld "logos"]
        (jlookup "logos" fs) =
        .error [⟨[.fld "logos"], "At least one logo is required"⟩] := by
      rw [h]; exact rfl
    constructor
    · show exceptOk (zap (zap (zap (zap (zap (.ok BrandData.mk) _) _) _) _) _) = false
      apply zap_not_ok_left
      apply zap_not_ok_left
      apply zap_not_ok_left
      apply zap_not_ok_right
      rw [hlr]
      rfl
    · rw [vBrandData_errs fs, hlr]
      simp [errsOf]
  · intro fs h
    have hcr : vArrayMin vColor 1 "At least one color is required" [.fld "colors"]
        (jlookup "colors" fs) =
        .error [⟨[.fld "colors"], "At least one color is required"⟩] := by
      rw [h]; exact rfl
    constructor
    · show exceptOk (zap (zap (zap (zap (zap (.ok BrandData.mk) _) _) _) _) _) = false
      apply zap_not_ok_left
      apply zap_not_ok_left
      apply zap_not_ok_right
      rw [hcr]
      rfl
    · rw [vBrandData_errs fs, hcr]
      simp [errsOf]
  · intro fs tf h h2
    have hreq : vReq vTypography [.fld "typography"] (some (.obj tf)) =
        vTypography [.fld "typography"] (.obj tf) := rfl
    have hfr : vArrayMin vFont 1 "At least one font is required"
        ([.fld "typography"] ++ [.fld "fonts"]) (jlookup "fonts" tf) =
        .error [⟨[.fld "typography", .fld "fonts"], "At least one font is required"⟩] := by
      rw [h2]; exact rfl
    constructor
    · show exceptOk (zap (zap (zap (zap (zap (.ok BrandData.mk) _) _) _) _) _) = false
      apply zap_not_ok_left
      apply zap_not_ok_right
      rw [h, hreq]
      show exceptOk (zap (zap (.ok Typography.mk) _) _) = false
      apply zap_not_ok_left
      apply zap_not_ok_right
      rw [hfr]
      rfl
    · rw [vBrandData_errs fs, h, hreq, vTypography_errs, hfr]
      simp [errsOf]
  · intro fs tf h h2
    have hreq : vReq vTypography [.fld "typography"] (some (.obj tf)) =
        vTypography [.fld "typography"] (.obj tf) := rfl
    have her : vArrayMin vTypographyExample 1 "At least one example is required"
        ([.fld "typography"] ++ [.fld "examples"]) (jlookup "examples" tf) =
        .error [⟨[.fld "typography", .fld "examples"],
          "At least one example is required"⟩] := by
      rw [h2]; exact rfl
    constructor
    · show exceptOk (zap (zap (zap (zap (zap (.ok BrandData.mk) _) _) _) _) _) = false
      apply zap_not_ok_left
      apply zap_not_ok_right
      rw [h, hreq]
      show exceptOk (zap (zap (.ok Typography.mk) _) _) = false
      apply zap_not_ok_right
      rw [her]
      rfl
    · rw [vBrandData_errs fs, h, hreq, vTypography_errs, her]
      simp [errsOf]

/-- C6 witness: the empty-`logos` rejection applied to the concrete
candidate whose `logos` value is the empty array. -/
theorem C6_rejections_witness :
    exceptOk (vBrandData (.obj c7FieldsA)) = false ∧
    (⟨[.fld "logos"], "At least one logo is required"⟩ : ZodIssue) ∈
      errsOf (vBrandData (.obj c7FieldsA)) :=
  C6_rejections.1 c7FieldsA rfl

/-- C7: whole-document validation is a pure function of the candidate
tree that does not depend on object-field order — order-equivalent
candidates validate to identical results — and it never short-circuits:
the issue list of a document is the concatenation of the five top-level
sections' issue lists in schema order, and element-wise array validation
likewise concatenates every element's issues. -/
theorem C7_error_reporting :
    (∀ a b, JEquiv a b → vBrandData a = vBrandData b) ∧
    (∀ fs, errsOf (vBrandData (.obj fs)) =
      errsOf (vReq vBrandInfo [.fld "brand"] (jlookup "brand" fs)) ++
      errsOf (vArrayMin vLogo 1 "At least one logo is required" [.fld "logos"]
        (jlookup "logos" fs)) ++
      errsOf (vArrayMin vColor 1 "At least one color is required" [.fld "colors"]
        (jlookup "colors" fs)) ++
      errsOf (vReq vTypography [.fld "typography"] (jlookup "typography" fs)) ++
      errsOf (vArrayDefault vGalleryItem [.fld "gallery"] (jlookup "gallery" fs))) ∧
    (∀ (α : Type) (v : List PathItem → Json → Except (List ZodIssue) α)
      (path : List PathItem) (i : ℕ) (x : Json) (xs : List Json),
      errsOf (vElems v path i (x :: xs)) =
        errsOf (v (path ++ [.idx i]) x) ++ errsOf (vElems v path (i + 1) xs)) :=
  ⟨vBrandData_congr, vBrandData_errs, fun _ v path i x xs => vElems_errs v path i x xs⟩

/-- C7 witness: the same two-violation candidate written with its first
two fields in either order validates to the same result, whose issue
list contains BOTH violations' issues. -/
theorem C7_error_reporting_witness :
    vBrandData (.obj c7FieldsA) = vBrandData (.obj c7FieldsB) ∧
    errsOf (vBrandData (.obj c7FieldsA)) =
      [⟨[.fld "logos"], "At least one logo is required"⟩,
       ⟨[.fld "colors"], "At least one color is required"⟩] :=
  ⟨C7_error_reporting.1 _ _ (jequiv_of_perm
      (by unfold c7FieldsA c7FieldsB; exact List.Perm.swap _ _ _) (by decide)),
   rfl⟩

/-- C10: a candidate object with the `gallery` key absent that validates
successfully yields the default `gallery = []`; a candidate with
`brand`, `logos`, `colors` or `typography` absent is rejected with the
`Required` issue at that field's path (so `gallery` is the only
top-level field with a default); and the concrete valid candidate that
omits `gallery` is accepted, producing exactly the Acme kit — whose
gallery is the empty array. -/
theorem C10_gallery_default :
    (∀ fs bd, jlookup "gallery" fs = none → vBrandData (.obj fs) = .ok bd →
      bd.gallery = []) ∧
    (∀ fs, jlookup "brand" fs = none →
      exceptOk (vBrandData (.obj fs)) = false ∧
      (⟨[.fld "brand"], "Required"⟩ : ZodIssue) ∈ errsOf (vBrandData (.obj fs))) ∧
    (∀ fs, jlookup "logos" fs = none →
      exceptOk (vBrandData (.obj fs)) = false ∧
      (⟨[.fld "logos"], "Required"⟩ : ZodIssue) ∈ errsOf (vBrandData (.obj fs))) ∧
    (∀ fs, jlookup "colors" fs = none →
      exceptOk (vBrandData (.obj fs)) = false ∧
      (⟨[.fld "colors"], "Required"⟩ : ZodIssue) ∈ errsOf (vBrandData (.obj fs))) ∧
    (∀ fs, jlookup "typography" fs = none →
      exceptOk (vBrandData (.obj fs)) = false ∧
      (⟨[.fld "typography"], "Required"⟩ : ZodIssue) ∈ errsOf (vBrandData (.obj fs))) ∧
    (vBrandData (.obj c10Fields) = .ok c1Kit ∧ c1Kit.gallery = []) := by
  refine ⟨?_, ?_, ?_, ?_, ?_, rfl, rfl⟩
  · intro fs bd hg hok
    simp only [vBrandData] at hok
    rw [hg] at hok
    obtain ⟨f4, g, hf4, hgal, hbd⟩ := zap_ok_inv hok
    obtain ⟨f3, t, hf3, _, hf4eq⟩ := zap_ok_inv hf4
    obtain ⟨f2, c, hf2, _, hf3eq⟩ := zap_ok_inv hf3
    obtain ⟨f1, l, hf1, _, hf2eq⟩ := zap_ok_inv hf2
    obtain ⟨f0, b0, hf0, _, hf1eq⟩ := zap_ok_inv hf1
    have hf0eq : BrandData.mk = f0 := by simpa using hf0
    have hgeq : ([] : List GalleryItem) = g := by simpa [vArrayDefault] using hgal
    subst hbd hf4eq hf3eq hf2eq hf1eq hf0eq
    rw [← hgeq]
  · intro fs h
    have hbr : vReq vBrandInfo [.fld "brand"] (jlookup "brand" fs) =
        .error [⟨[.fld "brand"], "Required"⟩] := by rw [h]; exact rfl
    constructor
    · show exceptOk (zap (zap (zap (zap (zap (.ok BrandData.mk) _) _) _) _) _) = false
      apply zap_not_ok_left
      apply zap_not_ok_left
      apply zap_not_ok_left
      apply zap_not_ok_left
      apply zap_not_ok_right
      rw [hbr]
      rfl
    · rw [vBrandData_errs fs, hbr]
      simp [errsOf]
  · intro fs h
    have hlr : vArrayMin vLogo 1 "At least one logo is required" [.fld "logos"]
        (jlookup "logos" fs) = .error [⟨[.fld "logos"], "Required"⟩] := by rw [h]; exact rfl
    constructor
    · show exceptOk (zap (zap (zap (zap (zap (.ok BrandData.mk) _) _) _) _) _) = false
      apply zap_not_ok_left
      apply zap_not_ok_left
      apply zap_not_ok_left
      apply zap_not_ok_right
      rw [hlr]
      rfl
    · rw [vBrandData_errs fs, hlr]
      simp [errsOf]
  · intro fs h
    have hcr : vArrayMin vColor 1 "At least one color is required" [.fld "colors"]
        (jlookup "colors" fs) = .error [⟨[.fld "colors"], "Required"⟩] := by rw [h]; exact rfl
    constructor
    · show exceptOk (zap (zap (zap (zap (zap (.ok BrandData.mk) _) _) _) _) _) = false
      apply zap_not_ok_left
      apply zap_not_ok_left
      apply zap_not_ok_right
      rw [hcr]
      rfl
    · rw [vBrandData_errs fs, hcr]
      simp [errsOf]
  · intro fs h
    have htr : vReq vTypography [.fld "typography"] (jlookup "typography" fs) =
        .error [⟨[.fld "typography"], "Required"⟩] := by rw [h]; exact rfl
    constructor
    · show exceptOk (zap (zap (zap (zap (zap (.ok BrandData.mk) _) _) _) _) _) = false
      apply zap_not_ok_left
      apply zap_not_ok_right
      rw [htr]
      rfl
    · rw [vBrandData_errs fs, htr]
      simp [errsOf]

/-- C10 witness: the gallery-default and missing-`brand` clauses applied
to concrete candidates. -/
theorem C10_gallery_default_witness :
    c1Kit.gallery = [] ∧
    exceptOk (vBrandData (.obj ([] : List (String × Json)))) = false :=
  ⟨C10_gallery_default.1 c10Fields c1Kit rfl rfl,
   (C10_gallery_default.2.1 [] rfl).1⟩
